import Mathlib

/-!
# DAPLink mass-storage endpoint: sector read server and flash-transfer state machine

A shallow embedding of the live code of `interface/Common/src/usbd_user_msc.c`
(`usbd_msc_init`, `usbd_msc_read_sect`, `first_byte_valid`, `wanted_dir_entry`,
`usbd_msc_write_sect`) and theorems about it.

Conventions of the embedding.
* `U32`/`uint32_t` values are natural numbers; every arithmetic result the C code
  stores in a 32-bit object is reduced with `u32` (modulo `2^32`).
* A byte buffer (`U8 *`) is the list of the bytes it points to; a byte read past
  the end of the list of a *written* sector reads as `0`.
* The statics and globals the functions touch are the fields of `Device`; every
  function takes the device and gives the new device back.
* Calls into other translation units (`main_blink_msd_led`, `target_flash_init`,
  `target_flash_program_page`, `main_usb_disconnect_event`, `update_html_file`) are
  recorded, in program order, in a list of `Event`s.  The values the flash calls
  return are inputs of the call (`FlashReturns`); `validate_bin_nvic` is a parameter.
* `debug_msg` is a logging facility and is not modelled.
-/

set_option linter.unusedVariables false
set_option maxRecDepth 16384

namespace DAPLink

/-! ## Machine integers -/

/-- Reduction of a natural number to an unsigned 32-bit value. -/
def u32 (n : Nat) : Nat := n % 4294967296

/-- Unsigned 32-bit subtraction `a - b`, wrapping around below zero. -/
def u32_sub (a b : Nat) : Nat := (a % 4294967296 + 4294967296 - b % 4294967296) % 4294967296

/-- Reduction of a natural number to an unsigned 8-bit value. -/
def u8 (n : Nat) : Nat := n % 256

/-! ## Calls that leave the translation unit -/

/-- The externally visible calls made by the functions of this file. -/
inductive Event where
  | main_blink_msd_led (permanent : Nat)
  | target_flash_init
  | target_flash_program_page (adr : Nat) (buf : List Nat) (size : Nat)
  | main_usb_disconnect_event
  | update_html_file
  deriving DecidableEq, Repr

/-- The values returned by the flash driver during one call of `usbd_msc_write_sect`
(each of the two driver functions is called at most once per call). -/
structure FlashReturns where
  target_flash_init : Nat
  target_flash_program_page : Nat
  deriving DecidableEq, Repr

/-! ## Data model -/

/-- The fields of the boot record (`mbr`) read by this file. -/
structure mbr_t where
  bytes_per_sector : Nat
  total_logical_sectors : Nat
  num_fats : Nat
  logical_sectors_per_fat : Nat
  deriving DecidableEq, Repr

/-- One entry of the virtual sector table `fs[]`: `sect` is a pointer to the bytes of the
entry (`none` is the null pointer, `some bytes` a pointer to an object holding `bytes`),
`length` the number of bytes the entry occupies on the virtual disk. -/
structure fs_entry_t where
  sect : Option (List Nat)
  length : Nat
  deriving DecidableEq, Repr

/-- The `sizeof(fs[i].sect)` of the source: `sect` is assigned, compared with `0` and
indexed, hence a pointer, and a pointer of the 32-bit target occupies four bytes. -/
def sizeof_sect : Nat := 4

/-- The enumeration `extension_t`. -/
inductive extension_t where
  | UNKNOWN
  | BIN
  deriving DecidableEq, Repr

/-- The numeric value of an `extension_t` (`UNKNOWN = 0`, `BIN = 1`), as tested by `if`. -/
def extension_t.toNat : extension_t → Nat
  | .UNKNOWN => 0
  | .BIN => 1

/-- The 32-byte short-filename directory record `FatDirectoryEntry_t`, with the field
order and widths of the initialisers kept (commented out) in the source file. -/
structure FatDirectoryEntry_t where
  filename : List Nat
  attributes : Nat
  reserved : Nat
  creation_time_ms : Nat
  creation_time : Nat
  creation_date : Nat
  accessed_date : Nat
  first_cluster_high_16 : Nat
  modification_time : Nat
  modification_date : Nat
  first_cluster_low_16 : Nat
  filesize : Nat
  deriving DecidableEq, Repr

/-- The `sizeof(tmp_file)` of the source: a directory record occupies 32 bytes. -/
def sizeof_FatDirectoryEntry_t : Nat := 32

/-- Little-endian 16-bit field at offset `o` of a record. -/
def le16 (b : List Nat) (o : Nat) : Nat :=
  u8 (b.getD o 0) + 256 * u8 (b.getD (o + 1) 0)

/-- Little-endian 32-bit field at offset `o` of a record. -/
def le32 (b : List Nat) (o : Nat) : Nat :=
  u8 (b.getD o 0) + 256 * u8 (b.getD (o + 1) 0) + 65536 * u8 (b.getD (o + 2) 0)
    + 16777216 * u8 (b.getD (o + 3) 0)

/-- The `memcpy(&tmp_file, &buf[i*sizeof(tmp_file)], sizeof(tmp_file))` of the directory
scan: the record number `i` of a written sector, seen through the packed layout. -/
def read_dir_entry (buf : List Nat) (i : Nat) : FatDirectoryEntry_t :=
  let b := (buf.drop (i * sizeof_FatDirectoryEntry_t)).take sizeof_FatDirectoryEntry_t
  { filename := (List.range 11).map (fun k => u8 (b.getD k 0))
    attributes := u8 (b.getD 11 0)
    reserved := u8 (b.getD 12 0)
    creation_time_ms := u8 (b.getD 13 0)
    creation_time := le16 b 14
    creation_date := le16 b 16
    accessed_date := le16 b 18
    first_cluster_high_16 := le16 b 20
    modification_time := le16 b 22
    modification_date := le16 b 24
    first_cluster_low_16 := le16 b 26
    filesize := le32 b 28 }

/-- The function-static `file_transfer_state` of `usbd_msc_write_sect`. -/
structure file_transfer_state_t where
  start_block : Nat
  amt_to_write : Nat
  amt_written : Nat
  last_block_written : Nat
  transfer_started : Nat
  file_type : extension_t
  deriving DecidableEq, Repr

/-- The globals and statics read or written by the functions of this file. -/
structure Device where
  mbr : mbr_t
  fs : List fs_entry_t
  USBD_MSC_MemorySize : Nat
  USBD_MSC_BlockSize : Nat
  USBD_MSC_BlockGroup : Nat
  USBD_MSC_BlockCount : Nat
  USBD_MSC_MediaReady : Bool
  file_transfer_state : file_transfer_state_t
  deriving DecidableEq, Repr

/-- The static initialiser `{0,0,0,0,0,UNKNOWN}` of `file_transfer_state`. -/
def file_transfer_state_init : file_transfer_state_t :=
  { start_block := 0, amt_to_write := 0, amt_written := 0, last_block_written := 0,
    transfer_started := 0, file_type := .UNKNOWN }

/-! ## `usbd_msc_init` -/

/-- The function `usbd_msc_init`.  `virtual_fs_init` (another translation unit) configures
the boot record and the sector table; its effect is the parameter `virtual_fs_init`.  The
assignment of `USBD_MSC_BlockBuf` has no counterpart: the block buffer is an argument of the
read and write functions.  The function-static `file_transfer_state` of
`usbd_msc_write_sect` is out of the reach of this function. -/
def usbd_msc_init (virtual_fs_init : mbr_t × List fs_entry_t → mbr_t × List fs_entry_t)
    (d : Device) : Device :=
  let cfg := virtual_fs_init (d.mbr, d.fs)
  let memorySize := u32 (cfg.1.bytes_per_sector * cfg.1.total_logical_sectors)
  let blockSize := u32 cfg.1.bytes_per_sector
  { d with
    mbr := cfg.1
    fs := cfg.2
    USBD_MSC_MemorySize := memorySize
    USBD_MSC_BlockSize := blockSize
    USBD_MSC_BlockGroup := 1
    USBD_MSC_BlockCount := memorySize / blockSize
    USBD_MSC_MediaReady := true }

/-! ## `first_byte_valid` and `wanted_dir_entry` -/

/-- The characters of the literal `"0123456789ABCDEFGHIJKLMNOPQRSTUVWXYZ"`, without the
terminating NUL. -/
def valid_char : List Nat :=
  [48, 49, 50, 51, 52, 53, 54, 55, 56, 57,
   65, 66, 67, 68, 69, 70, 71, 72, 73, 74, 75, 76, 77,
   78, 79, 80, 81, 82, 83, 84, 85, 86, 87, 88, 89, 90]

/-- The `do ... while` loop of `first_byte_valid`, the argument being the rest of the
literal from the cursor on; at the end of the list the cursor is on the terminating NUL,
which is compared with `c` before the loop condition ends the loop. -/
def first_byte_valid_loop (c : Nat) : List Nat → Nat
  | [] => if c = 0 then 1 else 0
  | ch :: rest =>
    if c = ch then 1
    else if ch ≠ 0 then first_byte_valid_loop c rest
    else 0

/-- The function `first_byte_valid`. -/
def first_byte_valid (c : Nat) : Nat := first_byte_valid_loop c valid_char

/-- The library function `strncmp`: the first argument is a string literal (the list of
its characters, the terminating NUL being read past its end), the second a byte array. -/
def strncmp (s1 s2 : List Nat) (n : Nat) : Int :=
  match n with
  | 0 => 0
  | k + 1 =>
    if s1.headD 0 ≠ s2.headD 0 then (s1.headD 0 : Int) - (s2.headD 0 : Int)
    else if s1.headD 0 = 0 then 0
    else strncmp s1.tail s2.tail k

/-- The table `known_extensions`, without its terminating null pointer: `"BIN"`, `"bin"`. -/
def known_extensions : List (List Nat) := [[66, 73, 78], [98, 105, 110]]

/-- The `while` loop of `wanted_dir_entry` over the rest of `known_extensions`. -/
def wanted_dir_entry_loop (dir_entry : FatDirectoryEntry_t) : List (List Nat) → extension_t
  | [] => .UNKNOWN
  | ext :: rest =>
    if first_byte_valid (dir_entry.filename.getD 0 0) = 1 then
      if strncmp ext (dir_entry.filename.drop 8) 3 = 0 then
        (if dir_entry.filesize ≠ 0 then .BIN else .UNKNOWN)
      else wanted_dir_entry_loop dir_entry rest
    else wanted_dir_entry_loop dir_entry rest

/-- The function `wanted_dir_entry`. -/
def wanted_dir_entry (dir_entry : FatDirectoryEntry_t) : extension_t :=
  wanted_dir_entry_loop dir_entry known_extensions

/-! ## `usbd_msc_write_sect` -/

/-- The body of the `for` loop over the records of a root-directory sector: the new value
of `amt_to_write` after record `i` has been looked at. -/
def root_dir_step (buf : List Nat) (amt_to_write : Nat) (i : Nat) : Nat :=
  let tmp_file := read_dir_entry buf i
  if (wanted_dir_entry tmp_file).toNat ≠ 0 then
    (if tmp_file.filesize > 0 then tmp_file.filesize else 4294967295)
  else amt_to_write

/-- The `for` loop `for( ; i < USBD_MSC_BlockSize/sizeof(tmp_file); i++)`. -/
def root_dir_scan (blockSize : Nat) (buf : List Nat) (amt_to_write : Nat) : Nat :=
  (List.range (blockSize / sizeof_FatDirectoryEntry_t)).foldl (root_dir_step buf) amt_to_write

/-- The first root-directory sector index `(mbr.num_fats * mbr.logical_sectors_per_fat) + 1`. -/
def root_dir_sector_1 (m : mbr_t) : Nat := u32 (m.num_fats * m.logical_sectors_per_fat + 1)

/-- The second root-directory sector index `(mbr.num_fats * mbr.logical_sectors_per_fat) + 2`. -/
def root_dir_sector_2 (m : mbr_t) : Nat := u32 (m.num_fats * m.logical_sectors_per_fat + 2)

/-- The arming branch (source lines 159-183): state after it and the calls it makes. -/
def write_arm (fl : FlashReturns) (blockSize block : Nat) (buf : List Nat) :
    file_transfer_state_t × List Event :=
  let s : file_transfer_state_t :=
    { start_block := block, amt_to_write := 4294967295, amt_written := blockSize,
      last_block_written := block, transfer_started := 1, file_type := .BIN }
  (s,
    [Event.target_flash_init]
      ++ (if fl.target_flash_init = 0 then [Event.main_usb_disconnect_event] else [])
      ++ [Event.target_flash_program_page (u32 (u32_sub block s.start_block * blockSize)) buf
            blockSize]
      ++ (if fl.target_flash_program_page = 0 then [Event.main_usb_disconnect_event] else []))

/-- The root-directory branch (source lines 185-199). -/
def write_root_dir (m : mbr_t) (blockSize block : Nat) (buf : List Nat)
    (s : file_transfer_state_t) : file_transfer_state_t :=
  if block = root_dir_sector_1 m ∨ block = root_dir_sector_2 m then
    { s with amt_to_write := root_dir_scan blockSize buf s.amt_to_write }
  else s

/-- The block `write data to media` (source lines 202-222). -/
def write_data (fl : FlashReturns) (blockSize block : Nat) (buf : List Nat)
    (s : file_transfer_state_t) : file_transfer_state_t × List Event :=
  if block ≥ s.start_block ∧ s.transfer_started = 1 then
    if block ≥ s.start_block then
      if block ≠ u32 (s.last_block_written + 1) then (s, [])
      else
        ({ s with amt_written := u32 (s.amt_written + blockSize), last_block_written := block },
          [Event.target_flash_program_page (u32 (u32_sub block s.start_block * blockSize)) buf
              blockSize]
            ++ (if fl.target_flash_program_page = 0 then [Event.main_usb_disconnect_event]
                else []))
    else (s, [])
  else (s, [])

/-- The completion test (source lines 225-231). -/
def write_complete (s : file_transfer_state_t) : file_transfer_state_t × List Event :=
  if s.amt_written ≥ s.amt_to_write ∧ s.transfer_started = 1 then
    ({ s with transfer_started := 0 }, [Event.main_usb_disconnect_event])
  else (s, [])

/-- The function `usbd_msc_write_sect`: the device after the call and the calls made, in
order.  `validate_bin_nvic` is the plausibility check of another translation unit. -/
def usbd_msc_write_sect (validate_bin_nvic : List Nat → Nat) (fl : FlashReturns) (d : Device)
    (block : Nat) (buf : List Nat) (num_of_blocks : Nat) : Device × List Event :=
  if d.USBD_MSC_MediaReady = false then (d, [])
  else if validate_bin_nvic buf = 1 ∧ d.file_transfer_state.transfer_started = 0 then
    let r := write_arm fl d.USBD_MSC_BlockSize block buf
    ({ d with file_transfer_state := r.1 }, Event.main_blink_msd_led 0 :: r.2)
  else
    let s1 := write_root_dir d.mbr d.USBD_MSC_BlockSize block buf d.file_transfer_state
    let r2 := write_data fl d.USBD_MSC_BlockSize block buf s1
    let r3 := write_complete r2.1
    ({ d with file_transfer_state := r3.1 }, Event.main_blink_msd_led 0 :: (r2.2 ++ r3.2))

/-- One call of `usbd_msc_write_sect` as the host and the flash driver determine it. -/
structure WriteCall where
  block : Nat
  buf : List Nat
  num_of_blocks : Nat
  fl : FlashReturns
  deriving DecidableEq, Repr

/-- A sequence of calls of `usbd_msc_write_sect`, one after the other: the device after the
last call and the events of all the calls, in order. -/
def write_calls (validate_bin_nvic : List Nat → Nat) (d : Device) :
    List WriteCall → Device × List Event
  | [] => (d, [])
  | c :: cs =>
    let r := usbd_msc_write_sect validate_bin_nvic c.fl d c.block c.buf c.num_of_blocks
    let rest := write_calls validate_bin_nvic r.1 cs
    (rest.1, r.2 ++ rest.2)

/-- The calls writing the `n` blocks `S+1, ..., S+n` in order; `bufs j`, `nums j` and
`fls j` are the buffer, the block count and the flash results of the write of `S+1+j`. -/
def contiguous_calls (S : Nat) (bufs : Nat → List Nat) (nums : Nat → Nat)
    (fls : Nat → FlashReturns) (n : Nat) : List WriteCall :=
  (List.range n).map (fun j => { block := S + 1 + j, buf := bufs j, num_of_blocks := nums j,
                                 fl := fls j })

/-- Number of `main_usb_disconnect_event` calls in a list of events. -/
def disconnect_count (evs : List Event) : Nat :=
  evs.count Event.main_usb_disconnect_event

/-- The flash calls (`target_flash_init`, `target_flash_program_page`) of a list of events. -/
def flash_calls (evs : List Event) : List Event :=
  evs.filter (fun e => match e with
    | Event.target_flash_init => true
    | Event.target_flash_program_page _ _ _ => true
    | _ => false)

/-! ## `usbd_msc_read_sect` -/

/-- What stops a run of the model short of a result. -/
inductive Fault where
  | out_of_fuel
  | table_overrun
  | content_overrun
  deriving DecidableEq, Repr

/-- The locals of `usbd_msc_read_sect` that the table walk updates. -/
structure read_walk_t where
  fs_read_sect : Option (List Nat)
  max_known_fs_entry_addr : Nat
  req_sector_offset : Nat
  i : Nat
  real_data_present : Nat
  deriving DecidableEq, Repr

/-- The initial values of the locals: `fs_read = {0,0}`, `max_known_fs_entry_addr = 0`,
`req_sector_offset = 0`, `i = 0`, `real_data_present = 1`. -/
def read_walk_init : read_walk_t :=
  { fs_read_sect := none, max_known_fs_entry_addr := 0, req_sector_offset := 0, i := 0,
    real_data_present := 1 }

/-- One execution of the body of the `while` loop (source lines 64-77) on the entry
`e = fs[i]`; `i` is a `uint8_t`. -/
def read_walk_body (e : fs_entry_t) (req_addr : Nat) (w : read_walk_t) : read_walk_t :=
  let max_known := u32 (w.max_known_fs_entry_addr + e.length)
  if req_addr < max_known then
    let off := u32_sub e.length (u32_sub max_known req_addr)
    { fs_read_sect := e.sect
      max_known_fs_entry_addr := max_known
      req_sector_offset := off
      i := u8 (w.i + 1)
      real_data_present := if off ≥ sizeof_sect then 0 else w.real_data_present }
  else
    { w with max_known_fs_entry_addr := max_known, i := u8 (w.i + 1) }

/-- The `while` loop of `usbd_msc_read_sect` (source lines 63-78), at most `fuel`
evaluations of its condition.  Reading `fs[i]` outside the table is a fault. -/
def read_walk (fs : List fs_entry_t) (req_addr : Nat) :
    Nat → read_walk_t → Except Fault read_walk_t
  | 0, _ => .error .out_of_fuel
  | fuel + 1, w =>
    match fs[w.i]? with
    | none => .error .table_overrun
    | some e =>
      if e.length ≠ 0 ∧ w.fs_read_sect = none then
        read_walk fs req_addr fuel (read_walk_body e req_addr w)
      else .ok w

/-- The buffer after `n` bytes `bytes` have been stored at its start. -/
def store_bytes (buf bytes : List Nat) (n : Nat) : List Nat := bytes ++ buf.drop n

/-- The function `usbd_msc_read_sect`: the buffer after the call and the calls made.  The
`memcpy` reads `n` bytes from offset `req_sector_offset` of the object `sect` points to; a
read past the end of that object is a fault. -/
def usbd_msc_read_sect (fuel : Nat) (d : Device) (block : Nat) (buf : List Nat)
    (num_of_blocks : Nat) : Except Fault (List Nat × List Event) :=
  let req_addr := u32 (block * d.USBD_MSC_BlockSize)
  if d.USBD_MSC_MediaReady = false then .ok (buf, [])
  else
    match read_walk d.fs req_addr fuel read_walk_init with
    | .error f => .error f
    | .ok w =>
      let n := u32 (num_of_blocks * d.USBD_MSC_BlockSize)
      let evs := Event.main_blink_msd_led 0 :: (if block = 17 then [Event.update_html_file] else [])
      match w.fs_read_sect with
      | some sect =>
        if w.real_data_present = 1 then
          if w.req_sector_offset + n ≤ sect.length then
            .ok (store_bytes buf ((sect.drop w.req_sector_offset).take n) n, evs)
          else .error .content_overrun
        else .ok (store_bytes buf (List.replicate n 0) n, evs)
      | none => .ok (store_bytes buf (List.replicate n 0) n, evs)

/-! ## Vocabulary of the statements -/

/-- The three extension bytes `filename[8..10]` of a directory record. -/
def dir_entry_extension (e : FatDirectoryEntry_t) : List Nat :=
  [e.filename.getD 8 0, e.filename.getD 9 0, e.filename.getD 10 0]

/-- A record qualifies when `wanted_dir_entry` gives a non-zero value for it. -/
def qualifying (e : FatDirectoryEntry_t) : Prop := (wanted_dir_entry e).toNat ≠ 0

instance (e : FatDirectoryEntry_t) : Decidable (qualifying e) := by
  unfold qualifying; infer_instance

/-- The block is one of the two root-directory sectors of the geometry `m`. -/
def is_root_dir_sector (m : mbr_t) (block : Nat) : Prop :=
  block = root_dir_sector_1 m ∨ block = root_dir_sector_2 m

instance (m : mbr_t) (block : Nat) : Decidable (is_root_dir_sector m block) := by
  unfold is_root_dir_sector; infer_instance

/-- Sum of the lengths of the first `k` entries of a sector table: the byte address at which
entry `k` starts on the virtual disk. -/
def table_span (fs : List fs_entry_t) (k : Nat) : Nat := ((fs.take k).map (·.length)).sum

/-! ## Concrete devices and sectors used as instances -/

/-- A plausibility check for the instances: a block is firmware when its first byte is 255. -/
def ex_validate (buf : List Nat) : Nat := if buf.headD 0 = 255 then 1 else 0

/-- A geometry with 512-byte sectors; its root-directory sectors are the blocks 7 and 8. -/
def ex_mbr : mbr_t :=
  { bytes_per_sector := 512, total_logical_sectors := 4096, num_fats := 2,
    logical_sectors_per_fat := 3 }

/-- A ready device with the transfer state given. -/
def ex_device (s : file_transfer_state_t) : Device :=
  { mbr := ex_mbr, fs := [], USBD_MSC_MemorySize := 2097152, USBD_MSC_BlockSize := 512,
    USBD_MSC_BlockGroup := 1, USBD_MSC_BlockCount := 4096, USBD_MSC_MediaReady := true,
    file_transfer_state := s }

/-- The ready device before any transfer. -/
def ex_idle : Device := ex_device file_transfer_state_init

/-- The ready device after a completed two-block transfer that started at block 10. -/
def ex_completed : Device :=
  ex_device { start_block := 10, amt_to_write := 1024, amt_written := 1024,
              last_block_written := 11, transfer_started := 0, file_type := .BIN }

/-- The ready device with a transfer in progress: started at block 10, blocks 10 and 11
programmed, size not yet known. -/
def ex_active : Device :=
  ex_device { start_block := 10, amt_to_write := 4294967295, amt_written := 1024,
              last_block_written := 11, transfer_started := 1, file_type := .BIN }

/-- A root-directory sector whose first record is `FIRMWAREBIN` with the file size given. -/
def ex_dir (size : Nat) : List Nat :=
  [70, 73, 82, 77, 87, 65, 82, 69, 66, 73, 78, 32, 0, 0, 0, 0,
   0, 0, 0, 0, 0, 0, 0, 0, 0, 0, 2, 0,
   size % 256, size / 256 % 256, size / 65536 % 256, size / 16777216 % 256]

/-- A block accepted by `ex_validate`. -/
def ex_firmware : List Nat := [255, 1, 2, 3]

/-- A block rejected by `ex_validate`. -/
def ex_data : List Nat := [4, 5, 6, 7]

/-- Flash driver results of a call in which every flash call succeeds. -/
def ex_flash_ok : FlashReturns := { target_flash_init := 1, target_flash_program_page := 1 }

/-- Flash driver results of a call in which `target_flash_init` fails. -/
def ex_flash_init_fails : FlashReturns :=
  { target_flash_init := 0, target_flash_program_page := 1 }

/-- A sector table of 257 one-byte entries, each holding the byte 7, and the sentinel. -/
def ex_long_table : List fs_entry_t :=
  List.replicate 257 { sect := some [7], length := 1 } ++ [{ sect := none, length := 0 }]

/-- A ready device with block size 1 serving `ex_long_table`. -/
def ex_long_device : Device :=
  { mbr := { bytes_per_sector := 1, total_logical_sectors := 4096, num_fats := 2,
             logical_sectors_per_fat := 3 },
    fs := ex_long_table, USBD_MSC_MemorySize := 4096, USBD_MSC_BlockSize := 1,
    USBD_MSC_BlockGroup := 1, USBD_MSC_BlockCount := 4096, USBD_MSC_MediaReady := true,
    file_transfer_state := file_transfer_state_init }

/-- A sector table with one entry of 8 content bytes and the sentinel. -/
def ex_table : List fs_entry_t :=
  [{ sect := some [11, 12, 13, 14, 15, 16, 17, 18], length := 8 }, { sect := none, length := 0 }]

/-- A ready device with block size 4 serving `ex_table`. -/
def ex_read_device : Device :=
  { mbr := { bytes_per_sector := 4, total_logical_sectors := 4096, num_fats := 2,
             logical_sectors_per_fat := 3 },
    fs := ex_table, USBD_MSC_MemorySize := 16384, USBD_MSC_BlockSize := 4,
    USBD_MSC_BlockGroup := 1, USBD_MSC_BlockCount := 4096, USBD_MSC_MediaReady := true,
    file_transfer_state := file_transfer_state_init }

/-- A sector table with one two-block entry of 1024 content bytes (all `0xAA`) and the
sentinel. -/
def ex_table_512 : List fs_entry_t :=
  [{ sect := some (List.replicate 1024 170), length := 1024 }, { sect := none, length := 0 }]

/-- A ready device with block size 512 serving `ex_table_512`. -/
def ex_read_device_512 : Device :=
  { mbr := ex_mbr, fs := ex_table_512, USBD_MSC_MemorySize := 2097152,
    USBD_MSC_BlockSize := 512, USBD_MSC_BlockGroup := 1, USBD_MSC_BlockCount := 4096,
    USBD_MSC_MediaReady := true, file_transfer_state := file_transfer_state_init }

/-- A 32-byte directory record with the first filename byte, the three extension bytes and
the file size given; the other name bytes are `IRMWARE`. -/
def ex_record (first : Nat) (ext : List Nat) (size : Nat) : List Nat :=
  [first, 73, 82, 77, 87, 65, 82, 69, ext.getD 0 0, ext.getD 1 0, ext.getD 2 0, 32, 0, 0, 0, 0,
   0, 0, 0, 0, 0, 0, 0, 0, 0, 0, 2, 0,
   size % 256, size / 256 % 256, size / 65536 % 256, size / 16777216 % 256]

/-- The device `ex_active` before `usbd_msc_init` has marked it ready. -/
def ex_unready : Device := { ex_active with USBD_MSC_MediaReady := false }

/-- A root-directory sector with two qualifying records: `FIRMWAREBIN` of 1024 bytes, then
`FIRMWAREBIN` of 2048 bytes. -/
def ex_dir_two : List Nat := ex_dir 1024 ++ ex_dir 2048

/-- The state of a device on which a transfer is in progress with the expected size
unknown: ready, block size `2^p` with `1 ≤ p ≤ 31`, `transfer_started = 1`,
`amt_to_write = 0xffffffff`, and `amt_written` a 32-bit multiple of the block size. -/
def size_unknown (p : Nat) (d : Device) : Prop :=
  d.USBD_MSC_MediaReady = true
    ∧ 1 ≤ p ∧ p ≤ 31 ∧ d.USBD_MSC_BlockSize = 2 ^ p
    ∧ d.file_transfer_state.transfer_started = 1
    ∧ d.file_transfer_state.amt_to_write = 4294967295
    ∧ d.file_transfer_state.amt_written % d.USBD_MSC_BlockSize = 0
    ∧ d.file_transfer_state.amt_written < 4294967296

/-- The call writes no qualifying directory record: its block is not a root-directory sector
of the geometry `m`, or none of the `blockSize / 32` records of its buffer qualifies. -/
def no_qualifying_write (m : mbr_t) (blockSize : Nat) (c : WriteCall) : Prop :=
  ¬ is_root_dir_sector m c.block
    ∨ ∀ i, i < blockSize / sizeof_FatDirectoryEntry_t → ¬ qualifying (read_dir_entry c.buf i)

/-- A sector table with a two-byte entry (content 11, 12), a two-byte gap and the
sentinel. -/
def ex_table_short : List fs_entry_t :=
  [{ sect := some [11, 12], length := 2 }, { sect := none, length := 2 },
   { sect := none, length := 0 }]

/-- A sector table whose first entry declares 4 bytes of an 8-byte object, followed by a
second four-byte entry and the sentinel. -/
def ex_table_long_object : List fs_entry_t :=
  [{ sect := some [11, 12, 13, 14, 15, 16, 17, 18], length := 4 },
   { sect := some [21, 22, 23, 24], length := 4 }, { sect := none, length := 0 }]

/-- A sector table with an 8-byte gap, a gap of `2^32 - 8` bytes, a four-byte entry (content
1, 2, 3, 4) and the sentinel. -/
def ex_table_gap : List fs_entry_t :=
  [{ sect := none, length := 8 }, { sect := none, length := 4294967288 },
   { sect := some [1, 2, 3, 4], length := 4 }, { sect := none, length := 0 }]

/-- A ready device with block size 4 serving the table given. -/
def ex_read_device_of (fs : List fs_entry_t) : Device :=
  { mbr := { bytes_per_sector := 4, total_logical_sectors := 4096, num_fats := 2,
             logical_sectors_per_fat := 3 },
    fs := fs, USBD_MSC_MemorySize := 16384, USBD_MSC_BlockSize := 4,
    USBD_MSC_BlockGroup := 1, USBD_MSC_BlockCount := 4096, USBD_MSC_MediaReady := true,
    file_transfer_state := file_transfer_state_init }

/-- The states of the table walk for a request that falls into the gap entry `j`: an entry
with content has been selected after the gap and the data are marked absent, or no entry
is selected, the running end-offset is the start of the entry the walk is at, and either
the walk has not passed entry `j`, or it has and the data are, or are about to be, marked
absent. -/
def gap_walk_state (fs : List fs_entry_t) (req_addr j : Nat) (w : read_walk_t) : Prop :=
  (w.fs_read_sect ≠ none ∧ w.real_data_present = 0)
    ∨ (w.fs_read_sect = none ∧ w.max_known_fs_entry_addr = table_span fs w.i
        ∧ ((table_span fs w.i ≤ req_addr ∧ w.i ≤ j)
            ∨ (req_addr < table_span fs w.i
                ∧ (w.real_data_present = 0 ∨ table_span fs w.i - req_addr ≤ 4294967292))))

/-- A sector table with a four-byte entry, a four-byte gap, a four-byte entry and the
sentinel. -/
def ex_table_gap_small : List fs_entry_t :=
  [{ sect := some [11, 12, 13, 14], length := 4 }, { sect := none, length := 4 },
   { sect := some [21, 22, 23, 24], length := 4 }, { sect := none, length := 0 }]

/-- The sector table `[(A,4),(B,2)]` and the sentinel: `A` holds the bytes 11..14, `B` the
bytes 21 and 22. -/
def ex_table_ab : List fs_entry_t :=
  [{ sect := some [11, 12, 13, 14], length := 4 }, { sect := some [21, 22], length := 2 },
   { sect := none, length := 0 }]

/-- A ready device with block size 1 serving the table given. -/
def ex_byte_device_of (fs : List fs_entry_t) : Device :=
  { mbr := { bytes_per_sector := 1, total_logical_sectors := 4096, num_fats := 2,
             logical_sectors_per_fat := 3 },
    fs := fs, USBD_MSC_MemorySize := 4096, USBD_MSC_BlockSize := 1,
    USBD_MSC_BlockGroup := 1, USBD_MSC_BlockCount := 4096, USBD_MSC_MediaReady := true,
    file_transfer_state := file_transfer_state_init }

/-- A sector table of 256 one-byte entries holding the byte 7, a one-byte entry holding the
byte 9 (index 256), and the sentinel. -/
def ex_wrap_table : List fs_entry_t :=
  List.replicate 256 { sect := some [7], length := 1 }
    ++ [{ sect := some [9], length := 1 }, { sect := none, length := 0 }]

/-- The table `ex_table_ab` with a further entry after its sentinel. -/
def ex_table_ab_more : List fs_entry_t :=
  ex_table_ab ++ [{ sect := some [31, 32, 33, 34], length := 4 }]

/-- The flash offsets (first argument of `target_flash_program_page`) of the calls in a list
of events, in order. -/
def program_offsets (evs : List Event) : List Nat :=
  evs.filterMap (fun e => match e with
    | Event.target_flash_program_page adr _ _ => some adr
    | _ => none)

/-- The events of a list other than `main_usb_disconnect_event`, in order. -/
def without_disconnects (evs : List Event) : List Event :=
  evs.filter (fun e => decide (e ≠ Event.main_usb_disconnect_event))

/-- Flash driver results of a call in which `target_flash_program_page` fails. -/
def ex_flash_program_fails : FlashReturns :=
  { target_flash_init := 1, target_flash_program_page := 0 }

/-! # Lemmas -/
/-! ## Lemmas on machine integers -/

theorem u32_sub_self (b : Nat) : u32_sub b b = 0 := by
  unfold u32_sub
  have := Nat.mod_lt b (show 4294967296 > 0 by norm_num)
  omega

theorem u32_of_lt {n : Nat} (h : n < 4294967296) : u32 n = n := by
  unfold u32; omega

theorem u32_sub_of_le {a b : Nat} (hb : b ≤ a) (ha : a < 4294967296) : u32_sub a b = a - b := by
  unfold u32_sub; omega

/-! ## Lemmas on the directory classifier -/

theorem strncmp_three (a b c : Nat) (l : List Nat) (ha : a ≠ 0) (hb : b ≠ 0) (hc : c ≠ 0) :
    strncmp [a, b, c] l 3 = 0 ↔ l.getD 0 0 = a ∧ l.getD 1 0 = b ∧ l.getD 2 0 = c := by
  have e0 : l.headD 0 = l.getD 0 0 := by cases l <;> simp
  have e1 : l.tail.headD 0 = l.getD 1 0 := by
    cases l with
    | nil => simp
    | cons a t => cases t <;> simp
  have e2 : l.tail.tail.headD 0 = l.getD 2 0 := by
    cases l with
    | nil => simp
    | cons a t =>
      cases t with
      | nil => simp
      | cons b u => cases u <;> simp
  simp only [strncmp, List.headD_cons, List.tail_cons, e0, e1, e2]
  by_cases h0 : a = l.getD 0 0
  · by_cases h1 : b = l.getD 1 0
    · by_cases h2 : c = l.getD 2 0
      · subst h0 h1 h2; simp [ha, hb, hc]
      · have : (c : Int) - (l.getD 2 0 : Int) ≠ 0 := by omega
        have h2' : ¬ l.getD 2 0 = c := fun h => h2 h.symm
        subst h0 h1; simp [-List.getD_eq_getElem?_getD, ha, hb, h2, h2', this]
    · have : (b : Int) - (l.getD 1 0 : Int) ≠ 0 := by omega
      have h1' : ¬ l.getD 1 0 = b := fun h => h1 h.symm
      subst h0; simp [-List.getD_eq_getElem?_getD, ha, h1, h1', this]
  · have : (a : Int) - (l.getD 0 0 : Int) ≠ 0 := by omega
    have h0' : ¬ l.getD 0 0 = a := fun h => h0 h.symm
    simp [-List.getD_eq_getElem?_getD, h0, h0', this]

theorem wanted_dir_entry_eq_BIN (e : FatDirectoryEntry_t) :
    wanted_dir_entry e = .BIN ↔
      first_byte_valid (e.filename.getD 0 0) = 1 ∧ dir_entry_extension e ∈ known_extensions
        ∧ e.filesize ≠ 0 := by
  have g0 : (e.filename.drop 8).getD 0 0 = e.filename.getD 8 0 := by simp [List.getD_eq_getElem?_getD]
  have g1 : (e.filename.drop 8).getD 1 0 = e.filename.getD 9 0 := by simp [List.getD_eq_getElem?_getD]
  have g2 : (e.filename.drop 8).getD 2 0 = e.filename.getD 10 0 := by simp [List.getD_eq_getElem?_getD]
  have s1 := strncmp_three 66 73 78 (e.filename.drop 8) (by norm_num) (by norm_num) (by norm_num)
  have s2 := strncmp_three 98 105 110 (e.filename.drop 8) (by norm_num) (by norm_num) (by norm_num)
  rw [g0, g1, g2] at s1 s2
  unfold wanted_dir_entry known_extensions dir_entry_extension
  simp only [wanted_dir_entry_loop, s1, s2]
  by_cases hf : first_byte_valid (e.filename.getD 0 0) = 1
  · by_cases hz : e.filesize = 0
    · simp only [hf, hz]
      split <;> simp
    · by_cases hA : e.filename.getD 8 0 = 66 ∧ e.filename.getD 9 0 = 73 ∧ e.filename.getD 10 0 = 78
      · simp [-List.getD_eq_getElem?_getD, hf, hz, hA]
      · by_cases hB : e.filename.getD 8 0 = 98 ∧ e.filename.getD 9 0 = 105 ∧ e.filename.getD 10 0 = 110
        · simp [-List.getD_eq_getElem?_getD, hf, hz, hB]
        · simp [-List.getD_eq_getElem?_getD, hf, hz, hA, hB]
  · simp [-List.getD_eq_getElem?_getD, hf]

theorem qualifying_iff (e : FatDirectoryEntry_t) :
    qualifying e ↔
      first_byte_valid (e.filename.getD 0 0) = 1 ∧ dir_entry_extension e ∈ known_extensions
        ∧ e.filesize ≠ 0 := by
  rw [← wanted_dir_entry_eq_BIN]
  unfold qualifying
  cases wanted_dir_entry e <;> simp [extension_t.toNat]

/-! ## Lemmas on the directory scan -/

theorem root_dir_scan_succ (buf : List Nat) (amt n : Nat) :
    (List.range (n + 1)).foldl (root_dir_step buf) amt
      = root_dir_step buf ((List.range n).foldl (root_dir_step buf) amt) n := by
  rw [List.range_succ, List.foldl_append]
  rfl

theorem root_dir_step_of_not_qualifying {buf : List Nat} {amt i : Nat}
    (h : ¬ qualifying (read_dir_entry buf i)) : root_dir_step buf amt i = amt := by
  unfold qualifying at h
  simp only [root_dir_step, h, if_false]

theorem root_dir_step_of_qualifying {buf : List Nat} {amt i : Nat}
    (h : qualifying (read_dir_entry buf i)) :
    root_dir_step buf amt i = (read_dir_entry buf i).filesize := by
  have hz : (read_dir_entry buf i).filesize ≠ 0 := ((qualifying_iff _).1 h).2.2
  unfold qualifying at h
  have hpos : (read_dir_entry buf i).filesize > 0 := Nat.pos_of_ne_zero hz
  unfold root_dir_step
  rw [if_pos h, if_pos hpos]

/-- A sector without a qualifying record leaves `amt_to_write` as it was. -/
theorem root_dir_scan_of_none (blockSize : Nat) (buf : List Nat) (amt : Nat)
    (h : ∀ i, i < blockSize / sizeof_FatDirectoryEntry_t → ¬ qualifying (read_dir_entry buf i)) :
    root_dir_scan blockSize buf amt = amt := by
  unfold root_dir_scan
  generalize blockSize / sizeof_FatDirectoryEntry_t = n at h
  induction n with
  | zero => rfl
  | succ k ih =>
    rw [root_dir_scan_succ, ih (fun i hi => h i (Nat.lt_succ_of_lt hi)),
      root_dir_step_of_not_qualifying (h k (Nat.lt_succ_self k))]

/-- A sector all of whose qualifying records declare the size `F`, and that has one, sets
`amt_to_write` to `F`. -/
theorem root_dir_scan_of_size (blockSize : Nat) (buf : List Nat) (amt F : Nat)
    (hex : ∃ i, i < blockSize / sizeof_FatDirectoryEntry_t ∧ qualifying (read_dir_entry buf i))
    (hall : ∀ i, i < blockSize / sizeof_FatDirectoryEntry_t → qualifying (read_dir_entry buf i) →
      (read_dir_entry buf i).filesize = F) :
    root_dir_scan blockSize buf amt = F := by
  unfold root_dir_scan
  generalize blockSize / sizeof_FatDirectoryEntry_t = n at hex hall
  induction n with
  | zero => obtain ⟨i, hi, _⟩ := hex; omega
  | succ k ih =>
    rw [root_dir_scan_succ]
    by_cases hk : qualifying (read_dir_entry buf k)
    · rw [root_dir_step_of_qualifying hk]
      exact hall k (Nat.lt_succ_self k) hk
    · rw [root_dir_step_of_not_qualifying hk]
      obtain ⟨i, hi, hq⟩ := hex
      have hik : i < k := by
        rcases Nat.lt_succ_iff_lt_or_eq.1 hi with h | h
        · exact h
        · subst h; exact absurd hq hk
      exact ih ⟨i, hik, hq⟩ (fun j hj hqj => hall j (Nat.lt_succ_of_lt hj) hqj)

/-! ## Lemmas on one call of `usbd_msc_write_sect` -/

theorem write_sect_not_ready (v : List Nat → Nat) (fl : FlashReturns) (d : Device)
    (block : Nat) (buf : List Nat) (num : Nat) (h : d.USBD_MSC_MediaReady = false) :
    usbd_msc_write_sect v fl d block buf num = (d, []) := by
  simp [usbd_msc_write_sect, h]

/-- A call on a ready device that does not arm runs the three later blocks in order. -/
theorem write_sect_no_arm (v : List Nat → Nat) (fl : FlashReturns) (d : Device)
    (block : Nat) (buf : List Nat) (num : Nat) (hready : d.USBD_MSC_MediaReady = true)
    (h : ¬ (v buf = 1 ∧ d.file_transfer_state.transfer_started = 0)) :
    usbd_msc_write_sect v fl d block buf num
      = ({ d with file_transfer_state :=
            (write_complete (write_data fl d.USBD_MSC_BlockSize block buf
              (write_root_dir d.mbr d.USBD_MSC_BlockSize block buf d.file_transfer_state)).1).1 },
         Event.main_blink_msd_led 0 ::
          ((write_data fl d.USBD_MSC_BlockSize block buf
              (write_root_dir d.mbr d.USBD_MSC_BlockSize block buf d.file_transfer_state)).2
            ++ (write_complete (write_data fl d.USBD_MSC_BlockSize block buf
              (write_root_dir d.mbr d.USBD_MSC_BlockSize block buf d.file_transfer_state)).1).2)) := by
  simp only [usbd_msc_write_sect, hready, h, if_false, Bool.true_eq_false]

theorem write_sect_started (v : List Nat → Nat) (fl : FlashReturns) (d : Device)
    (block : Nat) (buf : List Nat) (num : Nat) (hready : d.USBD_MSC_MediaReady = true)
    (h : d.file_transfer_state.transfer_started = 1) :
    usbd_msc_write_sect v fl d block buf num
      = ({ d with file_transfer_state :=
            (write_complete (write_data fl d.USBD_MSC_BlockSize block buf
              (write_root_dir d.mbr d.USBD_MSC_BlockSize block buf d.file_transfer_state)).1).1 },
         Event.main_blink_msd_led 0 ::
          ((write_data fl d.USBD_MSC_BlockSize block buf
              (write_root_dir d.mbr d.USBD_MSC_BlockSize block buf d.file_transfer_state)).2
            ++ (write_complete (write_data fl d.USBD_MSC_BlockSize block buf
              (write_root_dir d.mbr d.USBD_MSC_BlockSize block buf d.file_transfer_state)).1).2)) :=
  write_sect_no_arm v fl d block buf num hready (by simp [h])

theorem write_root_dir_fields (m : mbr_t) (bs block : Nat) (buf : List Nat)
    (s : file_transfer_state_t) :
    (write_root_dir m bs block buf s).start_block = s.start_block
      ∧ (write_root_dir m bs block buf s).amt_written = s.amt_written
      ∧ (write_root_dir m bs block buf s).last_block_written = s.last_block_written
      ∧ (write_root_dir m bs block buf s).transfer_started = s.transfer_started
      ∧ (write_root_dir m bs block buf s).file_type = s.file_type := by
  unfold write_root_dir
  split <;> simp

theorem write_root_dir_of_not_root (m : mbr_t) (bs block : Nat) (buf : List Nat)
    (s : file_transfer_state_t) (h : ¬ is_root_dir_sector m block) :
    write_root_dir m bs block buf s = s := by
  unfold is_root_dir_sector at h
  simp only [write_root_dir, h, if_false]

theorem write_root_dir_of_root (m : mbr_t) (bs block : Nat) (buf : List Nat)
    (s : file_transfer_state_t) (h : is_root_dir_sector m block) :
    write_root_dir m bs block buf s = { s with amt_to_write := root_dir_scan bs buf s.amt_to_write } := by
  unfold is_root_dir_sector at h
  simp only [write_root_dir, h, if_true]

theorem write_data_fields (fl : FlashReturns) (bs block : Nat) (buf : List Nat)
    (s : file_transfer_state_t) :
    (write_data fl bs block buf s).1.start_block = s.start_block
      ∧ (write_data fl bs block buf s).1.amt_to_write = s.amt_to_write
      ∧ (write_data fl bs block buf s).1.transfer_started = s.transfer_started
      ∧ (write_data fl bs block buf s).1.file_type = s.file_type := by
  unfold write_data
  split_ifs <;> simp

/-- A block that is not the next one is dropped by the data block. -/
theorem write_data_of_not_next (fl : FlashReturns) (bs block : Nat) (buf : List Nat)
    (s : file_transfer_state_t) (h : block ≠ u32 (s.last_block_written + 1)) :
    write_data fl bs block buf s = (s, []) := by
  unfold write_data
  split_ifs <;> rfl

/-- A block below the start block is dropped by the data block. -/
theorem write_data_of_below (fl : FlashReturns) (bs block : Nat) (buf : List Nat)
    (s : file_transfer_state_t) (h : block < s.start_block) :
    write_data fl bs block buf s = (s, []) := by
  unfold write_data
  have : ¬ (block ≥ s.start_block) := by omega
  simp [this]

/-- The next block of a transfer in progress is programmed. -/
theorem write_data_of_next (fl : FlashReturns) (bs block : Nat) (buf : List Nat)
    (s : file_transfer_state_t) (hs : s.transfer_started = 1) (hge : block ≥ s.start_block)
    (h : block = u32 (s.last_block_written + 1)) :
    write_data fl bs block buf s
      = ({ s with amt_written := u32 (s.amt_written + bs), last_block_written := block },
          [Event.target_flash_program_page (u32 (u32_sub block s.start_block * bs)) buf bs]
            ++ (if fl.target_flash_program_page = 0 then [Event.main_usb_disconnect_event]
                else [])) := by
  unfold write_data
  simp only [hge, hs, and_self, if_true, ← h, ne_eq, not_true_eq_false, if_false]

theorem write_complete_fields (s : file_transfer_state_t) :
    (write_complete s).1.start_block = s.start_block
      ∧ (write_complete s).1.amt_to_write = s.amt_to_write
      ∧ (write_complete s).1.amt_written = s.amt_written
      ∧ (write_complete s).1.last_block_written = s.last_block_written
      ∧ (write_complete s).1.file_type = s.file_type := by
  unfold write_complete
  split <;> simp

theorem write_complete_of_lt (s : file_transfer_state_t) (h : s.amt_written < s.amt_to_write) :
    write_complete s = (s, []) := by
  unfold write_complete
  have : ¬ (s.amt_written ≥ s.amt_to_write) := by omega
  simp [this]

theorem write_complete_of_ge (s : file_transfer_state_t) (h : s.amt_written ≥ s.amt_to_write)
    (hs : s.transfer_started = 1) :
    write_complete s = ({ s with transfer_started := 0 }, [Event.main_usb_disconnect_event]) := by
  unfold write_complete
  simp [h, hs]

/-! ## Lemmas on event lists -/

theorem flash_calls_append (a b : List Event) :
    flash_calls (a ++ b) = flash_calls a ++ flash_calls b := by
  simp [flash_calls]

theorem flash_calls_failure (c : Prop) [Decidable c] :
    flash_calls (if c then [Event.main_usb_disconnect_event] else []) = [] := by
  split <;> rfl

theorem disconnect_count_append (a b : List Event) :
    disconnect_count (a ++ b) = disconnect_count a + disconnect_count b := by
  simp [disconnect_count]

theorem write_data_events (fl : FlashReturns) (bs block : Nat) (buf : List Nat)
    (s : file_transfer_state_t) :
    flash_calls (write_data fl bs block buf s).2 = []
      ∨ flash_calls (write_data fl bs block buf s).2
          = [Event.target_flash_program_page (u32 (u32_sub block s.start_block * bs)) buf bs] := by
  unfold write_data
  split_ifs <;> simp [flash_calls]

theorem write_data_not_started (fl : FlashReturns) (bs block : Nat) (buf : List Nat)
    (s : file_transfer_state_t) (h : s.transfer_started ≠ 1) :
    write_data fl bs block buf s = (s, []) := by
  unfold write_data
  simp [h]

theorem flash_calls_write_complete (s : file_transfer_state_t) :
    flash_calls (write_complete s).2 = [] := by
  unfold write_complete
  split <;> rfl

/-- The arming call: device after it and its events. -/
theorem arming_call (v : List Nat → Nat) (fl : FlashReturns) (d : Device) (block : Nat)
    (buf : List Nat) (num : Nat) (hready : d.USBD_MSC_MediaReady = true)
    (hidle : d.file_transfer_state.transfer_started = 0) (hv : v buf = 1) :
    (usbd_msc_write_sect v fl d block buf num).1
        = { d with file_transfer_state :=
              { start_block := block, amt_to_write := 4294967295,
                amt_written := d.USBD_MSC_BlockSize, last_block_written := block,
                transfer_started := 1, file_type := .BIN } }
    ∧ (usbd_msc_write_sect v fl d block buf num).2
        = [Event.main_blink_msd_led 0, Event.target_flash_init]
            ++ (if fl.target_flash_init = 0 then [Event.main_usb_disconnect_event] else [])
            ++ [Event.target_flash_program_page 0 buf d.USBD_MSC_BlockSize]
            ++ (if fl.target_flash_program_page = 0 then [Event.main_usb_disconnect_event]
                else []) := by
  have h0 : u32 (u32_sub block block * d.USBD_MSC_BlockSize) = 0 := by
    simp [u32_sub_self, u32]
  constructor
  · simp [usbd_msc_write_sect, hready, hidle, hv, write_arm]
  · simp [usbd_msc_write_sect, hready, hidle, hv, write_arm, h0]

/-! ## Lemmas on calls with a transfer in progress -/

/-- The flash calls of a call entered with a transfer in progress are those of its data
block. -/
theorem flash_calls_write_sect_started (v : List Nat → Nat) (fl : FlashReturns) (d : Device)
    (block : Nat) (buf : List Nat) (num : Nat) (hready : d.USBD_MSC_MediaReady = true)
    (h : ¬ (v buf = 1 ∧ d.file_transfer_state.transfer_started = 0)) :
    flash_calls (usbd_msc_write_sect v fl d block buf num).2
      = flash_calls (write_data fl d.USBD_MSC_BlockSize block buf
          (write_root_dir d.mbr d.USBD_MSC_BlockSize block buf d.file_transfer_state)).2 := by
  rw [write_sect_no_arm v fl d block buf num hready h]
  show flash_calls (Event.main_blink_msd_led 0 :: (_ ++ _)) = _
  rw [show ∀ l : List Event, Event.main_blink_msd_led 0 :: l
        = [Event.main_blink_msd_led 0] ++ l from fun l => rfl,
    flash_calls_append, flash_calls_append, flash_calls_write_complete]
  simp [flash_calls]

/-- One call entered with a transfer in progress, for a block at or after the start block
that is not the next one: no flash call, and the three bookkeeping fields keep their
values. -/
theorem out_of_order_call (v : List Nat → Nat) (fl : FlashReturns) (d : Device)
    (block : Nat) (buf : List Nat) (num : Nat)
    (hstarted : d.file_transfer_state.transfer_started = 1)
    (hnext : block ≠ u32 (d.file_transfer_state.last_block_written + 1)) :
    flash_calls (usbd_msc_write_sect v fl d block buf num).2 = []
    ∧ (usbd_msc_write_sect v fl d block buf num).1.file_transfer_state.amt_written
        = d.file_transfer_state.amt_written
    ∧ (usbd_msc_write_sect v fl d block buf num).1.file_transfer_state.last_block_written
        = d.file_transfer_state.last_block_written
    ∧ (usbd_msc_write_sect v fl d block buf num).1.file_transfer_state.start_block
        = d.file_transfer_state.start_block := by
  by_cases hready : d.USBD_MSC_MediaReady = true
  · have hna : ¬ (v buf = 1 ∧ d.file_transfer_state.transfer_started = 0) := by simp [hstarted]
    have hr := write_root_dir_fields d.mbr d.USBD_MSC_BlockSize block buf d.file_transfer_state
    have hd : write_data fl d.USBD_MSC_BlockSize block buf
        (write_root_dir d.mbr d.USBD_MSC_BlockSize block buf d.file_transfer_state)
        = (write_root_dir d.mbr d.USBD_MSC_BlockSize block buf d.file_transfer_state, []) :=
      write_data_of_not_next _ _ _ _ _ (by rw [hr.2.2.1]; exact hnext)
    have hc := write_complete_fields
      (write_root_dir d.mbr d.USBD_MSC_BlockSize block buf d.file_transfer_state)
    refine ⟨?_, ?_, ?_, ?_⟩
    · rw [flash_calls_write_sect_started v fl d block buf num hready hna, hd]; rfl
    · rw [write_sect_no_arm v fl d block buf num hready hna, hd]
      simp only [hc.2.2.1, hr.2.1]
    · rw [write_sect_no_arm v fl d block buf num hready hna, hd]
      simp only [hc.2.2.2.1, hr.2.2.1]
    · rw [write_sect_no_arm v fl d block buf num hready hna, hd]
      simp only [hc.1, hr.1]
  · have hnr : d.USBD_MSC_MediaReady = false := by simpa using hready
    rw [write_sect_not_ready v fl d block buf num hnr]
    simp [flash_calls]

/-- Every `target_flash_program_page` of a call entered with no transfer in progress is at
offset 0. -/
theorem program_page_offset_of_idle (v : List Nat → Nat) (fl : FlashReturns) (d : Device)
    (block : Nat) (buf : List Nat) (num : Nat)
    (hidle : d.file_transfer_state.transfer_started = 0) (adr : Nat) (b : List Nat) (n : Nat)
    (hmem : Event.target_flash_program_page adr b n ∈ (usbd_msc_write_sect v fl d block buf num).2) :
    adr = 0 := by
  by_cases hready : d.USBD_MSC_MediaReady = true
  · by_cases hv : v buf = 1
    · rw [(arming_call v fl d block buf num hready hidle hv).2] at hmem
      simp only [List.mem_append, List.mem_cons, List.mem_singleton] at hmem
      rcases hmem with ((h | h) | h) | h
      · rcases h with h | h | h <;> simp at h
      · split at h <;> simp at h
      · simp only [Event.target_flash_program_page.injEq, List.not_mem_nil, or_false] at h
        exact h.1
      · split at h <;> simp at h
    · have hna : ¬ (v buf = 1 ∧ d.file_transfer_state.transfer_started = 0) := by simp [hv]
      have hr := write_root_dir_fields d.mbr d.USBD_MSC_BlockSize block buf d.file_transfer_state
      have hd : write_data fl d.USBD_MSC_BlockSize block buf
          (write_root_dir d.mbr d.USBD_MSC_BlockSize block buf d.file_transfer_state)
          = (write_root_dir d.mbr d.USBD_MSC_BlockSize block buf d.file_transfer_state, []) :=
        write_data_not_started _ _ _ _ _ (by rw [hr.2.2.2.1, hidle]; norm_num)
      have hfc : Event.target_flash_program_page adr b n
          ∈ flash_calls (usbd_msc_write_sect v fl d block buf num).2 := by
        unfold flash_calls
        exact List.mem_filter.2 ⟨hmem, rfl⟩
      rw [flash_calls_write_sect_started v fl d block buf num hready hna, hd] at hfc
      simp [flash_calls] at hfc
  · have hnr : d.USBD_MSC_MediaReady = false := by simpa using hready
    rw [write_sect_not_ready v fl d block buf num hnr] at hmem
    simp at hmem

/-- One call entered with a transfer in progress for the next block, at or after the start
block: the block is programmed at `(block - start_block) * BlockSize` and the bookkeeping
advances; the completion test follows. -/
theorem contiguous_call (v : List Nat → Nat) (fl : FlashReturns) (d : Device)
    (block : Nat) (buf : List Nat) (num : Nat) (hready : d.USBD_MSC_MediaReady = true)
    (hstarted : d.file_transfer_state.transfer_started = 1)
    (hge : block ≥ d.file_transfer_state.start_block)
    (hnext : block = u32 (d.file_transfer_state.last_block_written + 1)) :
    usbd_msc_write_sect v fl d block buf num
      = ({ d with file_transfer_state :=
            (write_complete
              { start_block := d.file_transfer_state.start_block
                amt_to_write := (write_root_dir d.mbr d.USBD_MSC_BlockSize block buf
                  d.file_transfer_state).amt_to_write
                amt_written := u32 (d.file_transfer_state.amt_written + d.USBD_MSC_BlockSize)
                last_block_written := block
                transfer_started := 1
                file_type := d.file_transfer_state.file_type }).1 },
         Event.main_blink_msd_led 0 ::
            (([Event.target_flash_program_page
                (u32 (u32_sub block d.file_transfer_state.start_block * d.USBD_MSC_BlockSize))
                buf d.USBD_MSC_BlockSize]
              ++ (if fl.target_flash_program_page = 0 then [Event.main_usb_disconnect_event]
                  else []))
            ++ (write_complete
              { start_block := d.file_transfer_state.start_block
                amt_to_write := (write_root_dir d.mbr d.USBD_MSC_BlockSize block buf
                  d.file_transfer_state).amt_to_write
                amt_written := u32 (d.file_transfer_state.amt_written + d.USBD_MSC_BlockSize)
                last_block_written := block
                transfer_started := 1
                file_type := d.file_transfer_state.file_type }).2)) := by
  have hr := write_root_dir_fields d.mbr d.USBD_MSC_BlockSize block buf d.file_transfer_state
  have hd := write_data_of_next fl d.USBD_MSC_BlockSize block buf
    (write_root_dir d.mbr d.USBD_MSC_BlockSize block buf d.file_transfer_state)
    (by rw [hr.2.2.2.1]; exact hstarted) (by rw [hr.1]; exact hge)
    (by rw [hr.2.2.1]; exact hnext)
  rw [write_sect_started v fl d block buf num hready hstarted, hd]
  simp only [hr.1, hr.2.1, hr.2.2.2.1, hr.2.2.2.2, hstarted]

/-! ## Lemmas on sequences of calls -/

theorem write_calls_append (v : List Nat → Nat) (d : Device) (a b : List WriteCall) :
    write_calls v d (a ++ b)
      = ((write_calls v (write_calls v d a).1 b).1,
          (write_calls v d a).2 ++ (write_calls v (write_calls v d a).1 b).2) := by
  induction a generalizing d with
  | nil => simp [write_calls]
  | cons c cs ih =>
    show write_calls v d (c :: (cs ++ b)) = _
    simp only [write_calls]
    rw [ih]
    simp only [List.append_assoc]

theorem write_calls_single (v : List Nat → Nat) (d : Device) (c : WriteCall) :
    write_calls v d [c] = usbd_msc_write_sect v c.fl d c.block c.buf c.num_of_blocks := by
  simp [write_calls]

theorem contiguous_calls_succ (S : Nat) (bufs : Nat → List Nat) (nums : Nat → Nat)
    (fls : Nat → FlashReturns) (n : Nat) :
    contiguous_calls S bufs nums fls (n + 1)
      = contiguous_calls S bufs nums fls n
          ++ [{ block := S + 1 + n, buf := bufs n, num_of_blocks := nums n, fl := fls n }] := by
  unfold contiguous_calls
  rw [List.range_succ, List.map_append]
  rfl

/-- A run of `n` contiguous blocks after block `L`, none of them a root-directory sector,
that stays below the expected size: every block is programmed, the byte count grows by
`BlockSize` per block, the transfer stays in progress and no disconnect is signalled. -/
theorem contiguous_run (v : List Nat → Nat) (d : Device) (S0 A W L : Nat) (ft : extension_t)
    (bufs : Nat → List Nat) (nums : Nat → Nat) (fls : Nat → FlashReturns) (n : Nat)
    (hready : d.USBD_MSC_MediaReady = true)
    (hs : d.file_transfer_state = ⟨S0, A, W, L, 1, ft⟩)
    (hS0 : S0 ≤ L + 1)
    (hL : L + n < 4294967296)
    (hA : W + n * d.USBD_MSC_BlockSize < A)
    (hW : W + n * d.USBD_MSC_BlockSize < 4294967296)
    (hnroot : ∀ j, j < n → ¬ is_root_dir_sector d.mbr (L + 1 + j))
    (hfls : ∀ j, j < n → (fls j).target_flash_program_page ≠ 0) :
    (write_calls v d (contiguous_calls L bufs nums fls n)).1
        = { d with file_transfer_state := ⟨S0, A, W + n * d.USBD_MSC_BlockSize, L + n, 1, ft⟩ }
    ∧ disconnect_count (write_calls v d (contiguous_calls L bufs nums fls n)).2 = 0 := by
  induction n with
  | zero =>
    constructor
    · show d = _
      simp only [Nat.zero_mul, Nat.add_zero]
      rw [← hs]
    · rfl
  | succ k ih =>
    have hmono : k * d.USBD_MSC_BlockSize ≤ (k + 1) * d.USBD_MSC_BlockSize :=
      Nat.mul_le_mul_right _ (Nat.le_succ k)
    obtain ⟨ih1, ih2⟩ := ih (by omega) (by omega) (by omega)
      (fun j hj => hnroot j (Nat.lt_succ_of_lt hj)) (fun j hj => hfls j (Nat.lt_succ_of_lt hj))
    rw [contiguous_calls_succ, write_calls_append, write_calls_single, ih1]
    have hstep := contiguous_call v (fls k)
      { d with file_transfer_state := ⟨S0, A, W + k * d.USBD_MSC_BlockSize, L + k, 1, ft⟩ }
      (L + 1 + k) (bufs k) (nums k) hready rfl (show L + 1 + k ≥ S0 by omega)
      (show L + 1 + k = u32 (L + k + 1) by rw [u32_of_lt (by omega)]; omega)
    have hroot : (write_root_dir d.mbr d.USBD_MSC_BlockSize (L + 1 + k) (bufs k)
        ⟨S0, A, W + k * d.USBD_MSC_BlockSize, L + k, 1, ft⟩).amt_to_write = A := by
      rw [write_root_dir_of_not_root _ _ _ _ _ (hnroot k (Nat.lt_succ_self k))]
    have hsum : W + k * d.USBD_MSC_BlockSize + d.USBD_MSC_BlockSize
        = W + (k + 1) * d.USBD_MSC_BlockSize := by
      rw [Nat.add_mul, Nat.one_mul, Nat.add_assoc]
    have hu : u32 (W + k * d.USBD_MSC_BlockSize + d.USBD_MSC_BlockSize)
        = W + (k + 1) * d.USBD_MSC_BlockSize := by
      rw [hsum, u32_of_lt hW]
    simp only [hroot, hu] at hstep
    rw [write_complete_of_lt _ (by show W + (k + 1) * d.USBD_MSC_BlockSize < A; exact hA)]
      at hstep
    simp only
    rw [hstep]
    constructor
    · show _ = _
      have : L + 1 + k = L + (k + 1) := by omega
      rw [this]
    · rw [disconnect_count_append, ih2]
      have hk := hfls k (Nat.lt_succ_self k)
      simp [disconnect_count, hk]

/-- A call on a ready device with no transfer in progress whose data is not taken for
firmware: only the root-directory block can change the state, and only `amt_to_write`. -/
theorem idle_call (v : List Nat → Nat) (fl : FlashReturns) (d : Device) (block : Nat)
    (buf : List Nat) (num : Nat) (hready : d.USBD_MSC_MediaReady = true)
    (hidle : d.file_transfer_state.transfer_started = 0) (hv : v buf ≠ 1) :
    usbd_msc_write_sect v fl d block buf num
      = ({ d with file_transfer_state :=
            write_root_dir d.mbr d.USBD_MSC_BlockSize block buf d.file_transfer_state },
          [Event.main_blink_msd_led 0]) := by
  have hr := write_root_dir_fields d.mbr d.USBD_MSC_BlockSize block buf d.file_transfer_state
  have hns : (write_root_dir d.mbr d.USBD_MSC_BlockSize block buf
      d.file_transfer_state).transfer_started ≠ 1 := by rw [hr.2.2.2.1, hidle]; norm_num
  rw [write_sect_no_arm v fl d block buf num hready (by simp [hv]),
    write_data_not_started _ _ _ _ _ hns]
  have hc : write_complete (write_root_dir d.mbr d.USBD_MSC_BlockSize block buf
      d.file_transfer_state)
      = (write_root_dir d.mbr d.USBD_MSC_BlockSize block buf d.file_transfer_state, []) := by
    unfold write_complete
    simp [hns]
  simp only [hc, List.append_nil]

/-- A call entered with a transfer in progress for a block below the start block: only the
root-directory block and the completion test act. -/
theorem below_start_call (v : List Nat → Nat) (fl : FlashReturns) (d : Device) (block : Nat)
    (buf : List Nat) (num : Nat) (hready : d.USBD_MSC_MediaReady = true)
    (hstarted : d.file_transfer_state.transfer_started = 1)
    (hlt : block < d.file_transfer_state.start_block) :
    usbd_msc_write_sect v fl d block buf num
      = ({ d with file_transfer_state :=
            (write_complete (write_root_dir d.mbr d.USBD_MSC_BlockSize block buf
              d.file_transfer_state)).1 },
          Event.main_blink_msd_led 0 ::
            (write_complete (write_root_dir d.mbr d.USBD_MSC_BlockSize block buf
              d.file_transfer_state)).2) := by
  have hr := write_root_dir_fields d.mbr d.USBD_MSC_BlockSize block buf d.file_transfer_state
  rw [write_sect_started v fl d block buf num hready hstarted,
    write_data_of_below _ _ _ _ _ (by rw [hr.1]; exact hlt)]
  simp only [List.nil_append]

/-- Arming at block `S` and then a root-directory sector below `S` whose qualifying
records declare a size `F` above `BlockSize`: the transfer is in progress with
`amt_to_write = F`, one block written, and no disconnect signalled. -/
theorem armed_then_directory (v : List Nat → Nat) (d : Device) (S D F : Nat)
    (b0 bd : List Nat) (n0 nd : Nat) (fl0 fld : FlashReturns)
    (hready : d.USBD_MSC_MediaReady = true)
    (hidle : d.file_transfer_state.transfer_started = 0)
    (hv0 : v b0 = 1)
    (hfl0 : fl0.target_flash_init ≠ 0 ∧ fl0.target_flash_program_page ≠ 0)
    (hD : is_root_dir_sector d.mbr D) (hDS : D < S)
    (hex : ∃ i, i < d.USBD_MSC_BlockSize / sizeof_FatDirectoryEntry_t
      ∧ qualifying (read_dir_entry bd i))
    (hall : ∀ i, i < d.USBD_MSC_BlockSize / sizeof_FatDirectoryEntry_t →
      qualifying (read_dir_entry bd i) → (read_dir_entry bd i).filesize = F)
    (hF : d.USBD_MSC_BlockSize < F) :
    (write_calls v d [⟨S, b0, n0, fl0⟩, ⟨D, bd, nd, fld⟩]).1
        = { d with file_transfer_state := ⟨S, F, d.USBD_MSC_BlockSize, S, 1, .BIN⟩ }
    ∧ disconnect_count (write_calls v d [⟨S, b0, n0, fl0⟩, ⟨D, bd, nd, fld⟩]).2 = 0 := by
  have harm := arming_call v fl0 d S b0 n0 hready hidle hv0
  have hdir := below_start_call v fld
    { d with file_transfer_state := ⟨S, 4294967295, d.USBD_MSC_BlockSize, S, 1, .BIN⟩ }
    D bd nd hready rfl hDS
  have hroot : write_root_dir d.mbr d.USBD_MSC_BlockSize D bd
      ⟨S, 4294967295, d.USBD_MSC_BlockSize, S, 1, .BIN⟩
      = ⟨S, F, d.USBD_MSC_BlockSize, S, 1, .BIN⟩ := by
    rw [write_root_dir_of_root _ _ _ _ _ hD,
      root_dir_scan_of_size d.USBD_MSC_BlockSize bd _ F hex hall]
  simp only [hroot] at hdir
  rw [write_complete_of_lt _ (by show d.USBD_MSC_BlockSize < F; exact hF)] at hdir
  have h2 : write_calls v d [⟨S, b0, n0, fl0⟩, ⟨D, bd, nd, fld⟩]
      = ({ d with file_transfer_state := ⟨S, F, d.USBD_MSC_BlockSize, S, 1, .BIN⟩ },
          (usbd_msc_write_sect v fl0 d S b0 n0).2 ++ ([Event.main_blink_msd_led 0] ++ [])) := by
    simp only [write_calls, harm.1, hdir]
  rw [h2]
  refine ⟨rfl, ?_⟩
  rw [disconnect_count_append, harm.2]
  simp [disconnect_count, hfl0.1, hfl0.2]

/-- After arming at `S` and a directory sector setting `amt_to_write = F`, the contiguous
writes `S+1, ..., S+k` keep the transfer in progress while `(k+1) * BlockSize < F`. -/
theorem directory_then_run (v : List Nat → Nat) (d : Device) (S D F : Nat)
    (b0 bd : List Nat) (n0 nd : Nat) (fl0 fld : FlashReturns)
    (bufs : Nat → List Nat) (nums : Nat → Nat) (fls : Nat → FlashReturns) (k : Nat)
    (hready : d.USBD_MSC_MediaReady = true)
    (hidle : d.file_transfer_state.transfer_started = 0)
    (hv0 : v b0 = 1)
    (hfl0 : fl0.target_flash_init ≠ 0 ∧ fl0.target_flash_program_page ≠ 0)
    (hD : is_root_dir_sector d.mbr D) (hDS : D < S)
    (hex : ∃ i, i < d.USBD_MSC_BlockSize / sizeof_FatDirectoryEntry_t
      ∧ qualifying (read_dir_entry bd i))
    (hall : ∀ i, i < d.USBD_MSC_BlockSize / sizeof_FatDirectoryEntry_t →
      qualifying (read_dir_entry bd i) → (read_dir_entry bd i).filesize = F)
    (hk : (k + 1) * d.USBD_MSC_BlockSize < F)
    (hF : F ≤ 4294967296)
    (hS : S + k < 4294967296)
    (hnroot : ∀ j, j < k → ¬ is_root_dir_sector d.mbr (S + 1 + j))
    (hfls : ∀ j, j < k → (fls j).target_flash_program_page ≠ 0) :
    (write_calls v d ([⟨S, b0, n0, fl0⟩, ⟨D, bd, nd, fld⟩]
        ++ contiguous_calls S bufs nums fls k)).1
        = { d with file_transfer_state :=
              ⟨S, F, (k + 1) * d.USBD_MSC_BlockSize, S + k, 1, .BIN⟩ }
    ∧ disconnect_count (write_calls v d ([⟨S, b0, n0, fl0⟩, ⟨D, bd, nd, fld⟩]
        ++ contiguous_calls S bufs nums fls k)).2 = 0 := by
  have hk1 : (k + 1) * d.USBD_MSC_BlockSize
      = d.USBD_MSC_BlockSize + k * d.USBD_MSC_BlockSize := by
    rw [Nat.add_mul, Nat.one_mul, Nat.add_comm]
  obtain ⟨h1, h2⟩ := armed_then_directory v d S D F b0 bd n0 nd fl0 fld hready hidle hv0 hfl0
    hD hDS hex hall (by omega)
  have hrun := contiguous_run v
    { d with file_transfer_state := ⟨S, F, d.USBD_MSC_BlockSize, S, 1, .BIN⟩ }
    S F d.USBD_MSC_BlockSize S .BIN bufs nums fls k hready rfl (by omega) hS
    (by show d.USBD_MSC_BlockSize + k * d.USBD_MSC_BlockSize < _; omega)
    (by show d.USBD_MSC_BlockSize + k * d.USBD_MSC_BlockSize < _; omega)
    hnroot hfls
  rw [write_calls_append, h1]
  simp only
  rw [hrun.1, disconnect_count_append, h2, hrun.2, hk1]
  exact ⟨rfl, rfl⟩

/-! ## Lemmas on the table walk -/

theorem table_span_succ (fs : List fs_entry_t) (k : Nat) (e : fs_entry_t)
    (h : fs[k]? = some e) : table_span fs (k + 1) = table_span fs k + e.length := by
  unfold table_span
  induction fs generalizing k with
  | nil => simp at h
  | cons a t ih =>
    cases k with
    | zero =>
      simp only [List.getElem?_cons_zero, Option.some.injEq] at h
      subst h
      simp
    | succ n =>
      simp only [List.getElem?_cons_succ] at h
      have := ih n h
      simp only [List.take_succ_cons, List.map_cons, List.sum_cons] at this ⊢
      omega

theorem table_span_mono (fs : List fs_entry_t) {j k : Nat} (h : j ≤ k) :
    table_span fs j ≤ table_span fs k := by
  unfold table_span
  induction fs generalizing j k with
  | nil => simp
  | cons a t ih =>
    cases j with
    | zero => simp
    | succ m =>
      cases k with
      | zero => omega
      | succ n =>
        simp only [List.take_succ_cons, List.map_cons, List.sum_cons]
        have := ih (Nat.le_of_succ_le_succ h)
        omega

/-- The walk from entry `j` on, when a zero-length entry stands at an index `k ≤ 255` and
the requested address is not below the start of entry `k`: it ends, within `k - j + 1`
evaluations of the loop condition, with no entry selected. -/
theorem read_walk_beyond (fs : List fs_entry_t) (req_addr k : Nat) (e0 : fs_entry_t)
    (hk : k ≤ 255) (hsent : fs[k]? = some e0) (hzero : e0.length = 0)
    (hreq : req_addr < 4294967296) (hbeyond : table_span fs k ≤ req_addr) :
    ∀ (n j fuel : Nat), j + n = k → n + 1 ≤ fuel →
      ∃ w, read_walk fs req_addr fuel
            { fs_read_sect := none, max_known_fs_entry_addr := table_span fs j,
              req_sector_offset := 0, i := j, real_data_present := 1 } = .ok w
        ∧ w.fs_read_sect = none := by
  intro n
  induction n with
  | zero =>
    intro j fuel hj hfuel
    obtain ⟨f, rfl⟩ : ∃ f, fuel = f + 1 := ⟨fuel - 1, by omega⟩
    have hjk : j = k := by omega
    subst hjk
    refine ⟨⟨none, table_span fs j, 0, j, 1⟩, ?_, rfl⟩
    simp [read_walk, hsent, hzero]
  | succ m ih =>
    intro j fuel hj hfuel
    obtain ⟨f, rfl⟩ : ∃ f, fuel = f + 1 := ⟨fuel - 1, by omega⟩
    have hlen : k < fs.length := by
      by_contra hcon
      rw [List.getElem?_eq_none (by omega)] at hsent
      exact Option.noConfusion hsent
    have hjlen : j < fs.length := by omega
    obtain ⟨e, he⟩ : ∃ e, fs[j]? = some e := ⟨fs[j], List.getElem?_eq_getElem hjlen⟩
    by_cases hez : e.length = 0
    · refine ⟨⟨none, table_span fs j, 0, j, 1⟩, ?_, rfl⟩
      simp [read_walk, he, hez]
    · have hspan := table_span_succ fs j e he
      have hle : table_span fs (j + 1) ≤ table_span fs k := table_span_mono fs (by omega)
      have hbody : read_walk_body e req_addr
          { fs_read_sect := none, max_known_fs_entry_addr := table_span fs j,
            req_sector_offset := 0, i := j, real_data_present := 1 }
          = { fs_read_sect := none, max_known_fs_entry_addr := table_span fs (j + 1),
              req_sector_offset := 0, i := j + 1, real_data_present := 1 } := by
        have h1 : u32 (table_span fs j + e.length) = table_span fs (j + 1) := by
          rw [← hspan]; exact u32_of_lt (by omega)
        have h2 : ¬ req_addr < table_span fs (j + 1) := by omega
        have h3 : u8 (j + 1) = j + 1 := by unfold u8; omega
        simp only [read_walk_body, h1, h2, if_false, h3]
      obtain ⟨w, hw, hnone⟩ := ih (j + 1) f (by omega) (by omega)
      refine ⟨w, ?_, hnone⟩
      rw [← hw]
      simp only [read_walk, he, hez, ne_eq, not_false_eq_true, and_self, if_true, hbody]

/-- The classifier never gives a match when `first_byte_valid` rejects the first byte. -/
theorem wanted_dir_entry_of_first_byte_rejected (e : FatDirectoryEntry_t)
    (h : first_byte_valid (e.filename.getD 0 0) ≠ 1) : wanted_dir_entry e = .UNKNOWN := by
  cases hw : wanted_dir_entry e with
  | UNKNOWN => rfl
  | BIN => exact absurd ((wanted_dir_entry_eq_BIN e).1 hw).1 h

/-- A sector whose last qualifying record is record `i` sets `amt_to_write` to the size
that record declares, whatever the records before it declare. -/
theorem root_dir_scan_of_last (blockSize : Nat) (buf : List Nat) (amt i : Nat)
    (hi : i < blockSize / sizeof_FatDirectoryEntry_t)
    (hq : qualifying (read_dir_entry buf i))
    (hlast : ∀ j, j < blockSize / sizeof_FatDirectoryEntry_t → i < j →
      ¬ qualifying (read_dir_entry buf j)) :
    root_dir_scan blockSize buf amt = (read_dir_entry buf i).filesize := by
  unfold root_dir_scan
  generalize blockSize / sizeof_FatDirectoryEntry_t = n at hi hlast
  induction n with
  | zero => omega
  | succ k ih =>
    rw [root_dir_scan_succ]
    rcases Nat.lt_succ_iff_lt_or_eq.1 hi with h | h
    · rw [root_dir_step_of_not_qualifying (hlast k (Nat.lt_succ_self k) h)]
      exact ih h (fun j hjk hj => hlast j (Nat.lt_succ_of_lt hjk) hj)
    · subst h
      exact root_dir_step_of_qualifying hq

/-! ## Lemmas on the unknown size -/

theorem pow_two_dvd_u32 {p : Nat} (hp : p ≤ 31) : 2 ^ p ∣ 4294967296 := by
  have h : (4294967296 : Nat) = 2 ^ 32 := by norm_num
  rw [h]
  exact pow_dvd_pow 2 (by omega)

theorem sentinel_not_multiple {p : Nat} (hp1 : 1 ≤ p) (hp : p ≤ 31) :
    4294967295 % 2 ^ p ≠ 0 := by
  intro h
  have h1 : 2 ^ p ∣ 4294967295 := Nat.dvd_of_mod_eq_zero h
  have h2 : 2 ^ p ∣ 4294967296 - 4294967295 := Nat.dvd_sub' (pow_two_dvd_u32 hp) h1
  have h3 : 2 ^ p = 1 := Nat.dvd_one.1 (by simpa using h2)
  have h4 : 2 ^ 1 ≤ 2 ^ p := Nat.pow_le_pow_right (by norm_num) hp1
  omega

theorem u32_add_multiple {p W : Nat} (hp : p ≤ 31) (hW : W % 2 ^ p = 0) :
    u32 (W + 2 ^ p) % 2 ^ p = 0 := by
  unfold u32
  rw [Nat.mod_mod_of_dvd _ (pow_two_dvd_u32 hp), Nat.add_mod, hW]
  simp

/-- One call that writes no qualifying directory record keeps a transfer of unknown size
in progress, and signals no disconnect unless `target_flash_program_page` fails. -/
theorem size_unknown_step (v : List Nat → Nat) (p : Nat) (d : Device) (c : WriteCall)
    (hinv : size_unknown p d)
    (hnq : no_qualifying_write d.mbr d.USBD_MSC_BlockSize c) :
    size_unknown p (usbd_msc_write_sect v c.fl d c.block c.buf c.num_of_blocks).1
    ∧ (usbd_msc_write_sect v c.fl d c.block c.buf c.num_of_blocks).1.mbr = d.mbr
    ∧ (usbd_msc_write_sect v c.fl d c.block c.buf c.num_of_blocks).1.USBD_MSC_BlockSize
        = d.USBD_MSC_BlockSize
    ∧ (c.fl.target_flash_program_page ≠ 0 →
        disconnect_count (usbd_msc_write_sect v c.fl d c.block c.buf c.num_of_blocks).2 = 0) := by
  obtain ⟨hready, hp1, hp, hbs, hst, hto, hmul, hlt⟩ := hinv
  have hroot : write_root_dir d.mbr d.USBD_MSC_BlockSize c.block c.buf d.file_transfer_state
      = d.file_transfer_state := by
    by_cases hr : is_root_dir_sector d.mbr c.block
    · rcases hnq with h | h
      · exact absurd hr h
      · rw [write_root_dir_of_root _ _ _ _ _ hr, root_dir_scan_of_none _ _ _ h]
    · exact write_root_dir_of_not_root _ _ _ _ _ hr
  rw [write_sect_started v c.fl d c.block c.buf c.num_of_blocks hready hst, hroot]
  have hsent := sentinel_not_multiple hp1 hp
  by_cases hnext : c.block = u32 (d.file_transfer_state.last_block_written + 1)
      ∧ c.block ≥ d.file_transfer_state.start_block
  · rw [write_data_of_next _ _ _ _ _ hst hnext.2 hnext.1]
    have hmul' : u32 (d.file_transfer_state.amt_written + d.USBD_MSC_BlockSize)
        % d.USBD_MSC_BlockSize = 0 := by
      rw [hbs] at hmul ⊢
      exact u32_add_multiple hp hmul
    have hlt' : u32 (d.file_transfer_state.amt_written + d.USBD_MSC_BlockSize) < 4294967296 :=
      Nat.mod_lt _ (by norm_num)
    have hne : u32 (d.file_transfer_state.amt_written + d.USBD_MSC_BlockSize) ≠ 4294967295 := by
      intro h
      rw [h, hbs] at hmul'
      exact hsent hmul'
    rw [write_complete_of_lt _ (by
      show u32 (d.file_transfer_state.amt_written + d.USBD_MSC_BlockSize)
        < d.file_transfer_state.amt_to_write
      rw [hto]; omega)]
    refine ⟨⟨hready, hp1, hp, hbs, hst, hto, hmul', hlt'⟩, rfl, rfl, ?_⟩
    intro hfl
    simp [disconnect_count, hfl]
  · have hdata : write_data c.fl d.USBD_MSC_BlockSize c.block c.buf d.file_transfer_state
        = (d.file_transfer_state, []) := by
      by_cases hge : c.block ≥ d.file_transfer_state.start_block
      · exact write_data_of_not_next _ _ _ _ _ (fun h => hnext ⟨h, hge⟩)
      · exact write_data_of_below _ _ _ _ _ (by omega)
    have hne : d.file_transfer_state.amt_written ≠ 4294967295 := by
      intro h
      rw [h, hbs] at hmul
      exact hsent hmul
    rw [hdata, write_complete_of_lt _ (by
      show d.file_transfer_state.amt_written < d.file_transfer_state.amt_to_write
      rw [hto]; omega)]
    refine ⟨⟨hready, hp1, hp, hbs, hst, hto, hmul, hlt⟩, rfl, rfl, ?_⟩
    intro _
    simp [disconnect_count]

/-- Any sequence of calls that write no qualifying directory record keeps a transfer of
unknown size in progress. -/
theorem size_unknown_run (v : List Nat → Nat) (p : Nat) (m : mbr_t) (bs : Nat) :
    ∀ (calls : List WriteCall) (d : Device), size_unknown p d → d.mbr = m →
      d.USBD_MSC_BlockSize = bs → (∀ c ∈ calls, no_qualifying_write m bs c) →
      size_unknown p (write_calls v d calls).1
      ∧ ((∀ c ∈ calls, c.fl.target_flash_program_page ≠ 0) →
          disconnect_count (write_calls v d calls).2 = 0) := by
  intro calls
  induction calls with
  | nil =>
    intro d hinv _ _ _
    exact ⟨hinv, fun _ => rfl⟩
  | cons c cs ih =>
    intro d hinv hm hb hnq
    obtain ⟨h1, h2, h3, h4⟩ := size_unknown_step v p d c hinv
      (by rw [hm, hb]; exact hnq c (List.mem_cons_self c cs))
    obtain ⟨i1, i2⟩ := ih (usbd_msc_write_sect v c.fl d c.block c.buf c.num_of_blocks).1 h1
      (by rw [h2, hm]) (by rw [h3, hb]) (fun c' hc' => hnq c' (List.mem_cons_of_mem c hc'))
    refine ⟨i1, fun hfl => ?_⟩
    show disconnect_count (_ ++ _) = 0
    rw [disconnect_count_append, h4 (hfl c (List.mem_cons_self c cs)),
      i2 (fun c' hc' => hfl c' (List.mem_cons_of_mem c hc'))]

/-! ## Lemmas on the table walk through a gap -/

theorem read_walk_body_of_not_below (e : fs_entry_t) (req_addr : Nat) (w : read_walk_t)
    (h : ¬ req_addr < u32 (w.max_known_fs_entry_addr + e.length)) :
    read_walk_body e req_addr w
      = { w with max_known_fs_entry_addr := u32 (w.max_known_fs_entry_addr + e.length)
                 i := u8 (w.i + 1) } := by
  simp only [read_walk_body, h, if_false]

theorem read_walk_body_of_below (e : fs_entry_t) (req_addr : Nat) (w : read_walk_t)
    (h : req_addr < u32 (w.max_known_fs_entry_addr + e.length)) :
    read_walk_body e req_addr w
      = { fs_read_sect := e.sect
          max_known_fs_entry_addr := u32 (w.max_known_fs_entry_addr + e.length)
          req_sector_offset :=
            u32_sub e.length (u32_sub (u32 (w.max_known_fs_entry_addr + e.length)) req_addr)
          i := u8 (w.i + 1)
          real_data_present :=
            if u32_sub e.length (u32_sub (u32 (w.max_known_fs_entry_addr + e.length)) req_addr)
                ≥ sizeof_sect then 0
            else w.real_data_present } := by
  simp only [read_walk_body, h, if_true]

theorem read_walk_stop (fs : List fs_entry_t) (req_addr fuel : Nat) (w : read_walk_t)
    (e : fs_entry_t) (he : fs[w.i]? = some e) (h : ¬ (e.length ≠ 0 ∧ w.fs_read_sect = none)) :
    read_walk fs req_addr (fuel + 1) w = .ok w := by
  simp only [read_walk, he, h, if_false]

theorem read_walk_continue (fs : List fs_entry_t) (req_addr fuel : Nat) (w : read_walk_t)
    (e : fs_entry_t) (he : fs[w.i]? = some e) (h : e.length ≠ 0 ∧ w.fs_read_sect = none) :
    read_walk fs req_addr (fuel + 1) w
      = read_walk fs req_addr fuel (read_walk_body e req_addr w) := by
  simp only [read_walk, he, h, ne_eq, not_false_eq_true, and_self, if_true]

/-- The walk for a request that falls into a gap entry `j` (null `sect`, length below
`2^32 - 4`) of a table with a zero-length entry at `k ≤ 255` and lengths summing to less
than `2^32`: it ends with no entry selected or with the data marked absent. -/
theorem read_walk_gap (fs : List fs_entry_t) (req_addr j k : Nat) (e0 ej : fs_entry_t)
    (hk : k ≤ 255) (hsent : fs[k]? = some e0) (hzero : e0.length = 0)
    (hj : fs[j]? = some ej) (hnull : ej.sect = none) (hlen : ej.length < 4294967292)
    (hlow : table_span fs j ≤ req_addr) (hhi : req_addr < table_span fs (j + 1))
    (htot : table_span fs k < 4294967296) :
    ∀ (n : Nat) (w : read_walk_t) (fuel : Nat), w.i + n = k → n + 1 ≤ fuel →
      gap_walk_state fs req_addr j w →
      ∃ w', read_walk fs req_addr fuel w = .ok w'
        ∧ (w'.fs_read_sect = none ∨ w'.real_data_present = 0) := by
  have hklen : k < fs.length := by
    by_contra hcon
    rw [List.getElem?_eq_none (by omega)] at hsent
    exact Option.noConfusion hsent
  intro n
  induction n with
  | zero =>
    intro w fuel hi hfuel hinv
    obtain ⟨f, rfl⟩ : ∃ f, fuel = f + 1 := ⟨fuel - 1, by omega⟩
    have hik : w.i = k := by omega
    refine ⟨w, read_walk_stop fs req_addr f w e0 (by rw [hik]; exact hsent)
      (by simp [hzero]), ?_⟩
    rcases hinv with h | h
    · exact Or.inr h.2
    · exact Or.inl h.1
  | succ m ih =>
    intro w fuel hi hfuel hinv
    obtain ⟨f, rfl⟩ : ∃ f, fuel = f + 1 := ⟨fuel - 1, by omega⟩
    have hilen : w.i < fs.length := by omega
    obtain ⟨e, he⟩ : ∃ e, fs[w.i]? = some e := ⟨fs[w.i], List.getElem?_eq_getElem hilen⟩
    rcases hinv with hA | ⟨hnone, hmax, hB⟩
    · exact ⟨w, read_walk_stop fs req_addr f w e he (fun h => hA.1 h.2), Or.inr hA.2⟩
    · by_cases hez : e.length = 0
      · exact ⟨w, read_walk_stop fs req_addr f w e he (fun h => h.1 hez), Or.inl hnone⟩
      · have hspan := table_span_succ fs w.i e he
        have hle : table_span fs (w.i + 1) ≤ table_span fs k := table_span_mono fs (by omega)
        have hu : u32 (w.max_known_fs_entry_addr + e.length) = table_span fs (w.i + 1) := by
          rw [hmax, ← hspan]; exact u32_of_lt (by omega)
        have h8 : u8 (w.i + 1) = w.i + 1 := by unfold u8; omega
        rw [read_walk_continue fs req_addr f w e he ⟨hez, hnone⟩]
        rcases hB with ⟨hlo, hij⟩ | ⟨hlt, hrdp⟩
        · -- the walk has not passed the gap entry
          by_cases hbelow : req_addr < table_span fs (w.i + 1)
          · -- this is the gap entry
            have hwj : w.i = j := by
              by_contra hne
              have : table_span fs (w.i + 1) ≤ table_span fs j :=
                table_span_mono fs (by omega)
              omega
            have hej : e = ej := by
              rw [hwj] at he
              rw [hj] at he
              exact (Option.some.inj he).symm
            rw [read_walk_body_of_below e req_addr w (by rw [hu]; exact hbelow), hu, h8]
            apply ih _ f (by show w.i + 1 + m = k; omega) (by omega)
            right
            refine ⟨by show e.sect = none; rw [hej]; exact hnull, rfl, ?_⟩
            right
            refine ⟨hbelow, Or.inr ?_⟩
            show table_span fs (w.i + 1) - req_addr ≤ 4294967292
            rw [hspan, hej]
            omega
          · rw [read_walk_body_of_not_below e req_addr w (by rw [hu]; exact hbelow), hu, h8]
            apply ih _ f (by show w.i + 1 + m = k; omega) (by omega)
            right
            refine ⟨hnone, rfl, Or.inl ⟨by show table_span fs (w.i + 1) ≤ req_addr; omega, ?_⟩⟩
            show w.i + 1 ≤ j
            by_contra hne
            have : table_span fs (j + 1) ≤ table_span fs (w.i + 1) :=
              table_span_mono fs (by omega)
            omega
        · -- the walk has passed the gap entry: every entry is selected, the offset wraps
          have hbelow : req_addr < table_span fs (w.i + 1) := by omega
          have hoff : u32_sub e.length (u32_sub (table_span fs (w.i + 1)) req_addr)
              = 4294967296 - (table_span fs w.i - req_addr) := by
            unfold u32_sub
            rw [hspan] at hle ⊢
            have h1 : (table_span fs w.i + e.length) % 4294967296
                = table_span fs w.i + e.length := Nat.mod_eq_of_lt (by omega)
            have h2 : req_addr % 4294967296 = req_addr := Nat.mod_eq_of_lt (by omega)
            have h3 : e.length % 4294967296 = e.length := Nat.mod_eq_of_lt (by omega)
            rw [h1, h2, h3]
            have h4 : (table_span fs w.i + e.length + 4294967296 - req_addr) % 4294967296
                = table_span fs w.i + e.length - req_addr := by
              have : table_span fs w.i + e.length + 4294967296 - req_addr
                  = (table_span fs w.i + e.length - req_addr) + 4294967296 := by omega
              rw [this, Nat.add_mod_right]
              exact Nat.mod_eq_of_lt (by omega)
            rw [h4]
            have h5 : (table_span fs w.i + e.length - req_addr) % 4294967296
                = table_span fs w.i + e.length - req_addr := Nat.mod_eq_of_lt (by omega)
            rw [h5]
            have h6 : e.length + 4294967296 - (table_span fs w.i + e.length - req_addr)
                = 4294967296 - (table_span fs w.i - req_addr) := by omega
            rw [h6]
            exact Nat.mod_eq_of_lt (by omega)
          have hrdp' : (if u32_sub e.length (u32_sub (table_span fs (w.i + 1)) req_addr)
              ≥ sizeof_sect then 0 else w.real_data_present) = 0 := by
            rcases hrdp with h0 | hd
            · rw [h0]; simp
            · rw [hoff]
              have : 4294967296 - (table_span fs w.i - req_addr) ≥ sizeof_sect := by
                unfold sizeof_sect; omega
              simp [this]
          rw [read_walk_body_of_below e req_addr w (by rw [hu]; exact hbelow), hu, h8, hrdp']
          apply ih _ f (by show w.i + 1 + m = k; omega) (by omega)
          by_cases hs : e.sect = none
          · right
            exact ⟨hs, rfl, Or.inr ⟨hbelow, Or.inl rfl⟩⟩
          · left
            exact ⟨hs, rfl⟩

/-! ## Lemmas on repeated calls -/

theorem block_ne_u32_succ (block : Nat) : block ≠ u32 (block + 1) := by
  unfold u32
  omega

/-- The directory scan either leaves every value as it is or gives one value whatever it
starts from. -/
theorem root_dir_scan_const_or_id (blockSize : Nat) (buf : List Nat) :
    (∀ a, root_dir_scan blockSize buf a = a)
      ∨ (∃ c, ∀ a, root_dir_scan blockSize buf a = c) := by
  unfold root_dir_scan
  generalize blockSize / sizeof_FatDirectoryEntry_t = n
  induction n with
  | zero => left; intro a; rfl
  | succ k ih =>
    by_cases hq : qualifying (read_dir_entry buf k)
    · right
      refine ⟨(read_dir_entry buf k).filesize, fun a => ?_⟩
      rw [root_dir_scan_succ, root_dir_step_of_qualifying hq]
    · rcases ih with h | ⟨c, h⟩
      · left
        intro a
        rw [root_dir_scan_succ, root_dir_step_of_not_qualifying hq, h]
      · right
        refine ⟨c, fun a => ?_⟩
        rw [root_dir_scan_succ, root_dir_step_of_not_qualifying hq, h]

theorem root_dir_scan_idem (blockSize : Nat) (buf : List Nat) (a : Nat) :
    root_dir_scan blockSize buf (root_dir_scan blockSize buf a) = root_dir_scan blockSize buf a := by
  rcases root_dir_scan_const_or_id blockSize buf with h | ⟨c, h⟩
  · rw [h, h]
  · rw [h, h]

/-- The root-directory block leaves a state alone whose `amt_to_write` it has produced. -/
theorem write_root_dir_idem (m : mbr_t) (bs block : Nat) (buf : List Nat)
    (s t : file_transfer_state_t)
    (h : t.amt_to_write = (write_root_dir m bs block buf s).amt_to_write) :
    write_root_dir m bs block buf t = t := by
  unfold write_root_dir at h ⊢
  split_ifs at h ⊢ with hr
  · have ht : root_dir_scan bs buf t.amt_to_write = t.amt_to_write := by
      rw [h]; exact root_dir_scan_idem bs buf s.amt_to_write
    rw [ht]
  · rfl

theorem write_complete_idem (s : file_transfer_state_t) :
    (write_complete (write_complete s).1).1 = (write_complete s).1 := by
  unfold write_complete
  split_ifs <;> simp_all

/-- After the data block and the completion test of a call, the data block of a second call
for the same block changes nothing. -/
theorem write_data_after (fl1 fl2 : FlashReturns) (bs block : Nat) (buf : List Nat)
    (r : file_transfer_state_t) :
    (write_data fl2 bs block buf (write_complete (write_data fl1 bs block buf r).1).1).1
      = (write_complete (write_data fl1 bs block buf r).1).1 := by
  have hne := block_ne_u32_succ block
  have key : ∀ t : file_transfer_state_t, write_data fl2 bs block buf t = (t, []) →
      (write_data fl2 bs block buf t).1 = t := fun t h => by rw [h]
  by_cases hprog : (block ≥ r.start_block ∧ r.transfer_started = 1)
      ∧ block = u32 (r.last_block_written + 1)
  · rw [write_data_of_next fl1 bs block buf r hprog.1.2 hprog.1.1 hprog.2]
    have hl := (write_complete_fields
      { r with amt_written := u32 (r.amt_written + bs), last_block_written := block }).2.2.2.1
    exact key _ (write_data_of_not_next fl2 bs block buf _ (by rw [hl]; exact hne))
  · have h1 : write_data fl1 bs block buf r = (r, []) := by
      by_cases hge : block ≥ r.start_block
      · by_cases hst : r.transfer_started = 1
        · exact write_data_of_not_next _ _ _ _ _ (fun h => hprog ⟨⟨hge, hst⟩, h⟩)
        · exact write_data_not_started _ _ _ _ _ hst
      · exact write_data_of_below _ _ _ _ _ (by omega)
    rw [h1]
    have hc := write_complete_fields r
    by_cases hst : (write_complete r).1.transfer_started = 1
    · have hrst : r.transfer_started = 1 := by
        unfold write_complete at hst
        split_ifs at hst with h
        exact hst
      by_cases hge : block ≥ r.start_block
      · exact key _ (write_data_of_not_next fl2 bs block buf _
          (by rw [hc.2.2.2.1]; exact fun h => hprog ⟨⟨hge, hrst⟩, h⟩))
      · exact key _ (write_data_of_below fl2 bs block buf _ (by rw [hc.1]; omega))
    · exact key _ (write_data_not_started fl2 bs block buf _ hst)

/-- A call that does not arm, made a second time with the same block and data, leaves the
device as the first call left it. -/
theorem write_sect_twice (v : List Nat → Nat) (fl1 fl2 : FlashReturns) (d : Device)
    (block : Nat) (buf : List Nat) (n1 n2 : Nat) (hv : v buf ≠ 1) :
    (usbd_msc_write_sect v fl2 (usbd_msc_write_sect v fl1 d block buf n1).1 block buf n2).1
      = (usbd_msc_write_sect v fl1 d block buf n1).1 := by
  by_cases hready : d.USBD_MSC_MediaReady = true
  · have hna : ∀ d' : Device, ¬ (v buf = 1 ∧ d'.file_transfer_state.transfer_started = 0) :=
      fun d' h => hv h.1
    have h1 := write_sect_no_arm v fl1 d block buf n1 hready (hna d)
    generalize hd1 : (usbd_msc_write_sect v fl1 d block buf n1).1 = d1
    rw [h1] at hd1
    simp only at hd1
    have hready1 : d1.USBD_MSC_MediaReady = true := by rw [← hd1]; exact hready
    rw [write_sect_no_arm v fl2 d1 block buf n2 hready1 (hna d1)]
    subst hd1
    simp only
    generalize hr : write_root_dir d.mbr d.USBD_MSC_BlockSize block buf d.file_transfer_state = r
    have hamt : (write_complete (write_data fl1 d.USBD_MSC_BlockSize block buf r).1).1.amt_to_write
        = (write_root_dir d.mbr d.USBD_MSC_BlockSize block buf
            d.file_transfer_state).amt_to_write := by
      rw [(write_complete_fields _).2.1, (write_data_fields _ _ _ _ _).2.1, hr]
    rw [write_root_dir_idem d.mbr d.USBD_MSC_BlockSize block buf d.file_transfer_state _ hamt,
      write_data_after, write_complete_idem]
  · have hnr : d.USBD_MSC_MediaReady = false := by simpa using hready
    rw [write_sect_not_ready v fl1 d block buf n1 hnr,
      write_sect_not_ready v fl2 d block buf n2 hnr]

/-! ## Lemmas on the values returned by the flash driver -/

theorem write_data_state_indep (fl1 fl2 : FlashReturns) (bs block : Nat) (buf : List Nat)
    (s : file_transfer_state_t) :
    (write_data fl1 bs block buf s).1 = (write_data fl2 bs block buf s).1 := by
  unfold write_data
  split_ifs <;> rfl

theorem write_data_calls_indep (fl1 fl2 : FlashReturns) (bs block : Nat) (buf : List Nat)
    (s : file_transfer_state_t) :
    flash_calls (write_data fl1 bs block buf s).2 = flash_calls (write_data fl2 bs block buf s).2
      ∧ without_disconnects (write_data fl1 bs block buf s).2
          = without_disconnects (write_data fl2 bs block buf s).2 := by
  unfold write_data
  split_ifs <;> simp [flash_calls, without_disconnects]

theorem without_disconnects_append (a b : List Event) :
    without_disconnects (a ++ b) = without_disconnects a ++ without_disconnects b := by
  simp [without_disconnects]

theorem write_arm_indep (fl1 fl2 : FlashReturns) (bs block : Nat) (buf : List Nat) :
    (write_arm fl1 bs block buf).1 = (write_arm fl2 bs block buf).1
      ∧ flash_calls (write_arm fl1 bs block buf).2 = flash_calls (write_arm fl2 bs block buf).2
      ∧ without_disconnects (write_arm fl1 bs block buf).2
          = without_disconnects (write_arm fl2 bs block buf).2 := by
  unfold write_arm
  refine ⟨rfl, ?_, ?_⟩
  · split_ifs <;> simp [flash_calls]
  · split_ifs <;> simp [without_disconnects]

/-- Two runs of one call that differ only in the values returned by the flash driver: same
device, same flash calls, same events apart from the disconnect signals. -/
theorem write_sect_indep (v : List Nat → Nat) (fl1 fl2 : FlashReturns) (d : Device)
    (block : Nat) (buf : List Nat) (num : Nat) :
    (usbd_msc_write_sect v fl1 d block buf num).1 = (usbd_msc_write_sect v fl2 d block buf num).1
      ∧ flash_calls (usbd_msc_write_sect v fl1 d block buf num).2
          = flash_calls (usbd_msc_write_sect v fl2 d block buf num).2
      ∧ without_disconnects (usbd_msc_write_sect v fl1 d block buf num).2
          = without_disconnects (usbd_msc_write_sect v fl2 d block buf num).2 := by
  by_cases hready : d.USBD_MSC_MediaReady = true
  · by_cases harm : v buf = 1 ∧ d.file_transfer_state.transfer_started = 0
    · have h1 : ∀ fl, usbd_msc_write_sect v fl d block buf num
          = ({ d with file_transfer_state := (write_arm fl d.USBD_MSC_BlockSize block buf).1 },
             Event.main_blink_msd_led 0 :: (write_arm fl d.USBD_MSC_BlockSize block buf).2) := by
        intro fl
        simp only [usbd_msc_write_sect, hready, harm, if_true, and_self, Bool.true_eq_false,
          if_false]
      have ha := write_arm_indep fl1 fl2 d.USBD_MSC_BlockSize block buf
      rw [h1 fl1, h1 fl2]
      refine ⟨?_, ?_, ?_⟩
      · show Device.mk _ _ _ _ _ _ _ _ = Device.mk _ _ _ _ _ _ _ _
        rw [ha.1]
      · show flash_calls ([Event.main_blink_msd_led 0] ++ _)
          = flash_calls ([Event.main_blink_msd_led 0] ++ _)
        rw [flash_calls_append, flash_calls_append, ha.2.1]
      · show without_disconnects ([Event.main_blink_msd_led 0] ++ _)
          = without_disconnects ([Event.main_blink_msd_led 0] ++ _)
        rw [without_disconnects_append, without_disconnects_append, ha.2.2]
    · rw [write_sect_no_arm v fl1 d block buf num hready harm,
        write_sect_no_arm v fl2 d block buf num hready harm]
      generalize write_root_dir d.mbr d.USBD_MSC_BlockSize block buf d.file_transfer_state = r
      have hs := write_data_state_indep fl1 fl2 d.USBD_MSC_BlockSize block buf r
      have hc := write_data_calls_indep fl1 fl2 d.USBD_MSC_BlockSize block buf r
      refine ⟨?_, ?_, ?_⟩
      · show Device.mk _ _ _ _ _ _ _ _ = Device.mk _ _ _ _ _ _ _ _
        rw [hs]
      · show flash_calls ([Event.main_blink_msd_led 0] ++ (_ ++ _))
          = flash_calls ([Event.main_blink_msd_led 0] ++ (_ ++ _))
        rw [flash_calls_append, flash_calls_append, flash_calls_append, flash_calls_append,
          hc.1, hs]
      · show without_disconnects ([Event.main_blink_msd_led 0] ++ (_ ++ _))
          = without_disconnects ([Event.main_blink_msd_led 0] ++ (_ ++ _))
        rw [without_disconnects_append, without_disconnects_append, without_disconnects_append,
          without_disconnects_append, hc.2, hs]
  · have hnr : d.USBD_MSC_MediaReady = false := by simpa using hready
    rw [write_sect_not_ready v fl1 d block buf num hnr,
      write_sect_not_ready v fl2 d block buf num hnr]
    exact ⟨rfl, rfl, rfl⟩

/-! ## Lemmas on the states reached by sequences of calls -/

theorem program_offsets_append (a b : List Event) :
    program_offsets (a ++ b) = program_offsets a ++ program_offsets b := by
  simp [program_offsets]

theorem program_offsets_write_complete (s : file_transfer_state_t) :
    program_offsets (write_complete s).2 = [] := by
  unfold write_complete
  split_ifs <;> rfl

theorem program_offsets_call_events (x : file_transfer_state_t) (l : List Event) :
    program_offsets (Event.main_blink_msd_led 0 :: (l ++ (write_complete x).2))
      = program_offsets l := by
  show program_offsets ([Event.main_blink_msd_led 0] ++ (l ++ _)) = _
  rw [program_offsets_append, program_offsets_append, program_offsets_write_complete]
  simp [program_offsets]

/-- The transfer state after the completion test never has a reached size pending. -/
theorem write_complete_not_pending (s : file_transfer_state_t) :
    ¬ ((write_complete s).1.transfer_started = 1
        ∧ (write_complete s).1.amt_written ≥ (write_complete s).1.amt_to_write) := by
  unfold write_complete
  split_ifs with h
  · simp
  · intro hp
    exact h ⟨hp.2, hp.1⟩

theorem write_complete_started (s : file_transfer_state_t)
    (h : (write_complete s).1.transfer_started = 1) : s.transfer_started = 1 := by
  unfold write_complete at h
  split_ifs at h with hc
  exact h

/-- A call changes nothing of the device but the transfer state. -/
theorem write_sect_globals (v : List Nat → Nat) (fl : FlashReturns) (d : Device)
    (block : Nat) (buf : List Nat) (num : Nat) :
    (usbd_msc_write_sect v fl d block buf num).1.USBD_MSC_BlockSize = d.USBD_MSC_BlockSize
      ∧ (usbd_msc_write_sect v fl d block buf num).1.USBD_MSC_MediaReady = d.USBD_MSC_MediaReady
      ∧ (usbd_msc_write_sect v fl d block buf num).1.mbr = d.mbr := by
  unfold usbd_msc_write_sect
  split_ifs <;> exact ⟨rfl, rfl, rfl⟩

/-- The three ways a call can act on the bookkeeping of a transfer: it leaves the start
block, the last block and the byte count alone and programs nothing; or it arms a transfer
and programs at offset 0; or it programs the next contiguous block. -/
theorem write_sect_cases (v : List Nat → Nat) (fl : FlashReturns) (d : Device)
    (block : Nat) (buf : List Nat) (num : Nat) :
    ((usbd_msc_write_sect v fl d block buf num).1.file_transfer_state.start_block
          = d.file_transfer_state.start_block
        ∧ (usbd_msc_write_sect v fl d block buf num).1.file_transfer_state.last_block_written
          = d.file_transfer_state.last_block_written
        ∧ (usbd_msc_write_sect v fl d block buf num).1.file_transfer_state.amt_written
          = d.file_transfer_state.amt_written
        ∧ ((usbd_msc_write_sect v fl d block buf num).1.file_transfer_state.transfer_started = 1
            → d.file_transfer_state.transfer_started = 1)
        ∧ program_offsets (usbd_msc_write_sect v fl d block buf num).2 = [])
    ∨ (d.file_transfer_state.transfer_started = 0
        ∧ (usbd_msc_write_sect v fl d block buf num).1.file_transfer_state
          = ⟨block, 4294967295, d.USBD_MSC_BlockSize, block, 1, .BIN⟩
        ∧ program_offsets (usbd_msc_write_sect v fl d block buf num).2 = [0])
    ∨ (d.file_transfer_state.transfer_started = 1
        ∧ block ≥ d.file_transfer_state.start_block
        ∧ block = u32 (d.file_transfer_state.last_block_written + 1)
        ∧ (usbd_msc_write_sect v fl d block buf num).1.file_transfer_state.start_block
          = d.file_transfer_state.start_block
        ∧ (usbd_msc_write_sect v fl d block buf num).1.file_transfer_state.last_block_written
          = block
        ∧ (usbd_msc_write_sect v fl d block buf num).1.file_transfer_state.amt_written
          = u32 (d.file_transfer_state.amt_written + d.USBD_MSC_BlockSize)
        ∧ program_offsets (usbd_msc_write_sect v fl d block buf num).2
          = [u32 (u32_sub block d.file_transfer_state.start_block * d.USBD_MSC_BlockSize)]) := by
  by_cases hready : d.USBD_MSC_MediaReady = true
  · by_cases harm : v buf = 1 ∧ d.file_transfer_state.transfer_started = 0
    · right; left
      have h := arming_call v fl d block buf num hready harm.2 harm.1
      refine ⟨harm.2, ?_, ?_⟩
      · rw [h.1]
      · rw [h.2]
        split_ifs <;> simp [program_offsets]
    · rw [write_sect_no_arm v fl d block buf num hready harm]
      have hr := write_root_dir_fields d.mbr d.USBD_MSC_BlockSize block buf d.file_transfer_state
      generalize write_root_dir d.mbr d.USBD_MSC_BlockSize block buf d.file_transfer_state = r
        at hr ⊢
      have hc := write_complete_fields (write_data fl d.USBD_MSC_BlockSize block buf r).1
      have hcs := write_complete_started (write_data fl d.USBD_MSC_BlockSize block buf r).1
      have hev := program_offsets_call_events
      by_cases hprog : (block ≥ r.start_block ∧ r.transfer_started = 1)
          ∧ block = u32 (r.last_block_written + 1)
      · right; right
        have hd := write_data_of_next fl d.USBD_MSC_BlockSize block buf r hprog.1.2 hprog.1.1
          hprog.2
        rw [hd] at hc hcs ⊢
        refine ⟨by rw [← hr.2.2.2.1]; exact hprog.1.2, by rw [← hr.1]; exact hprog.1.1,
          by rw [← hr.2.2.1]; exact hprog.2, ?_, ?_, ?_, ?_⟩
        · show (write_complete _).1.start_block = _
          rw [hc.1]; exact hr.1
        · show (write_complete _).1.last_block_written = _
          rw [hc.2.2.2.1]
        · show (write_complete _).1.amt_written = _
          rw [hc.2.2.1]
          show u32 (r.amt_written + _) = _
          rw [hr.2.1]
        · rw [hev]
          rw [← hr.1]
          split_ifs <;> simp [program_offsets]
      · left
        have hd : write_data fl d.USBD_MSC_BlockSize block buf r = (r, []) := by
          by_cases hge : block ≥ r.start_block
          · by_cases hst : r.transfer_started = 1
            · exact write_data_of_not_next _ _ _ _ _ (fun h => hprog ⟨⟨hge, hst⟩, h⟩)
            · exact write_data_not_started _ _ _ _ _ hst
          · exact write_data_of_below _ _ _ _ _ (by omega)
        rw [hd] at hc hcs ⊢
        refine ⟨?_, ?_, ?_, ?_, ?_⟩
        · show (write_complete _).1.start_block = _
          rw [hc.1]; exact hr.1
        · show (write_complete _).1.last_block_written = _
          rw [hc.2.2.2.1]; exact hr.2.2.1
        · show (write_complete _).1.amt_written = _
          rw [hc.2.2.1]; exact hr.2.1
        · intro h
          rw [← hr.2.2.2.1]
          exact hcs h
        · rw [hev]
          rfl
  · left
    have hnr : d.USBD_MSC_MediaReady = false := by simpa using hready
    rw [write_sect_not_ready v fl d block buf num hnr]
    exact ⟨rfl, rfl, rfl, fun h => h, rfl⟩

/-- A property of devices kept by every call holds after every sequence of calls. -/
theorem write_calls_induction (v : List Nat → Nat) (P : Device → Prop)
    (hstep : ∀ (d : Device) (c : WriteCall), P d →
      P (usbd_msc_write_sect v c.fl d c.block c.buf c.num_of_blocks).1) :
    ∀ (calls : List WriteCall) (d : Device), P d → P (write_calls v d calls).1 := by
  intro calls
  induction calls with
  | nil => intro d h; exact h
  | cons c cs ih =>
    intro d h
    exact ih _ (hstep d c h)

theorem write_calls_globals (v : List Nat → Nat) (d : Device) (calls : List WriteCall) :
    (write_calls v d calls).1.USBD_MSC_BlockSize = d.USBD_MSC_BlockSize
      ∧ (write_calls v d calls).1.USBD_MSC_MediaReady = d.USBD_MSC_MediaReady
      ∧ (write_calls v d calls).1.mbr = d.mbr :=
  write_calls_induction v
    (fun x => x.USBD_MSC_BlockSize = d.USBD_MSC_BlockSize
      ∧ x.USBD_MSC_MediaReady = d.USBD_MSC_MediaReady ∧ x.mbr = d.mbr)
    (fun x c h => by
      have hg := write_sect_globals v c.fl x c.block c.buf c.num_of_blocks
      exact ⟨hg.1.trans h.1, hg.2.1.trans h.2.1, hg.2.2.trans h.2.2⟩)
    calls d ⟨rfl, rfl, rfl⟩

/-- With a transfer in progress the start block is not above the last block written: one
call keeps this. -/
theorem start_le_last_step (v : List Nat → Nat) (fl : FlashReturns) (d : Device)
    (block : Nat) (buf : List Nat) (num : Nat)
    (h : d.file_transfer_state.transfer_started = 1 →
      d.file_transfer_state.start_block ≤ d.file_transfer_state.last_block_written) :
    (usbd_msc_write_sect v fl d block buf num).1.file_transfer_state.transfer_started = 1 →
      (usbd_msc_write_sect v fl d block buf num).1.file_transfer_state.start_block
        ≤ (usbd_msc_write_sect v fl d block buf num).1.file_transfer_state.last_block_written := by
  intro hst
  rcases write_sect_cases v fl d block buf num with hc | hc | hc
  · rw [hc.1, hc.2.1]
    exact h (hc.2.2.2.1 hst)
  · rw [hc.2.1]
  · rw [hc.2.2.2.1, hc.2.2.2.2.1]
    exact hc.2.1

theorem start_le_last_of_init (v : List Nat → Nat) (d0 : Device) (calls : List WriteCall)
    (hinit : d0.file_transfer_state = file_transfer_state_init)
    (hst : (write_calls v d0 calls).1.file_transfer_state.transfer_started = 1) :
    (write_calls v d0 calls).1.file_transfer_state.start_block
      ≤ (write_calls v d0 calls).1.file_transfer_state.last_block_written :=
  write_calls_induction v
    (fun x => x.file_transfer_state.transfer_started = 1 →
      x.file_transfer_state.start_block ≤ x.file_transfer_state.last_block_written)
    (fun x c h => start_le_last_step v c.fl x c.block c.buf c.num_of_blocks h)
    calls d0 (fun h => by rw [hinit] at h; exact absurd h (by decide)) hst

/-- No reached size is left pending by a call, when the block size is below `0xffffffff`. -/
theorem not_pending_step (v : List Nat → Nat) (fl : FlashReturns) (d : Device)
    (block : Nat) (buf : List Nat) (num : Nat) (hbs : d.USBD_MSC_BlockSize < 4294967295)
    (h : ¬ (d.file_transfer_state.transfer_started = 1
      ∧ d.file_transfer_state.amt_written ≥ d.file_transfer_state.amt_to_write)) :
    ¬ ((usbd_msc_write_sect v fl d block buf num).1.file_transfer_state.transfer_started = 1
      ∧ (usbd_msc_write_sect v fl d block buf num).1.file_transfer_state.amt_written
        ≥ (usbd_msc_write_sect v fl d block buf num).1.file_transfer_state.amt_to_write) := by
  by_cases hready : d.USBD_MSC_MediaReady = true
  · by_cases harm : v buf = 1 ∧ d.file_transfer_state.transfer_started = 0
    · rw [(arming_call v fl d block buf num hready harm.2 harm.1).1]
      intro hp
      have := hp.2
      simp only [ge_iff_le] at this
      omega
    · rw [write_sect_no_arm v fl d block buf num hready harm]
      exact write_complete_not_pending _
  · have hnr : d.USBD_MSC_MediaReady = false := by simpa using hready
    rw [write_sect_not_ready v fl d block buf num hnr]
    exact h

/-! ## Lemmas on the flash offsets of a transfer -/

theorem u32_add_u32 (a b : Nat) : u32 (u32 a + b) = u32 (a + b) := by
  unfold u32
  exact Nat.mod_add_mod a 4294967296 b

/-- The number of blocks from the start block to the next block, as a 32-bit value times
the block size. -/
theorem u32_next_block_span (S L bs : Nat) (h : S ≤ L) (hge : S ≤ u32 (L + 1)) :
    u32 ((L - S + 1) * bs) = u32 ((u32 (L + 1) - S) * bs) := by
  have hq : L + 1 = 4294967296 * ((L + 1) / 4294967296) + u32 (L + 1) := by
    unfold u32
    exact (Nat.div_add_mod (L + 1) 4294967296).symm
  generalize u32 (L + 1) = b at hge hq
  generalize (L + 1) / 4294967296 = q at hq
  have hsplit : L - S + 1 = (b - S) + 4294967296 * q := by omega
  rw [hsplit, Nat.add_mul, Nat.mul_assoc]
  unfold u32
  exact Nat.add_mul_mod_self_left _ _ _

/-- The byte-count relation of a transfer in progress: one call keeps it. -/
theorem amount_step (v : List Nat → Nat) (fl : FlashReturns) (d : Device)
    (block : Nat) (buf : List Nat) (num : Nat) (htyped : d.USBD_MSC_BlockSize < 4294967296)
    (h : d.file_transfer_state.transfer_started = 1 →
      d.file_transfer_state.start_block ≤ d.file_transfer_state.last_block_written
      ∧ d.file_transfer_state.amt_written
        = u32 ((d.file_transfer_state.last_block_written - d.file_transfer_state.start_block + 1)
            * d.USBD_MSC_BlockSize)) :
    (usbd_msc_write_sect v fl d block buf num).1.file_transfer_state.transfer_started = 1 →
      (usbd_msc_write_sect v fl d block buf num).1.file_transfer_state.start_block
        ≤ (usbd_msc_write_sect v fl d block buf num).1.file_transfer_state.last_block_written
      ∧ (usbd_msc_write_sect v fl d block buf num).1.file_transfer_state.amt_written
        = u32 (((usbd_msc_write_sect v fl d block buf num).1.file_transfer_state.last_block_written
            - (usbd_msc_write_sect v fl d block buf num).1.file_transfer_state.start_block + 1)
            * d.USBD_MSC_BlockSize) := by
  intro hst
  rcases write_sect_cases v fl d block buf num with hc | hc | hc
  · rw [hc.1, hc.2.1, hc.2.2.1]
    exact h (hc.2.2.2.1 hst)
  · rw [hc.2.1]
    refine ⟨Nat.le_refl _, ?_⟩
    show d.USBD_MSC_BlockSize = u32 ((block - block + 1) * d.USBD_MSC_BlockSize)
    rw [Nat.sub_self, Nat.zero_add, Nat.one_mul, u32_of_lt htyped]
  · obtain ⟨hle, hw⟩ := h hc.1
    rw [hc.2.2.2.1, hc.2.2.2.2.1, hc.2.2.2.2.2.1]
    refine ⟨hc.2.1, ?_⟩
    have hge : d.file_transfer_state.start_block
        ≤ u32 (d.file_transfer_state.last_block_written + 1) := by
      rw [← hc.2.2.1]; exact hc.2.1
    rw [hw, u32_add_u32, hc.2.2.1]
    have hspan := u32_next_block_span d.file_transfer_state.start_block
      d.file_transfer_state.last_block_written d.USBD_MSC_BlockSize hle hge
    have e1 : (d.file_transfer_state.last_block_written - d.file_transfer_state.start_block + 1)
          * d.USBD_MSC_BlockSize + d.USBD_MSC_BlockSize
        = (d.file_transfer_state.last_block_written - d.file_transfer_state.start_block + 1)
          * d.USBD_MSC_BlockSize + 1 * d.USBD_MSC_BlockSize := by rw [Nat.one_mul]
    have e2 : (u32 (d.file_transfer_state.last_block_written + 1)
          - d.file_transfer_state.start_block + 1) * d.USBD_MSC_BlockSize
        = (u32 (d.file_transfer_state.last_block_written + 1)
          - d.file_transfer_state.start_block) * d.USBD_MSC_BlockSize
          + 1 * d.USBD_MSC_BlockSize := by rw [Nat.add_mul]
    rw [e1, e2, ← u32_add_u32, hspan, u32_add_u32]

/-- A contiguous block of a transfer that satisfies the byte-count relation is programmed
at the flash offset `amt_written`. -/
theorem contiguous_offset (d : Device) (block : Nat)
    (hle : d.file_transfer_state.start_block ≤ d.file_transfer_state.last_block_written)
    (hw : d.file_transfer_state.amt_written
      = u32 ((d.file_transfer_state.last_block_written - d.file_transfer_state.start_block + 1)
          * d.USBD_MSC_BlockSize))
    (hge : block ≥ d.file_transfer_state.start_block)
    (hnext : block = u32 (d.file_transfer_state.last_block_written + 1)) :
    u32 (u32_sub block d.file_transfer_state.start_block * d.USBD_MSC_BlockSize)
      = d.file_transfer_state.amt_written := by
  have hlt : block < 4294967296 := by
    rw [hnext]; unfold u32; exact Nat.mod_lt _ (by norm_num)
  rw [u32_sub_of_le hge hlt, hw, hnext]
  exact (u32_next_block_span _ _ _ hle (by rw [← hnext]; exact hge)).symm

/-- The byte-count relation in every state reached from the initial transfer state. -/
theorem amount_of_init (v : List Nat → Nat) (d0 : Device) (calls : List WriteCall)
    (hinit : d0.file_transfer_state = file_transfer_state_init)
    (htyped : d0.USBD_MSC_BlockSize < 4294967296)
    (hst : (write_calls v d0 calls).1.file_transfer_state.transfer_started = 1) :
    (write_calls v d0 calls).1.file_transfer_state.start_block
        ≤ (write_calls v d0 calls).1.file_transfer_state.last_block_written
      ∧ (write_calls v d0 calls).1.file_transfer_state.amt_written
        = u32 (((write_calls v d0 calls).1.file_transfer_state.last_block_written
            - (write_calls v d0 calls).1.file_transfer_state.start_block + 1)
            * d0.USBD_MSC_BlockSize) :=
  (write_calls_induction v
    (fun x => x.USBD_MSC_BlockSize = d0.USBD_MSC_BlockSize
      ∧ (x.file_transfer_state.transfer_started = 1 →
        x.file_transfer_state.start_block ≤ x.file_transfer_state.last_block_written
        ∧ x.file_transfer_state.amt_written
          = u32 ((x.file_transfer_state.last_block_written - x.file_transfer_state.start_block + 1)
              * d0.USBD_MSC_BlockSize)))
    (fun x c h => by
      refine ⟨(write_sect_globals v c.fl x c.block c.buf c.num_of_blocks).1.trans h.1, ?_⟩
      have hx := amount_step v c.fl x c.block c.buf c.num_of_blocks (by rw [h.1]; exact htyped)
        (by rw [h.1]; exact h.2)
      rw [h.1] at hx
      exact hx)
    calls d0 ⟨rfl, fun h => by rw [hinit] at h; exact absurd h (by decide)⟩).2 hst

/-- The flash offsets of a sequence of calls during which the transfer stays in progress
are the byte counts `W, W + BlockSize, W + 2 * BlockSize, ...` as 32-bit values, `W` being
the byte count before the calls. -/
theorem progress_offsets (v : List Nat → Nat) (cs : List WriteCall) :
    ∀ d : Device, d.USBD_MSC_BlockSize < 4294967296 →
      d.file_transfer_state.start_block ≤ d.file_transfer_state.last_block_written →
      d.file_transfer_state.amt_written
        = u32 ((d.file_transfer_state.last_block_written - d.file_transfer_state.start_block + 1)
            * d.USBD_MSC_BlockSize) →
      (∀ k, k ≤ cs.length →
        (write_calls v d (cs.take k)).1.file_transfer_state.transfer_started = 1) →
      ∃ m, program_offsets (write_calls v d cs).2
        = (List.range m).map
            (fun i => u32 (d.file_transfer_state.amt_written + i * d.USBD_MSC_BlockSize)) := by
  induction cs with
  | nil =>
    intro d _ _ _ _
    exact ⟨0, rfl⟩
  | cons c cs ih =>
    intro d htyped hle hw hstay
    have hst0 : d.file_transfer_state.transfer_started = 1 := hstay 0 (Nat.zero_le _)
    have hg := write_sect_globals v c.fl d c.block c.buf c.num_of_blocks
    have hst1 : (usbd_msc_write_sect v c.fl d c.block c.buf
        c.num_of_blocks).1.file_transfer_state.transfer_started = 1 :=
      hstay 1 (by simp)
    have hinv := amount_step v c.fl d c.block c.buf c.num_of_blocks htyped
      (fun _ => ⟨hle, hw⟩) hst1
    have hstay1 : ∀ k, k ≤ cs.length →
        (write_calls v (usbd_msc_write_sect v c.fl d c.block c.buf c.num_of_blocks).1
          (cs.take k)).1.file_transfer_state.transfer_started = 1 :=
      fun k hk => hstay (k + 1) (by simp; exact hk)
    obtain ⟨m, hm⟩ := ih (usbd_msc_write_sect v c.fl d c.block c.buf c.num_of_blocks).1
      (by rw [hg.1]; exact htyped) hinv.1 (by rw [hg.1]; exact hinv.2) hstay1
    rw [hg.1] at hm
    have hsplit : program_offsets (write_calls v d (c :: cs)).2
        = program_offsets (usbd_msc_write_sect v c.fl d c.block c.buf c.num_of_blocks).2
          ++ program_offsets (write_calls v
              (usbd_msc_write_sect v c.fl d c.block c.buf c.num_of_blocks).1 cs).2 :=
      program_offsets_append _ _
    rw [hsplit, hm]
    rcases write_sect_cases v c.fl d c.block c.buf c.num_of_blocks with hc | hc | hc
    · refine ⟨m, ?_⟩
      rw [hc.2.2.2.2, hc.2.2.1]
      rfl
    · rw [hst0] at hc
      exact absurd hc.1 (by decide)
    · refine ⟨m + 1, ?_⟩
      rw [hc.2.2.2.2.2.2, hc.2.2.2.2.2.1, contiguous_offset d c.block hle hw hc.2.1 hc.2.2.1,
        List.range_succ_eq_map, List.map_cons, List.map_map]
      have hW : d.file_transfer_state.amt_written < 4294967296 := by
        rw [hw]; unfold u32; exact Nat.mod_lt _ (by norm_num)
      have h0 : u32 (d.file_transfer_state.amt_written + 0 * d.USBD_MSC_BlockSize)
          = d.file_transfer_state.amt_written := by
        rw [Nat.zero_mul, Nat.add_zero, u32_of_lt hW]
      rw [h0]
      show _ :: _ = _ :: _
      congr 1
      apply List.map_congr_left
      intro i _
      show u32 (u32 (d.file_transfer_state.amt_written + d.USBD_MSC_BlockSize)
          + i * d.USBD_MSC_BlockSize)
        = u32 (d.file_transfer_state.amt_written + (i + 1) * d.USBD_MSC_BlockSize)
      rw [u32_add_u32, Nat.add_mul, Nat.one_mul]
      congr 1
      omega

/-- The flash offsets of one transfer, from the arming call on and while the transfer stays
in progress: `0, BlockSize, 2 * BlockSize, ...` as 32-bit values, without repetition as
long as they stay below `2^32`. -/
theorem transfer_offsets (v : List Nat → Nat) (d : Device) (c0 : WriteCall)
    (cs : List WriteCall) (htyped : d.USBD_MSC_BlockSize < 4294967296)
    (hready : d.USBD_MSC_MediaReady = true)
    (hidle : d.file_transfer_state.transfer_started = 0)
    (hv : v c0.buf = 1)
    (hstay : ∀ k, k ≤ cs.length →
      (write_calls v d (c0 :: cs.take k)).1.file_transfer_state.transfer_started = 1) :
    program_offsets (write_calls v d (c0 :: cs)).2
        = (List.range (program_offsets (write_calls v d (c0 :: cs)).2).length).map
            (fun i => u32 (i * d.USBD_MSC_BlockSize))
      ∧ (0 < d.USBD_MSC_BlockSize →
          (program_offsets (write_calls v d (c0 :: cs)).2).length * d.USBD_MSC_BlockSize
            ≤ 4294967296 →
          (program_offsets (write_calls v d (c0 :: cs)).2).Nodup) := by
  have harm := arming_call v c0.fl d c0.block c0.buf c0.num_of_blocks hready hidle hv
  have hg := write_sect_globals v c0.fl d c0.block c0.buf c0.num_of_blocks
  have hfts : (usbd_msc_write_sect v c0.fl d c0.block c0.buf c0.num_of_blocks).1.file_transfer_state
      = ⟨c0.block, 4294967295, d.USBD_MSC_BlockSize, c0.block, 1, .BIN⟩ := by
    rw [harm.1]
  have hoff0 : program_offsets (usbd_msc_write_sect v c0.fl d c0.block c0.buf
      c0.num_of_blocks).2 = [0] := by
    rcases write_sect_cases v c0.fl d c0.block c0.buf c0.num_of_blocks with hc | hc | hc
    · have := hc.2.2.2.1 (by rw [hfts])
      rw [hidle] at this
      exact absurd this (by decide)
    · exact hc.2.2
    · rw [hidle] at hc
      exact absurd hc.1 (by decide)
  obtain ⟨m, hm⟩ := progress_offsets v cs
    (usbd_msc_write_sect v c0.fl d c0.block c0.buf c0.num_of_blocks).1
    (by rw [hg.1]; exact htyped) (by rw [hfts])
    (by rw [hfts, hg.1]
        show d.USBD_MSC_BlockSize = u32 ((c0.block - c0.block + 1) * d.USBD_MSC_BlockSize)
        rw [Nat.sub_self, Nat.zero_add, Nat.one_mul, u32_of_lt htyped])
    hstay
  rw [hg.1, hfts] at hm
  have hall : program_offsets (write_calls v d (c0 :: cs)).2
      = (List.range (m + 1)).map (fun i => u32 (i * d.USBD_MSC_BlockSize)) := by
    have hsplit : program_offsets (write_calls v d (c0 :: cs)).2
        = program_offsets (usbd_msc_write_sect v c0.fl d c0.block c0.buf c0.num_of_blocks).2
          ++ program_offsets (write_calls v
              (usbd_msc_write_sect v c0.fl d c0.block c0.buf c0.num_of_blocks).1 cs).2 :=
      program_offsets_append _ _
    rw [hsplit, hoff0, hm, List.range_succ_eq_map, List.map_cons, List.map_map]
    show _ :: _ = _ :: _
    refine congrArg₂ List.cons (by show 0 = u32 (0 * _); rw [Nat.zero_mul]; rfl) ?_
    apply List.map_congr_left
    intro i _
    show u32 (d.USBD_MSC_BlockSize + i * d.USBD_MSC_BlockSize)
      = u32 ((i + 1) * d.USBD_MSC_BlockSize)
    rw [Nat.add_mul, Nat.one_mul, Nat.add_comm]
  have hlen : (program_offsets (write_calls v d (c0 :: cs)).2).length = m + 1 := by
    rw [hall, List.length_map, List.length_range]
  rw [hlen]
  refine ⟨hall, fun hpos hbound => ?_⟩
  rw [hall]
  refine List.Nodup.map_on ?_ (List.nodup_range (m + 1))
  intro i hi j hj hij
  have hi' : i < m + 1 := List.mem_range.1 hi
  have hj' : j < m + 1 := List.mem_range.1 hj
  have hib : i * d.USBD_MSC_BlockSize < 4294967296 :=
    Nat.lt_of_lt_of_le (Nat.mul_lt_mul_of_pos_right hi' hpos) hbound
  have hjb : j * d.USBD_MSC_BlockSize < 4294967296 :=
    Nat.lt_of_lt_of_le (Nat.mul_lt_mul_of_pos_right hj' hpos) hbound
  rw [u32_of_lt hib, u32_of_lt hjb] at hij
  exact Nat.eq_of_mul_eq_mul_right hpos hij

/-! ## Lemmas on the table walk up to an entry and up to the sentinel -/

theorem read_walk_body_index (e : fs_entry_t) (req_addr : Nat) (w : read_walk_t) :
    (read_walk_body e req_addr w).i = u8 (w.i + 1) := by
  by_cases h : req_addr < u32 (w.max_known_fs_entry_addr + e.length)
  · rw [read_walk_body_of_below e req_addr w h]
  · rw [read_walk_body_of_not_below e req_addr w h]

/-- The walk passes the entries before entry `j ≤ 255` when they all have a non-zero length
and the requested address is not below the start of entry `j`. -/
theorem read_walk_skip (fs : List fs_entry_t) (req_addr j : Nat) (hj255 : j ≤ 255)
    (hjlen : j ≤ fs.length) (hnz : ∀ e ∈ fs.take j, e.length ≠ 0)
    (hlow : table_span fs j ≤ req_addr) (hreq : req_addr < 4294967296) :
    ∀ (n i fuel : Nat), i + n = j →
      read_walk fs req_addr (fuel + n)
          { fs_read_sect := none, max_known_fs_entry_addr := table_span fs i,
            req_sector_offset := 0, i := i, real_data_present := 1 }
        = read_walk fs req_addr fuel
          { fs_read_sect := none, max_known_fs_entry_addr := table_span fs j,
            req_sector_offset := 0, i := j, real_data_present := 1 } := by
  intro n
  induction n with
  | zero =>
    intro i fuel hi
    have : i = j := by omega
    subst this
    rfl
  | succ m ih =>
    intro i fuel hi
    have hilen : i < fs.length := by omega
    have he : fs[i]? = some fs[i] := List.getElem?_eq_getElem hilen
    have hmem : fs[i] ∈ fs.take j := by
      rw [List.mem_take_iff_getElem]
      exact ⟨i, by omega, rfl⟩
    have hez : fs[i].length ≠ 0 := hnz _ hmem
    have hspan := table_span_succ fs i fs[i] he
    have hle : table_span fs (i + 1) ≤ table_span fs j := table_span_mono fs (by omega)
    have hbody : read_walk_body fs[i] req_addr
        { fs_read_sect := none, max_known_fs_entry_addr := table_span fs i,
          req_sector_offset := 0, i := i, real_data_present := 1 }
        = { fs_read_sect := none, max_known_fs_entry_addr := table_span fs (i + 1),
            req_sector_offset := 0, i := i + 1, real_data_present := 1 } := by
      have h1 : u32 (table_span fs i + fs[i].length) = table_span fs (i + 1) := by
        rw [← hspan]; exact u32_of_lt (by omega)
      have h2 : ¬ req_addr < table_span fs (i + 1) := by omega
      have h3 : u8 (i + 1) = i + 1 := by unfold u8; omega
      simp only [read_walk_body, h1, h2, if_false, h3]
    have hstep := read_walk_continue fs req_addr (fuel + m)
      { fs_read_sect := none, max_known_fs_entry_addr := table_span fs i,
        req_sector_offset := 0, i := i, real_data_present := 1 } fs[i] he ⟨hez, rfl⟩
    rw [show fuel + (m + 1) = fuel + m + 1 from rfl, hstep, hbody]
    exact ih (i + 1) fuel (by omega)

/-- The walk at entry `j`, for the address at which the entry starts: the entry is selected
with offset 0 and the walk ends. -/
theorem read_walk_select (fs : List fs_entry_t) (j fuel : Nat) (ej : fs_entry_t)
    (content : List Nat) (hj : fs[j]? = some ej) (hcontent : ej.sect = some content)
    (hlen : ej.length ≠ 0) (hnext : j + 1 < fs.length)
    (htot : table_span fs (j + 1) < 4294967296) :
    read_walk fs (table_span fs j) (fuel + 2)
        { fs_read_sect := none, max_known_fs_entry_addr := table_span fs j,
          req_sector_offset := 0, i := j, real_data_present := 1 }
      = .ok { fs_read_sect := some content, max_known_fs_entry_addr := table_span fs (j + 1),
              req_sector_offset := 0, i := u8 (j + 1), real_data_present := 1 } := by
  have hspan := table_span_succ fs j ej hj
  have h1 : u32 (table_span fs j + ej.length) = table_span fs (j + 1) := by
    rw [← hspan]; exact u32_of_lt htot
  have hsub : u32_sub (table_span fs (j + 1)) (table_span fs j) = ej.length := by
    rw [u32_sub_of_le (by omega) htot]; omega
  have hbody : read_walk_body ej (table_span fs j)
      { fs_read_sect := none, max_known_fs_entry_addr := table_span fs j,
        req_sector_offset := 0, i := j, real_data_present := 1 }
      = { fs_read_sect := some content, max_known_fs_entry_addr := table_span fs (j + 1),
          req_sector_offset := 0, i := u8 (j + 1), real_data_present := 1 } := by
    rw [read_walk_body_of_below _ _ _ (by show _ < u32 (table_span fs j + ej.length)
                                          rw [h1]; omega)]
    show read_walk_t.mk _ _ _ _ _ = read_walk_t.mk _ _ _ _ _
    rw [h1, hsub, u32_sub_self, hcontent]
    rfl
  rw [read_walk_continue fs (table_span fs j) (fuel + 1) _ ej hj ⟨hlen, rfl⟩, hbody]
  have hu8 : u8 (j + 1) < fs.length := by
    have : u8 (j + 1) ≤ j + 1 := by unfold u8; exact Nat.mod_le _ _
    omega
  exact read_walk_stop fs (table_span fs j) fuel _ fs[u8 (j + 1)]
    (List.getElem?_eq_getElem hu8) (fun h => Option.noConfusion h.2)

/-- The walk from an index at or before a zero-length entry at `k ≤ 255` ends within
`k - i + 1` evaluations of the loop condition, at an index that is not above `k`. -/
theorem read_walk_terminates (fs : List fs_entry_t) (req_addr k : Nat) (e0 : fs_entry_t)
    (hk : k ≤ 255) (hsent : fs[k]? = some e0) (hzero : e0.length = 0) :
    ∀ (n : Nat) (w : read_walk_t) (fuel : Nat), w.i + n = k → n + 1 ≤ fuel →
      ∃ w', read_walk fs req_addr fuel w = .ok w' ∧ w'.i ≤ k := by
  intro n
  induction n with
  | zero =>
    intro w fuel hi hfuel
    obtain ⟨f, rfl⟩ : ∃ f, fuel = f + 1 := ⟨fuel - 1, by omega⟩
    have hik : w.i = k := by omega
    refine ⟨w, read_walk_stop fs req_addr f w e0 (by rw [hik]; exact hsent)
      (fun h => h.1 hzero), by omega⟩
  | succ m ih =>
    intro w fuel hi hfuel
    obtain ⟨f, rfl⟩ : ∃ f, fuel = f + 1 := ⟨fuel - 1, by omega⟩
    have hlen : k < fs.length := by
      by_contra hcon
      rw [List.getElem?_eq_none (by omega)] at hsent
      exact Option.noConfusion hsent
    have hilen : w.i < fs.length := by omega
    have he : fs[w.i]? = some fs[w.i] := List.getElem?_eq_getElem hilen
    by_cases hc : fs[w.i].length ≠ 0 ∧ w.fs_read_sect = none
    · rw [read_walk_continue fs req_addr f w fs[w.i] he hc]
      have hi' : (read_walk_body fs[w.i] req_addr w).i = w.i + 1 := by
        rw [read_walk_body_index]
        unfold u8; omega
      exact ih _ f (by rw [hi']; omega) (by omega)
    · exact ⟨w, read_walk_stop fs req_addr f w fs[w.i] he hc, by omega⟩

/-- Two tables that agree on the entries `0..k`, the entry `k ≤ 255` having length zero,
give the same walk from every index that is not above `k`. -/
theorem read_walk_agree (fs1 fs2 : List fs_entry_t) (req_addr k : Nat) (e0 : fs_entry_t)
    (hk : k ≤ 255) (hsent : fs1[k]? = some e0) (hzero : e0.length = 0)
    (hagree : ∀ i, i ≤ k → fs2[i]? = fs1[i]?) :
    ∀ (fuel : Nat) (w : read_walk_t), w.i ≤ k →
      read_walk fs2 req_addr fuel w = read_walk fs1 req_addr fuel w := by
  intro fuel
  induction fuel with
  | zero => intro w _; rfl
  | succ f ih =>
    intro w hi
    have hsame := hagree w.i hi
    cases he : fs1[w.i]? with
    | none =>
      rw [he] at hsame
      simp only [read_walk, he, hsame]
    | some e =>
      rw [he] at hsame
      by_cases hc : e.length ≠ 0 ∧ w.fs_read_sect = none
      · rw [read_walk_continue fs1 req_addr f w e he hc,
          read_walk_continue fs2 req_addr f w e hsame hc]
        have hne : w.i ≠ k := by
          intro h
          rw [h, hsent] at he
          have : e0 = e := Option.some.inj he
          rw [← this] at hc
          exact hc.1 hzero
        have hi' : (read_walk_body e req_addr w).i = w.i + 1 := by
          rw [read_walk_body_index]
          unfold u8; omega
        exact ih _ (by rw [hi']; omega)
      · rw [read_walk_stop fs1 req_addr f w e he hc, read_walk_stop fs2 req_addr f w e hsame hc]

/-! # The claims -/

/-! ## Directory sector written before the data -/

/-- C1 as amended (directory before data): on a ready idle device, a root-directory-sector
write whose qualifying records declare the size `N * BlockSize` records that size in
`amt_to_write`, but the arming write of the first data block `S` sets `amt_to_write` back
to `0xffffffff`; hence (with `N * BlockSize < 0xffffffff`, no data block a root-directory
sector and all flash calls succeeding) the transfer is still in progress, with no
`main_usb_disconnect_event` signalled, after each of the `N` contiguous data-block writes
`S, ..., S+N-1`. -/
theorem directory_before_data_is_forgotten (validate_bin_nvic : List Nat → Nat) (d : Device)
    (D S N : Nat) (bd b0 : List Nat) (nd n0 : Nat) (fld fl0 : FlashReturns)
    (bufs : Nat → List Nat) (nums : Nat → Nat) (fls : Nat → FlashReturns)
    (hready : d.USBD_MSC_MediaReady = true)
    (hidle : d.file_transfer_state.transfer_started = 0)
    (hD : is_root_dir_sector d.mbr D)
    (hvd : validate_bin_nvic bd ≠ 1)
    (hex : ∃ i, i < d.USBD_MSC_BlockSize / sizeof_FatDirectoryEntry_t
      ∧ qualifying (read_dir_entry bd i))
    (hall : ∀ i, i < d.USBD_MSC_BlockSize / sizeof_FatDirectoryEntry_t →
      qualifying (read_dir_entry bd i) →
      (read_dir_entry bd i).filesize = N * d.USBD_MSC_BlockSize)
    (hv0 : validate_bin_nvic b0 = 1)
    (hN : 1 ≤ N)
    (hsize : N * d.USBD_MSC_BlockSize < 4294967295)
    (hS : S + N - 1 < 4294967296)
    (hnroot : ∀ j, j < N - 1 → ¬ is_root_dir_sector d.mbr (S + 1 + j))
    (hfl0 : fl0.target_flash_init ≠ 0 ∧ fl0.target_flash_program_page ≠ 0)
    (hfls : ∀ j, (fls j).target_flash_program_page ≠ 0) :
    (usbd_msc_write_sect validate_bin_nvic fld d D bd nd).1.file_transfer_state.amt_to_write
        = N * d.USBD_MSC_BlockSize
    ∧ ∀ k, k ≤ N - 1 →
        (write_calls validate_bin_nvic d
            ([⟨D, bd, nd, fld⟩, ⟨S, b0, n0, fl0⟩]
              ++ contiguous_calls S bufs nums fls k)).1.file_transfer_state
          = ⟨S, 4294967295, (k + 1) * d.USBD_MSC_BlockSize, S + k, 1, .BIN⟩
        ∧ disconnect_count (write_calls validate_bin_nvic d
            ([⟨D, bd, nd, fld⟩, ⟨S, b0, n0, fl0⟩]
              ++ contiguous_calls S bufs nums fls k)).2 = 0 := by
  have hdir := idle_call validate_bin_nvic fld d D bd nd hready hidle hvd
  have hscan := root_dir_scan_of_size d.USBD_MSC_BlockSize bd d.file_transfer_state.amt_to_write
    (N * d.USBD_MSC_BlockSize) hex hall
  constructor
  · rw [hdir, write_root_dir_of_root _ _ _ _ _ hD]
    exact hscan
  · intro k hk
    have hidle1 : (write_root_dir d.mbr d.USBD_MSC_BlockSize D bd
        d.file_transfer_state).transfer_started = 0 := by
      rw [(write_root_dir_fields _ _ _ _ _).2.2.2.1, hidle]
    have harm := arming_call validate_bin_nvic fl0
      { d with file_transfer_state :=
          write_root_dir d.mbr d.USBD_MSC_BlockSize D bd d.file_transfer_state }
      S b0 n0 hready hidle1 hv0
    have hmono : k * d.USBD_MSC_BlockSize ≤ (N - 1) * d.USBD_MSC_BlockSize :=
      Nat.mul_le_mul_right _ hk
    have hN1 : (N - 1) * d.USBD_MSC_BlockSize + d.USBD_MSC_BlockSize
        = N * d.USBD_MSC_BlockSize := by
      have : N = (N - 1) + 1 := by omega
      conv_rhs => rw [this, Nat.add_mul, Nat.one_mul]
    have hrun := contiguous_run validate_bin_nvic
      { d with file_transfer_state :=
          ⟨S, 4294967295, d.USBD_MSC_BlockSize, S, 1, .BIN⟩ }
      S 4294967295 d.USBD_MSC_BlockSize S .BIN bufs nums fls k hready rfl (by omega)
      (by omega) (by show d.USBD_MSC_BlockSize + k * d.USBD_MSC_BlockSize < _; omega)
      (by show d.USBD_MSC_BlockSize + k * d.USBD_MSC_BlockSize < _; omega)
      (fun j hj => hnroot j (by omega)) (fun j _ => hfls j)
    have hk1 : (k + 1) * d.USBD_MSC_BlockSize
        = d.USBD_MSC_BlockSize + k * d.USBD_MSC_BlockSize := by
      rw [Nat.add_mul, Nat.one_mul, Nat.add_comm]
    rw [write_calls_append]
    have h2 : write_calls validate_bin_nvic d [⟨D, bd, nd, fld⟩, ⟨S, b0, n0, fl0⟩]
        = ({ d with file_transfer_state :=
              ⟨S, 4294967295, d.USBD_MSC_BlockSize, S, 1, .BIN⟩ },
            [Event.main_blink_msd_led 0]
              ++ ((usbd_msc_write_sect validate_bin_nvic fl0
                    { d with file_transfer_state :=
                        write_root_dir d.mbr d.USBD_MSC_BlockSize D bd d.file_transfer_state }
                    S b0 n0).2 ++ [])) := by
      simp only [write_calls, hdir, harm.1]
    rw [h2]
    simp only
    rw [hrun.1, disconnect_count_append, disconnect_count_append, hrun.2, harm.2, hk1]
    refine ⟨rfl, ?_⟩
    simp [disconnect_count, hfl0.1, hfl0.2]

/-- Witness of C1 as amended: the directory sector declares 2 * 512 bytes, the transfer
is armed at block 10 and block 11 follows; the transfer is still in progress. -/
theorem directory_before_data_is_forgotten_witness :
    (usbd_msc_write_sect ex_validate ex_flash_ok ex_idle 7 (ex_dir 1024) 1).1.file_transfer_state.amt_to_write
        = 2 * ex_idle.USBD_MSC_BlockSize
    ∧ ∀ k, k ≤ 2 - 1 →
        (write_calls ex_validate ex_idle
            ([⟨7, ex_dir 1024, 1, ex_flash_ok⟩, ⟨10, ex_firmware, 1, ex_flash_ok⟩]
              ++ contiguous_calls 10 (fun _ => ex_data) (fun _ => 1) (fun _ => ex_flash_ok)
                  k)).1.file_transfer_state
          = ⟨10, 4294967295, (k + 1) * ex_idle.USBD_MSC_BlockSize, 10 + k, 1, .BIN⟩
        ∧ disconnect_count (write_calls ex_validate ex_idle
            ([⟨7, ex_dir 1024, 1, ex_flash_ok⟩, ⟨10, ex_firmware, 1, ex_flash_ok⟩]
              ++ contiguous_calls 10 (fun _ => ex_data) (fun _ => 1) (fun _ => ex_flash_ok)
                  k)).2 = 0 :=
  directory_before_data_is_forgotten ex_validate ex_idle 7 10 2 (ex_dir 1024) ex_firmware 1 1
    ex_flash_ok ex_flash_ok (fun _ => ex_data) (fun _ => 1) (fun _ => ex_flash_ok)
    (by decide) (by decide) (by decide) (by decide) ⟨0, by decide, by decide⟩
    (by decide) (by decide) (by decide) (by decide) (by decide)
    (by decide) (by decide)
    (fun _ => (by decide : ex_flash_ok.target_flash_program_page ≠ 0))

/-- Counterexample to C1 as stated: block size 512, root-directory sectors 7 and 8.  The
directory sector declaring 2 * 512 bytes is written first, then the data blocks 10
(plausible firmware) and 11, every flash call succeeding.  After the second data block the
transfer is not retired: `transfer_started` is 1, `amt_to_write` is `0xffffffff` and no
`main_usb_disconnect_event` has been signalled. -/
theorem directory_before_data_counterexample :
    (write_calls ex_validate ex_idle
        [⟨7, ex_dir 1024, 1, ex_flash_ok⟩, ⟨10, ex_firmware, 1, ex_flash_ok⟩,
          ⟨11, ex_data, 1, ex_flash_ok⟩]).1.file_transfer_state
      = ⟨10, 4294967295, 1024, 11, 1, .BIN⟩
    ∧ disconnect_count (write_calls ex_validate ex_idle
        [⟨7, ex_dir 1024, 1, ex_flash_ok⟩, ⟨10, ex_firmware, 1, ex_flash_ok⟩,
          ⟨11, ex_data, 1, ex_flash_ok⟩]).2 = 0 := by
  decide

/-! ## Out-of-order blocks -/

/-- C2 (out-of-order drop): a call entered with a transfer in progress, for a block at or
after `start_block` that is not `last_block_written + 1` (computed as the code does, in
32-bit arithmetic), makes no flash call and leaves `amt_written`, `last_block_written` and
`start_block` unchanged.  In particular, after arming at block `S` on a ready idle device,
the writes of `S+1` and then `S+3` call `target_flash_program_page` only at the offsets 0
and `BlockSize`: the flash calls of the three writes are exactly `target_flash_init`, the
page at offset 0 and the page at offset `BlockSize` when `S+1` is not a root-directory
sector, and `amt_written` is still `2 * BlockSize` after the write of `S+3`. -/
theorem out_of_order_block_dropped :
    (∀ (validate_bin_nvic : List Nat → Nat) (fl : FlashReturns) (d : Device) (block : Nat)
        (buf : List Nat) (num_of_blocks : Nat),
        d.file_transfer_state.transfer_started = 1 →
        block ≥ d.file_transfer_state.start_block →
        block ≠ u32 (d.file_transfer_state.last_block_written + 1) →
        flash_calls (usbd_msc_write_sect validate_bin_nvic fl d block buf num_of_blocks).2 = []
        ∧ (usbd_msc_write_sect validate_bin_nvic fl d block buf num_of_blocks).1.file_transfer_state.amt_written
            = d.file_transfer_state.amt_written
        ∧ (usbd_msc_write_sect validate_bin_nvic fl d block buf num_of_blocks).1.file_transfer_state.last_block_written
            = d.file_transfer_state.last_block_written
        ∧ (usbd_msc_write_sect validate_bin_nvic fl d block buf num_of_blocks).1.file_transfer_state.start_block
            = d.file_transfer_state.start_block)
    ∧ (∀ (validate_bin_nvic : List Nat → Nat) (d : Device) (S : Nat) (b0 b1 b3 : List Nat)
        (n0 n1 n3 : Nat) (fl0 fl1 fl3 : FlashReturns),
        d.USBD_MSC_MediaReady = true →
        d.file_transfer_state.transfer_started = 0 →
        d.USBD_MSC_BlockSize < 4294967296 →
        S + 3 < 4294967296 →
        validate_bin_nvic b0 = 1 →
        (∀ (adr : Nat) (b : List Nat) (n : Nat),
            Event.target_flash_program_page adr b n
              ∈ (write_calls validate_bin_nvic d
                  [⟨S, b0, n0, fl0⟩, ⟨S + 1, b1, n1, fl1⟩, ⟨S + 3, b3, n3, fl3⟩]).2 →
            adr = 0 ∨ adr = d.USBD_MSC_BlockSize)
        ∧ (¬ is_root_dir_sector d.mbr (S + 1) →
            flash_calls (write_calls validate_bin_nvic d
                  [⟨S, b0, n0, fl0⟩, ⟨S + 1, b1, n1, fl1⟩, ⟨S + 3, b3, n3, fl3⟩]).2
                = [Event.target_flash_init,
                    Event.target_flash_program_page 0 b0 d.USBD_MSC_BlockSize,
                    Event.target_flash_program_page d.USBD_MSC_BlockSize b1
                      d.USBD_MSC_BlockSize]
            ∧ (write_calls validate_bin_nvic d
                  [⟨S, b0, n0, fl0⟩, ⟨S + 1, b1, n1, fl1⟩,
                    ⟨S + 3, b3, n3, fl3⟩]).1.file_transfer_state.amt_written
                = u32 (d.USBD_MSC_BlockSize + d.USBD_MSC_BlockSize)
            ∧ (write_calls validate_bin_nvic d
                  [⟨S, b0, n0, fl0⟩, ⟨S + 1, b1, n1, fl1⟩,
                    ⟨S + 3, b3, n3, fl3⟩]).1.file_transfer_state.last_block_written
                = S + 1)) := by
  refine ⟨fun v fl d block buf num hs _ hn => out_of_order_call v fl d block buf num hs hn, ?_⟩
  intro v d S b0 b1 b3 n0 n1 n3 fl0 fl1 fl3 hready hidle hbs hS hv
  -- the arming call
  obtain ⟨hd0, he0⟩ := arming_call v fl0 d S b0 n0 hready hidle hv
  generalize hr0 : usbd_msc_write_sect v fl0 d S b0 n0 = r0 at hd0 he0
  obtain ⟨d0, e0⟩ := r0
  simp only at hd0 he0
  -- the call for `S+1`
  have h1 := contiguous_call v fl1 d0 (S + 1) b1 n1 (by rw [hd0]; exact hready) (by rw [hd0])
    (by rw [hd0]; show S + 1 ≥ S; omega)
    (by rw [hd0]; show S + 1 = u32 (S + 1); rw [u32_of_lt (by omega)])
  have hoff : u32 (u32_sub (S + 1) d0.file_transfer_state.start_block * d0.USBD_MSC_BlockSize)
      = d.USBD_MSC_BlockSize := by
    rw [hd0]
    show u32 (u32_sub (S + 1) S * d.USBD_MSC_BlockSize) = d.USBD_MSC_BlockSize
    rw [u32_sub_of_le (by omega) (by omega)]
    have : S + 1 - S = 1 := by omega
    rw [this, Nat.one_mul, u32_of_lt hbs]
  rw [hoff] at h1
  generalize hA : (write_root_dir d0.mbr d0.USBD_MSC_BlockSize (S + 1) b1
    d0.file_transfer_state).amt_to_write = A at h1
  have hfields : d0.file_transfer_state.start_block = S
      ∧ d0.file_transfer_state.amt_written = d.USBD_MSC_BlockSize
      ∧ d0.file_transfer_state.file_type = .BIN
      ∧ d0.USBD_MSC_BlockSize = d.USBD_MSC_BlockSize
      ∧ d0.file_transfer_state.amt_to_write = 4294967295
      ∧ d0.mbr = d.mbr := by
    rw [hd0]; exact ⟨rfl, rfl, rfl, rfl, rfl, rfl⟩
  obtain ⟨hf1, hf2, hf3, hf4, hf5, hf6⟩ := hfields
  rw [hf1, hf2, hf3, hf4] at h1
  generalize hs1 : file_transfer_state_t.mk S A
      (u32 (d.USBD_MSC_BlockSize + d.USBD_MSC_BlockSize)) (S + 1) 1 extension_t.BIN = s1 at h1
  have hc1 := write_complete_fields s1
  have hs1st : s1.transfer_started = 1 := by rw [← hs1]
  have hs1last : s1.last_block_written = S + 1 := by rw [← hs1]
  have hs1amt : s1.amt_written = u32 (d.USBD_MSC_BlockSize + d.USBD_MSC_BlockSize) := by
    rw [← hs1]
  generalize hr1 : usbd_msc_write_sect v fl1 d0 (S + 1) b1 n1 = r1 at h1
  obtain ⟨d1, e1⟩ := r1
  obtain ⟨hd1, he1⟩ := Prod.mk.inj h1
  have hlast1 : d1.file_transfer_state.last_block_written = S + 1 := by
    rw [hd1]; show (write_complete s1).1.last_block_written = S + 1
    rw [hc1.2.2.2.1, hs1last]
  have hamt1 : d1.file_transfer_state.amt_written
      = u32 (d.USBD_MSC_BlockSize + d.USBD_MSC_BlockSize) := by
    rw [hd1]; show (write_complete s1).1.amt_written = _
    rw [hc1.2.2.1, hs1amt]
  -- the call for `S+3`
  have hne3 : S + 3 ≠ u32 (d1.file_transfer_state.last_block_written + 1) := by
    rw [hlast1, u32_of_lt (by omega)]; omega
  have hwc : write_calls v d [⟨S, b0, n0, fl0⟩, ⟨S + 1, b1, n1, fl1⟩, ⟨S + 3, b3, n3, fl3⟩]
      = ((usbd_msc_write_sect v fl3 d1 (S + 3) b3 n3).1,
          e0 ++ (e1 ++ ((usbd_msc_write_sect v fl3 d1 (S + 3) b3 n3).2 ++ []))) := by
    simp only [write_calls, hr0, hr1]
  rw [hwc]
  constructor
  · intro adr b n hmem
    simp only [List.append_nil, List.mem_append] at hmem
    rcases hmem with h | h | h
    · left
      rw [he0] at h
      simp only [List.mem_append, List.mem_cons, List.mem_singleton] at h
      rcases h with ((h | h) | h) | h
      · rcases h with h | h | h <;> simp at h
      · split at h <;> simp at h
      · simp only [Event.target_flash_program_page.injEq, List.not_mem_nil, or_false] at h
        exact h.1
      · split at h <;> simp at h
    · right
      rw [he1] at h
      simp only [List.mem_append, List.mem_cons, List.mem_singleton] at h
      rcases h with h | (h | h) | h
      · simp at h
      · simp only [Event.target_flash_program_page.injEq, List.not_mem_nil, or_false] at h
        exact h.1
      · split at h <;> simp at h
      · unfold write_complete at h
        split at h <;> simp at h
    · left
      by_cases hst1 : d1.file_transfer_state.transfer_started = 1
      · have hfc : Event.target_flash_program_page adr b n ∈ flash_calls
            (usbd_msc_write_sect v fl3 d1 (S + 3) b3 n3).2 := by
          unfold flash_calls
          exact List.mem_filter.2 ⟨h, rfl⟩
        rw [(out_of_order_call v fl3 d1 (S + 3) b3 n3 hst1 hne3).1] at hfc
        simp at hfc
      · have hst0 : d1.file_transfer_state.transfer_started = 0 := by
          rw [hd1] at hst1 ⊢
          simp only at hst1 ⊢
          unfold write_complete at hst1 ⊢
          split at hst1
          · rw [if_pos (by assumption)]
          · exact absurd hs1st hst1
        exact program_page_offset_of_idle v fl3 d1 (S + 3) b3 n3 hst0 adr b n h
  · intro hnr
    have hroot : write_root_dir d0.mbr d0.USBD_MSC_BlockSize (S + 1) b1
        d0.file_transfer_state = d0.file_transfer_state :=
      write_root_dir_of_not_root _ _ _ _ _ (by rw [hf6]; exact hnr)
    have hA2 : A = 4294967295 := by rw [← hA, hroot, hf5]
    have hlt : u32 (d.USBD_MSC_BlockSize + d.USBD_MSC_BlockSize) < 4294967295 := by
      unfold u32; omega
    have hwc1 := write_complete_of_lt s1 (by rw [← hs1]; show u32 _ < A; rw [hA2]; exact hlt)
    rw [hwc1] at hd1 he1
    have hst1 : d1.file_transfer_state.transfer_started = 1 := by rw [hd1]; exact hs1st
    obtain ⟨hf3, ha3, hl3, _⟩ := out_of_order_call v fl3 d1 (S + 3) b3 n3 hst1 hne3
    refine ⟨?_, ?_, ?_⟩
    · simp only [flash_calls_append, hf3, he0, he1, flash_calls_failure, List.append_nil]
      rw [show ∀ l : List Event, Event.main_blink_msd_led 0 :: l
            = [Event.main_blink_msd_led 0] ++ l from fun l => rfl]
      simp only [flash_calls_append, flash_calls_failure, List.append_nil]
      simp [flash_calls]
    · rw [ha3, hamt1]
    · rw [hl3, hlast1]

/-- Witness of C2: with blocks 10 and 11 programmed, a write of block 14 is dropped; and
after arming at block 10 on the idle device, the writes of blocks 11 and 13 leave the
flash with the pages at offsets 0 and 512 only. -/
theorem out_of_order_block_dropped_witness :
    (flash_calls (usbd_msc_write_sect ex_validate ex_flash_ok ex_active 14 ex_data 1).2 = []
      ∧ (usbd_msc_write_sect ex_validate ex_flash_ok ex_active 14 ex_data 1).1.file_transfer_state.amt_written
          = ex_active.file_transfer_state.amt_written
      ∧ (usbd_msc_write_sect ex_validate ex_flash_ok ex_active 14 ex_data 1).1.file_transfer_state.last_block_written
          = ex_active.file_transfer_state.last_block_written
      ∧ (usbd_msc_write_sect ex_validate ex_flash_ok ex_active 14 ex_data 1).1.file_transfer_state.start_block
          = ex_active.file_transfer_state.start_block)
    ∧ flash_calls (write_calls ex_validate ex_idle
          [⟨10, ex_firmware, 1, ex_flash_ok⟩, ⟨10 + 1, ex_data, 1, ex_flash_ok⟩,
            ⟨10 + 3, ex_data, 1, ex_flash_ok⟩]).2
        = [Event.target_flash_init,
            Event.target_flash_program_page 0 ex_firmware ex_idle.USBD_MSC_BlockSize,
            Event.target_flash_program_page ex_idle.USBD_MSC_BlockSize ex_data
              ex_idle.USBD_MSC_BlockSize] :=
  ⟨out_of_order_block_dropped.1 ex_validate ex_flash_ok ex_active 14 ex_data 1
      (by decide) (by decide) (by decide),
    ((out_of_order_block_dropped.2 ex_validate ex_idle 10 ex_firmware ex_data ex_data 1 1 1
      ex_flash_ok ex_flash_ok ex_flash_ok (by decide) (by decide) (by decide) (by decide)
      (by decide)).2 (by decide)).1⟩

/-! ## Single active transfer -/

/-- C3 (single active transfer): a call of `usbd_msc_write_sect` entered with
`transfer_started = 1` leaves `start_block` unchanged and does not call
`target_flash_init`, whatever `validate_bin_nvic` returns for the data; and the transfer
state after the call is still that of the transfer in progress or of its retirement
(`transfer_started` is 1 or 0), so a new transfer is armed only by a later call, entered
with `transfer_started = 0`. -/
theorem no_arming_while_transfer_in_progress (validate_bin_nvic : List Nat → Nat)
    (fl : FlashReturns) (d : Device) (block : Nat) (buf : List Nat) (num_of_blocks : Nat)
    (hstarted : d.file_transfer_state.transfer_started = 1) :
    (usbd_msc_write_sect validate_bin_nvic fl d block buf num_of_blocks).1.file_transfer_state.start_block
        = d.file_transfer_state.start_block
    ∧ Event.target_flash_init
        ∉ (usbd_msc_write_sect validate_bin_nvic fl d block buf num_of_blocks).2
    ∧ ((usbd_msc_write_sect validate_bin_nvic fl d block buf num_of_blocks).1.file_transfer_state.transfer_started = 1
        ∨ (usbd_msc_write_sect validate_bin_nvic fl d block buf num_of_blocks).1.file_transfer_state.transfer_started = 0) := by
  by_cases hready : d.USBD_MSC_MediaReady = true
  · rw [write_sect_started validate_bin_nvic fl d block buf num_of_blocks hready hstarted]
    have hr := write_root_dir_fields d.mbr d.USBD_MSC_BlockSize block buf d.file_transfer_state
    have hd := write_data_fields fl d.USBD_MSC_BlockSize block buf
      (write_root_dir d.mbr d.USBD_MSC_BlockSize block buf d.file_transfer_state)
    have hc := write_complete_fields (write_data fl d.USBD_MSC_BlockSize block buf
      (write_root_dir d.mbr d.USBD_MSC_BlockSize block buf d.file_transfer_state)).1
    refine ⟨?_, ?_, ?_⟩
    · simp only [hc.1, hd.1, hr.1]
    · intro hmem
      have hfc : Event.target_flash_init ∈ flash_calls
          (Event.main_blink_msd_led 0 ::
            ((write_data fl d.USBD_MSC_BlockSize block buf
                (write_root_dir d.mbr d.USBD_MSC_BlockSize block buf d.file_transfer_state)).2
              ++ (write_complete (write_data fl d.USBD_MSC_BlockSize block buf
                (write_root_dir d.mbr d.USBD_MSC_BlockSize block buf
                  d.file_transfer_state)).1).2)) := by
        unfold flash_calls
        exact List.mem_filter.2 ⟨hmem, rfl⟩
      have hsplit : flash_calls
          (Event.main_blink_msd_led 0 ::
            ((write_data fl d.USBD_MSC_BlockSize block buf
                (write_root_dir d.mbr d.USBD_MSC_BlockSize block buf d.file_transfer_state)).2
              ++ (write_complete (write_data fl d.USBD_MSC_BlockSize block buf
                (write_root_dir d.mbr d.USBD_MSC_BlockSize block buf
                  d.file_transfer_state)).1).2))
          = flash_calls (write_data fl d.USBD_MSC_BlockSize block buf
                (write_root_dir d.mbr d.USBD_MSC_BlockSize block buf d.file_transfer_state)).2 := by
        rw [show ∀ l : List Event, Event.main_blink_msd_led 0 :: l
              = [Event.main_blink_msd_led 0] ++ l from fun l => rfl,
          flash_calls_append, flash_calls_append, flash_calls_write_complete]
        simp [flash_calls]
      rw [hsplit] at hfc
      rcases write_data_events fl d.USBD_MSC_BlockSize block buf
        (write_root_dir d.mbr d.USBD_MSC_BlockSize block buf d.file_transfer_state) with h | h
      · rw [h] at hfc; simp at hfc
      · rw [h] at hfc; simp at hfc
    · show (write_complete _).1.transfer_started = 1 ∨ (write_complete _).1.transfer_started = 0
      have hs : (write_data fl d.USBD_MSC_BlockSize block buf
          (write_root_dir d.mbr d.USBD_MSC_BlockSize block buf
            d.file_transfer_state)).1.transfer_started = 1 := by
        rw [hd.2.2.1, hr.2.2.2.1, hstarted]
      unfold write_complete
      split
      · right; rfl
      · left; exact hs
  · have hnr : d.USBD_MSC_MediaReady = false := by simpa using hready
    rw [write_sect_not_ready validate_bin_nvic fl d block buf num_of_blocks hnr]
    simp [hstarted]

/-- Witness of C3: with a transfer in progress from block 10, a second block of plausible
firmware written at block 30 is not taken as a new start. -/
theorem no_arming_while_transfer_in_progress_witness :
    (usbd_msc_write_sect ex_validate ex_flash_ok ex_active 30 ex_firmware 1).1.file_transfer_state.start_block
        = ex_active.file_transfer_state.start_block
    ∧ Event.target_flash_init
        ∉ (usbd_msc_write_sect ex_validate ex_flash_ok ex_active 30 ex_firmware 1).2
    ∧ ((usbd_msc_write_sect ex_validate ex_flash_ok ex_active 30 ex_firmware 1).1.file_transfer_state.transfer_started = 1
        ∨ (usbd_msc_write_sect ex_validate ex_flash_ok ex_active 30 ex_firmware 1).1.file_transfer_state.transfer_started = 0) :=
  no_arming_while_transfer_in_progress ex_validate ex_flash_ok ex_active 30 ex_firmware 1
    (by decide)

/-! ## Directory sector written during the transfer -/

/-- C4 as amended (directory during the transfer): after arming at block `S` on a ready
idle device, a root-directory-sector write (block index below `S`) whose qualifying records
declare the size `F`, where `(N-1) * BlockSize < F ≤ N * BlockSize` with `N ≥ 2` (that is
`N = ceil(F / BlockSize)` and `F > BlockSize`; `F = N * BlockSize` is the case of a
multiple) and `N * BlockSize < 2^32`, followed by the contiguous writes of `S+1, S+2, ...`
(none a root-directory sector, all flash calls succeeding): the transfer is in progress
and no disconnect has been signalled after the directory write and after each of the
writes up to `S+N-2`, and the write of `S+N-1` retires it, with `transfer_started = 0` and
exactly one `main_usb_disconnect_event` in the whole sequence. -/
theorem directory_during_transfer_retires_on_last_block (validate_bin_nvic : List Nat → Nat)
    (d : Device) (S D N F : Nat) (b0 bd : List Nat) (n0 nd : Nat) (fl0 fld : FlashReturns)
    (bufs : Nat → List Nat) (nums : Nat → Nat) (fls : Nat → FlashReturns)
    (hready : d.USBD_MSC_MediaReady = true)
    (hidle : d.file_transfer_state.transfer_started = 0)
    (hv0 : validate_bin_nvic b0 = 1)
    (hfl0 : fl0.target_flash_init ≠ 0 ∧ fl0.target_flash_program_page ≠ 0)
    (hD : is_root_dir_sector d.mbr D) (hDS : D < S)
    (hex : ∃ i, i < d.USBD_MSC_BlockSize / sizeof_FatDirectoryEntry_t
      ∧ qualifying (read_dir_entry bd i))
    (hall : ∀ i, i < d.USBD_MSC_BlockSize / sizeof_FatDirectoryEntry_t →
      qualifying (read_dir_entry bd i) → (read_dir_entry bd i).filesize = F)
    (hN : 2 ≤ N)
    (hlo : (N - 1) * d.USBD_MSC_BlockSize < F)
    (hhi : F ≤ N * d.USBD_MSC_BlockSize)
    (hno : N * d.USBD_MSC_BlockSize < 4294967296)
    (hS : S + N - 1 < 4294967296)
    (hnroot : ∀ j, j < N - 1 → ¬ is_root_dir_sector d.mbr (S + 1 + j))
    (hfls : ∀ j, (fls j).target_flash_program_page ≠ 0) :
    (∀ k, k < N - 1 →
        (write_calls validate_bin_nvic d ([⟨S, b0, n0, fl0⟩, ⟨D, bd, nd, fld⟩]
            ++ contiguous_calls S bufs nums fls k)).1.file_transfer_state.transfer_started = 1
        ∧ disconnect_count (write_calls validate_bin_nvic d
            ([⟨S, b0, n0, fl0⟩, ⟨D, bd, nd, fld⟩]
              ++ contiguous_calls S bufs nums fls k)).2 = 0)
    ∧ (write_calls validate_bin_nvic d ([⟨S, b0, n0, fl0⟩, ⟨D, bd, nd, fld⟩]
          ++ contiguous_calls S bufs nums fls (N - 1))).1.file_transfer_state
        = ⟨S, F, N * d.USBD_MSC_BlockSize, S + N - 1, 0, .BIN⟩
    ∧ disconnect_count (write_calls validate_bin_nvic d
        ([⟨S, b0, n0, fl0⟩, ⟨D, bd, nd, fld⟩]
          ++ contiguous_calls S bufs nums fls (N - 1))).2 = 1 := by
  have hrun : ∀ k, k < N - 1 →
      (write_calls validate_bin_nvic d ([⟨S, b0, n0, fl0⟩, ⟨D, bd, nd, fld⟩]
          ++ contiguous_calls S bufs nums fls k)).1
          = { d with file_transfer_state :=
                ⟨S, F, (k + 1) * d.USBD_MSC_BlockSize, S + k, 1, .BIN⟩ }
      ∧ disconnect_count (write_calls validate_bin_nvic d ([⟨S, b0, n0, fl0⟩, ⟨D, bd, nd, fld⟩]
          ++ contiguous_calls S bufs nums fls k)).2 = 0 := by
    intro k hk
    have hmono : (k + 1) * d.USBD_MSC_BlockSize ≤ (N - 1) * d.USBD_MSC_BlockSize :=
      Nat.mul_le_mul_right _ (by omega)
    exact directory_then_run validate_bin_nvic d S D F b0 bd n0 nd fl0 fld bufs nums fls k
      hready hidle hv0 hfl0 hD hDS hex hall (by omega) (by omega) (by omega)
      (fun j hj => hnroot j (by omega)) (fun j _ => hfls j)
  refine ⟨fun k hk => ⟨by rw [(hrun k hk).1], (hrun k hk).2⟩, ?_⟩
  obtain ⟨hd, he⟩ := hrun (N - 2) (by omega)
  have hN1 : N - 1 = (N - 2) + 1 := by omega
  have hN2 : (N - 2 + 1) * d.USBD_MSC_BlockSize + d.USBD_MSC_BlockSize
      = N * d.USBD_MSC_BlockSize := by
    have : N = (N - 2 + 1) + 1 := by omega
    conv_rhs => rw [this, Nat.add_mul, Nat.one_mul]
  have hstep := contiguous_call validate_bin_nvic (fls (N - 2))
    { d with file_transfer_state :=
        ⟨S, F, (N - 2 + 1) * d.USBD_MSC_BlockSize, S + (N - 2), 1, .BIN⟩ }
    (S + 1 + (N - 2)) (bufs (N - 2)) (nums (N - 2)) hready rfl
    (show S + 1 + (N - 2) ≥ S by omega)
    (show S + 1 + (N - 2) = u32 (S + (N - 2) + 1) by rw [u32_of_lt (by omega)]; omega)
  have hroot : (write_root_dir d.mbr d.USBD_MSC_BlockSize (S + 1 + (N - 2)) (bufs (N - 2))
      ⟨S, F, (N - 2 + 1) * d.USBD_MSC_BlockSize, S + (N - 2), 1, .BIN⟩).amt_to_write = F := by
    rw [write_root_dir_of_not_root _ _ _ _ _ (hnroot (N - 2) (by omega))]
  have hu : u32 ((N - 2 + 1) * d.USBD_MSC_BlockSize + d.USBD_MSC_BlockSize)
      = N * d.USBD_MSC_BlockSize := by
    rw [hN2, u32_of_lt hno]
  simp only [hroot, hu] at hstep
  rw [write_complete_of_ge _ (by show N * d.USBD_MSC_BlockSize ≥ F; exact hhi) rfl] at hstep
  rw [hN1, contiguous_calls_succ, ← List.append_assoc, write_calls_append, write_calls_single,
    hd]
  simp only
  rw [hstep, disconnect_count_append, he]
  constructor
  · show (⟨S, F, N * d.USBD_MSC_BlockSize, S + 1 + (N - 2), 0, .BIN⟩ : file_transfer_state_t)
      = _
    have h2 : S + 1 + (N - 2) = S + N - 1 := by omega
    rw [h2]
  · have hk := hfls (N - 2)
    simp [disconnect_count, hk]

/-- Witness of C4 as amended: block size 512, armed at block 10, the directory sector 7
declares 1500 bytes (`2 * 512 < 1500 ≤ 3 * 512`); the write of block 12 retires the
transfer. -/
theorem directory_during_transfer_retires_on_last_block_witness :
    (∀ k, k < 3 - 1 →
        (write_calls ex_validate ex_idle
            ([⟨10, ex_firmware, 1, ex_flash_ok⟩, ⟨7, ex_dir 1500, 1, ex_flash_ok⟩]
              ++ contiguous_calls 10 (fun _ => ex_data) (fun _ => 1) (fun _ => ex_flash_ok)
                  k)).1.file_transfer_state.transfer_started = 1
        ∧ disconnect_count (write_calls ex_validate ex_idle
            ([⟨10, ex_firmware, 1, ex_flash_ok⟩, ⟨7, ex_dir 1500, 1, ex_flash_ok⟩]
              ++ contiguous_calls 10 (fun _ => ex_data) (fun _ => 1) (fun _ => ex_flash_ok)
                  k)).2 = 0)
    ∧ (write_calls ex_validate ex_idle
          ([⟨10, ex_firmware, 1, ex_flash_ok⟩, ⟨7, ex_dir 1500, 1, ex_flash_ok⟩]
            ++ contiguous_calls 10 (fun _ => ex_data) (fun _ => 1) (fun _ => ex_flash_ok)
                (3 - 1))).1.file_transfer_state
        = ⟨10, 1500, 3 * ex_idle.USBD_MSC_BlockSize, 10 + 3 - 1, 0, .BIN⟩
    ∧ disconnect_count (write_calls ex_validate ex_idle
        ([⟨10, ex_firmware, 1, ex_flash_ok⟩, ⟨7, ex_dir 1500, 1, ex_flash_ok⟩]
          ++ contiguous_calls 10 (fun _ => ex_data) (fun _ => 1) (fun _ => ex_flash_ok)
              (3 - 1))).2 = 1 :=
  directory_during_transfer_retires_on_last_block ex_validate ex_idle 10 7 3 1500 ex_firmware
    (ex_dir 1500) 1 1 ex_flash_ok ex_flash_ok (fun _ => ex_data) (fun _ => 1)
    (fun _ => ex_flash_ok)
    (by decide) (by decide) (by decide) (by decide) (by decide) (by decide)
    ⟨0, by decide, by decide⟩ (by decide) (by decide) (by decide) (by decide) (by decide)
    (by decide) (by decide)
    (fun _ => (by decide : ex_flash_ok.target_flash_program_page ≠ 0))

/-- Counterexample to C4 as stated, in its clause on sizes that are not a multiple of the
block size (block size 512, root-directory sectors 7 and 8, armed at block `S = 10`).
First, the declared size 100: `S + ceil(100/512) - 1` is block 10, but the write of block
10 leaves the transfer in progress and it is the directory write itself that retires it.
Second, the declared size `0xFFFFFF00`: `ceil(F/512) = 8388608`, but after the write of
block `10 + 8388607` the byte count has wrapped around to 0 and the transfer is still in
progress. -/
theorem directory_during_transfer_counterexample :
    ((write_calls ex_validate ex_idle
        [⟨10, ex_firmware, 1, ex_flash_ok⟩]).1.file_transfer_state.transfer_started = 1
      ∧ (write_calls ex_validate ex_idle
          [⟨10, ex_firmware, 1, ex_flash_ok⟩,
            ⟨7, ex_dir 100, 1, ex_flash_ok⟩]).1.file_transfer_state.transfer_started = 0
      ∧ disconnect_count (write_calls ex_validate ex_idle
          [⟨10, ex_firmware, 1, ex_flash_ok⟩, ⟨7, ex_dir 100, 1, ex_flash_ok⟩]).2 = 1)
    ∧ (write_calls ex_validate ex_idle
          ([⟨10, ex_firmware, 1, ex_flash_ok⟩, ⟨7, ex_dir 4294967040, 1, ex_flash_ok⟩]
            ++ contiguous_calls 10 (fun _ => ex_data) (fun _ => 1) (fun _ => ex_flash_ok)
                8388607)).1.file_transfer_state
        = ⟨10, 4294967040, 0, 8388617, 1, .BIN⟩ := by
  refine ⟨by decide, ?_⟩
  have hroot : ∀ j : Nat, ¬ is_root_dir_sector ex_idle.mbr (10 + 1 + j) := by
    intro j h
    have h1 : root_dir_sector_1 ex_idle.mbr = 7 := by decide
    have h2 : root_dir_sector_2 ex_idle.mbr = 8 := by decide
    unfold is_root_dir_sector at h
    omega
  have hbs : ex_idle.USBD_MSC_BlockSize = 512 := rfl
  obtain ⟨hd, _⟩ := directory_then_run ex_validate ex_idle 10 7 4294967040 ex_firmware
    (ex_dir 4294967040) 1 1 ex_flash_ok ex_flash_ok (fun _ => ex_data) (fun _ => 1)
    (fun _ => ex_flash_ok) 8388606
    (by decide) (by decide) (by decide) (by decide) (by decide) (by decide)
    ⟨0, by decide, by decide⟩ (by decide) (by rw [hbs]; norm_num) (by norm_num) (by norm_num)
    (fun j _ => hroot j) (fun _ _ => (by decide : ex_flash_ok.target_flash_program_page ≠ 0))
  have hstep := contiguous_call ex_validate ex_flash_ok
    { ex_idle with file_transfer_state :=
        ⟨10, 4294967040, (8388606 + 1) * ex_idle.USBD_MSC_BlockSize, 10 + 8388606, 1, .BIN⟩ }
    (10 + 1 + 8388606) ex_data 1 (by decide) rfl
    (show 10 + 1 + 8388606 ≥ 10 by norm_num)
    (show 10 + 1 + 8388606 = u32 (10 + 8388606 + 1) by unfold u32; norm_num)
  have hr : (write_root_dir ex_idle.mbr ex_idle.USBD_MSC_BlockSize (10 + 1 + 8388606) ex_data
      ⟨10, 4294967040, (8388606 + 1) * ex_idle.USBD_MSC_BlockSize, 10 + 8388606, 1,
        .BIN⟩).amt_to_write = 4294967040 := by
    rw [write_root_dir_of_not_root _ _ _ _ _ (hroot 8388606)]
  have hu : u32 ((8388606 + 1) * ex_idle.USBD_MSC_BlockSize + ex_idle.USBD_MSC_BlockSize) = 0 := by
    rw [hbs]; unfold u32; norm_num
  simp only [hr, hu] at hstep
  rw [write_complete_of_lt _ (by show 0 < 4294967040; norm_num)] at hstep
  rw [show (8388607 : Nat) = 8388606 + 1 from rfl, contiguous_calls_succ, ← List.append_assoc,
    write_calls_append, write_calls_single, hd]
  simp only
  rw [hstep]

/-! ## Directory sector written after the data -/

/-- C5 as amended (data before directory): on a ready device with a transfer in progress
and `amt_written = W`, a root-directory-sector write whose qualifying records declare a
size `F` with `0 < F ≤ W` retires the transfer in that same call, provided that, when the
directory sector is itself programmed as the next contiguous block (it is
`last_block_written + 1` and not below `start_block`), the byte count `W + BlockSize` taken
modulo `2^32` is still at least `F`: `transfer_started` becomes 0, a
`main_usb_disconnect_event` is signalled, and it is signalled exactly once when
`target_flash_program_page` does not fail in the call. -/
theorem data_before_directory_retires (validate_bin_nvic : List Nat → Nat) (fl : FlashReturns)
    (d : Device) (block : Nat) (buf : List Nat) (num_of_blocks : Nat) (F : Nat)
    (hready : d.USBD_MSC_MediaReady = true)
    (hstarted : d.file_transfer_state.transfer_started = 1)
    (hD : is_root_dir_sector d.mbr block)
    (hex : ∃ i, i < d.USBD_MSC_BlockSize / sizeof_FatDirectoryEntry_t
      ∧ qualifying (read_dir_entry buf i))
    (hall : ∀ i, i < d.USBD_MSC_BlockSize / sizeof_FatDirectoryEntry_t →
      qualifying (read_dir_entry buf i) → (read_dir_entry buf i).filesize = F)
    (hF : 0 < F)
    (hFW : F ≤ d.file_transfer_state.amt_written)
    (hwrap : block = u32 (d.file_transfer_state.last_block_written + 1) →
      block ≥ d.file_transfer_state.start_block →
      F ≤ u32 (d.file_transfer_state.amt_written + d.USBD_MSC_BlockSize)) :
    (usbd_msc_write_sect validate_bin_nvic fl d block buf num_of_blocks).1.file_transfer_state.transfer_started
        = 0
    ∧ 1 ≤ disconnect_count (usbd_msc_write_sect validate_bin_nvic fl d block buf num_of_blocks).2
    ∧ (fl.target_flash_program_page ≠ 0 →
        disconnect_count (usbd_msc_write_sect validate_bin_nvic fl d block buf num_of_blocks).2
          = 1) := by
  have hscan : (write_root_dir d.mbr d.USBD_MSC_BlockSize block buf
      d.file_transfer_state).amt_to_write = F := by
    rw [write_root_dir_of_root _ _ _ _ _ hD]
    exact root_dir_scan_of_size d.USBD_MSC_BlockSize buf _ F hex hall
  have hr := write_root_dir_fields d.mbr d.USBD_MSC_BlockSize block buf d.file_transfer_state
  by_cases hnext : block = u32 (d.file_transfer_state.last_block_written + 1)
      ∧ block ≥ d.file_transfer_state.start_block
  · have hstep := contiguous_call validate_bin_nvic fl d block buf num_of_blocks hready hstarted
      hnext.2 hnext.1
    rw [hscan] at hstep
    rw [write_complete_of_ge _ (by exact hwrap hnext.1 hnext.2) rfl] at hstep
    rw [hstep]
    refine ⟨rfl, ?_, ?_⟩
    · by_cases hp : fl.target_flash_program_page = 0 <;> simp [disconnect_count, hp]
    · intro hp
      simp [disconnect_count, hp]
  · have hdata : write_data fl d.USBD_MSC_BlockSize block buf
        (write_root_dir d.mbr d.USBD_MSC_BlockSize block buf d.file_transfer_state)
        = (write_root_dir d.mbr d.USBD_MSC_BlockSize block buf d.file_transfer_state, []) := by
      by_cases hge : block ≥ d.file_transfer_state.start_block
      · exact write_data_of_not_next _ _ _ _ _
          (by rw [hr.2.2.1]; exact fun h => hnext ⟨h, hge⟩)
      · exact write_data_of_below _ _ _ _ _ (by rw [hr.1]; omega)
    rw [write_sect_started validate_bin_nvic fl d block buf num_of_blocks hready hstarted, hdata,
      write_complete_of_ge _ (by rw [hscan, hr.2.1]; exact hFW) (by rw [hr.2.2.2.1, hstarted])]
    refine ⟨rfl, ?_, ?_⟩
    · simp [disconnect_count]
    · intro _
      simp [disconnect_count]

/-- Witness of C5 as amended: blocks 10 and 11 are programmed (1024 bytes), then the
directory sector 7 declares 1000 bytes; the transfer is retired in that call. -/
theorem data_before_directory_retires_witness :
    (usbd_msc_write_sect ex_validate ex_flash_ok ex_active 7 (ex_dir 1000) 1).1.file_transfer_state.transfer_started
        = 0
    ∧ 1 ≤ disconnect_count (usbd_msc_write_sect ex_validate ex_flash_ok ex_active 7
        (ex_dir 1000) 1).2
    ∧ (ex_flash_ok.target_flash_program_page ≠ 0 →
        disconnect_count (usbd_msc_write_sect ex_validate ex_flash_ok ex_active 7
          (ex_dir 1000) 1).2 = 1) :=
  data_before_directory_retires ex_validate ex_flash_ok ex_active 7 (ex_dir 1000) 1 1000
    (by decide) (by decide) (by decide) ⟨0, by decide, by decide⟩ (by decide) (by decide)
    (by decide) (by decide)

/-- Counterexample to C5 as stated: the example device (block size 512, root-directory
sectors 7 and 8) with a transfer in progress (`amt_written = 1024`) and `USBD_MSC_MediaReady`
cleared.  The write of the directory sector 7, whose only qualifying record declares 1000
bytes (`0 < 1000 ≤ 1024`), returns at the test of the ready flag: the transfer is not
retired (`transfer_started` stays 1) and no `main_usb_disconnect_event` is signalled. -/
theorem data_before_directory_counterexample :
    ex_unready.file_transfer_state.transfer_started = 1
    ∧ ex_unready.file_transfer_state.amt_written = 1024
    ∧ is_root_dir_sector ex_unready.mbr 7
    ∧ qualifying (read_dir_entry (ex_dir 1000) 0)
    ∧ (read_dir_entry (ex_dir 1000) 0).filesize = 1000
    ∧ (∀ i, i < ex_unready.USBD_MSC_BlockSize / sizeof_FatDirectoryEntry_t →
        qualifying (read_dir_entry (ex_dir 1000) i) → i = 0)
    ∧ (usbd_msc_write_sect ex_validate ex_flash_ok ex_unready 7 (ex_dir 1000)
        1).1.file_transfer_state.transfer_started = 1
    ∧ disconnect_count (usbd_msc_write_sect ex_validate ex_flash_ok ex_unready 7 (ex_dir 1000)
        1).2 = 0 :=
  ⟨by decide, by decide, by decide, by decide, by decide, by decide, by decide, by decide⟩

/-! ## Zero-size directory records -/

/-- C6 (zero-size directory ignored): a root-directory-sector write that does not itself
arm a transfer, and in which every record carrying a whitelisted extension declares
`filesize = 0`, leaves `amt_to_write` at the value it had before the call, whatever that
value is (the sentinel `0xffffffff` or a size set earlier). -/
theorem zero_size_directory_entry_ignored (validate_bin_nvic : List Nat → Nat)
    (fl : FlashReturns) (d : Device) (block : Nat) (buf : List Nat) (num_of_blocks : Nat)
    (hroot : is_root_dir_sector d.mbr block)
    (hnoarm : ¬ (validate_bin_nvic buf = 1 ∧ d.file_transfer_state.transfer_started = 0))
    (hzero : ∀ i, i < d.USBD_MSC_BlockSize / sizeof_FatDirectoryEntry_t →
      dir_entry_extension (read_dir_entry buf i) ∈ known_extensions →
      (read_dir_entry buf i).filesize = 0) :
    (usbd_msc_write_sect validate_bin_nvic fl d block buf num_of_blocks).1.file_transfer_state.amt_to_write
      = d.file_transfer_state.amt_to_write := by
  by_cases hready : d.USBD_MSC_MediaReady = true
  · rw [write_sect_no_arm validate_bin_nvic fl d block buf num_of_blocks hready hnoarm]
    have hscan : root_dir_scan d.USBD_MSC_BlockSize buf d.file_transfer_state.amt_to_write
        = d.file_transfer_state.amt_to_write :=
      root_dir_scan_of_none _ _ _ (fun i hi hq =>
        ((qualifying_iff _).1 hq).2.2 (hzero i hi ((qualifying_iff _).1 hq).2.1))
    show (write_complete (write_data fl d.USBD_MSC_BlockSize block buf
      (write_root_dir d.mbr d.USBD_MSC_BlockSize block buf d.file_transfer_state)).1).1.amt_to_write
      = _
    rw [(write_complete_fields _).2.1, (write_data_fields _ _ _ _ _).2.1,
      write_root_dir_of_root _ _ _ _ _ hroot]
    exact hscan
  · have hnr : d.USBD_MSC_MediaReady = false := by simpa using hready
    rw [write_sect_not_ready validate_bin_nvic fl d block buf num_of_blocks hnr]

/-- Witness of C6: with a transfer in progress and the size not yet known, a directory
sector whose `FIRMWAREBIN` record declares size 0 leaves `amt_to_write` at `0xffffffff`. -/
theorem zero_size_directory_entry_ignored_witness :
    (usbd_msc_write_sect ex_validate ex_flash_ok ex_active 7 (ex_dir 0) 1).1.file_transfer_state.amt_to_write
      = ex_active.file_transfer_state.amt_to_write :=
  zero_size_directory_entry_ignored ex_validate ex_flash_ok ex_active 7 (ex_dir 0) 1
    (by decide) (by decide) (by decide)

/-! ## Re-initialisation after an abort -/

/-- C7 (re-arm after an abort) fails on the code: `usbd_msc_init` never touches the
function-static transfer state, and the failure paths signal the disconnect without
clearing `transfer_started`.  On the instance (block size 512): the arming write of block
10 in which `target_flash_init` fails signals one disconnect and leaves
`transfer_started = 1`; after `usbd_msc_init` the state is the same; the following write
of plausible firmware at block 20 makes no flash call and leaves `start_block = 10`. -/
theorem rearm_after_abort_stuck :
    (∀ (virtual_fs_init : mbr_t × List fs_entry_t → mbr_t × List fs_entry_t) (d : Device),
        (usbd_msc_init virtual_fs_init d).file_transfer_state = d.file_transfer_state)
    ∧ disconnect_count
        (usbd_msc_write_sect ex_validate ex_flash_init_fails ex_idle 10 ex_firmware 1).2 = 1
    ∧ (usbd_msc_init id
        (usbd_msc_write_sect ex_validate ex_flash_init_fails ex_idle 10 ex_firmware 1).1
        ).file_transfer_state
        = ⟨10, 4294967295, 512, 10, 1, .BIN⟩
    ∧ (usbd_msc_write_sect ex_validate ex_flash_ok
        (usbd_msc_init id
          (usbd_msc_write_sect ex_validate ex_flash_init_fails ex_idle 10 ex_firmware 1).1)
        20 ex_firmware 1).1.file_transfer_state
        = ⟨10, 4294967295, 512, 10, 1, .BIN⟩
    ∧ flash_calls (usbd_msc_write_sect ex_validate ex_flash_ok
        (usbd_msc_init id
          (usbd_msc_write_sect ex_validate ex_flash_init_fails ex_idle 10 ex_firmware 1).1)
        20 ex_firmware 1).2 = [] := by
  refine ⟨fun _ _ => rfl, ?_, ?_, ?_, ?_⟩ <;> decide

/-! ## Arming -/

/-- C8 (arming, including re-arm after completion): on a ready device with
`transfer_started = 0`, a write of a block whose data `validate_bin_nvic` accepts calls
`target_flash_init` and then `target_flash_program_page(0, data, BlockSize)` (a
`main_usb_disconnect_event` following a call that returned 0), and returns with
`start_block = block`, `amt_to_write = 0xffffffff`, `amt_written = BlockSize`,
`last_block_written = block`, `transfer_started = 1`, `file_type = BIN`: every field of the
transfer state is overwritten, whatever it held before. -/
theorem arming_write_starts_fresh_transfer (validate_bin_nvic : List Nat → Nat)
    (fl : FlashReturns) (d : Device) (block : Nat) (buf : List Nat) (num_of_blocks : Nat)
    (hready : d.USBD_MSC_MediaReady = true)
    (hidle : d.file_transfer_state.transfer_started = 0)
    (hv : validate_bin_nvic buf = 1) :
    (usbd_msc_write_sect validate_bin_nvic fl d block buf num_of_blocks).1
        = { d with file_transfer_state :=
              { start_block := block, amt_to_write := 4294967295,
                amt_written := d.USBD_MSC_BlockSize, last_block_written := block,
                transfer_started := 1, file_type := .BIN } }
    ∧ (usbd_msc_write_sect validate_bin_nvic fl d block buf num_of_blocks).2
        = [Event.main_blink_msd_led 0, Event.target_flash_init]
            ++ (if fl.target_flash_init = 0 then [Event.main_usb_disconnect_event] else [])
            ++ [Event.target_flash_program_page 0 buf d.USBD_MSC_BlockSize]
            ++ (if fl.target_flash_program_page = 0 then [Event.main_usb_disconnect_event]
                else [])
    ∧ flash_calls (usbd_msc_write_sect validate_bin_nvic fl d block buf num_of_blocks).2
        = [Event.target_flash_init,
            Event.target_flash_program_page 0 buf d.USBD_MSC_BlockSize] := by
  have h := arming_call validate_bin_nvic fl d block buf num_of_blocks hready hidle hv
  refine ⟨h.1, h.2, ?_⟩
  rw [h.2]
  simp only [flash_calls_append, flash_calls_failure]
  simp [flash_calls]

/-- Witness of C8: a device left behind by a completed transfer (stale `start_block`,
`amt_to_write`, `amt_written`, `last_block_written`) is armed afresh at block 20. -/
theorem arming_write_starts_fresh_transfer_witness :
    (usbd_msc_write_sect ex_validate ex_flash_ok ex_completed 20 ex_firmware 1).1
        = { ex_completed with file_transfer_state :=
              { start_block := 20, amt_to_write := 4294967295, amt_written := 512,
                last_block_written := 20, transfer_started := 1, file_type := .BIN } }
    ∧ (usbd_msc_write_sect ex_validate ex_flash_ok ex_completed 20 ex_firmware 1).2
        = [Event.main_blink_msd_led 0, Event.target_flash_init]
            ++ (if ex_flash_ok.target_flash_init = 0 then [Event.main_usb_disconnect_event]
                else [])
            ++ [Event.target_flash_program_page 0 ex_firmware 512]
            ++ (if ex_flash_ok.target_flash_program_page = 0
                then [Event.main_usb_disconnect_event] else [])
    ∧ flash_calls (usbd_msc_write_sect ex_validate ex_flash_ok ex_completed 20 ex_firmware 1).2
        = [Event.target_flash_init, Event.target_flash_program_page 0 ex_firmware 512] :=
  arming_write_starts_fresh_transfer ex_validate ex_flash_ok ex_completed 20 ex_firmware 1
    (by decide) (by decide) (by decide)

/-! ## Reads beyond the table -/

/-- C9 as amended (read zero-fill): on a ready device, for every sector table with a
zero-length entry at an index `k ≤ 255` (the walk counts entries in a `uint8_t`) and every
block whose byte address `block * BlockSize` (without 32-bit overflow) is at or beyond the
sum of the lengths of the entries before it, `usbd_msc_read_sect` returns, for every fuel
above `k`, and fills the output buffer with `num_of_blocks * BlockSize` (a 32-bit product)
zero bytes. -/
theorem read_beyond_table_is_zero (fuel : Nat) (d : Device) (block : Nat) (buf : List Nat)
    (num_of_blocks k : Nat) (e0 : fs_entry_t)
    (hready : d.USBD_MSC_MediaReady = true)
    (hk : k ≤ 255)
    (hsent : d.fs[k]? = some e0) (hzero : e0.length = 0)
    (haddr : block * d.USBD_MSC_BlockSize < 4294967296)
    (hbeyond : table_span d.fs k ≤ block * d.USBD_MSC_BlockSize)
    (hfuel : k + 1 ≤ fuel) :
    usbd_msc_read_sect fuel d block buf num_of_blocks
      = .ok (store_bytes buf (List.replicate (u32 (num_of_blocks * d.USBD_MSC_BlockSize)) 0)
              (u32 (num_of_blocks * d.USBD_MSC_BlockSize)),
            Event.main_blink_msd_led 0 ::
              (if block = 17 then [Event.update_html_file] else [])) := by
  have hreq : u32 (block * d.USBD_MSC_BlockSize) = block * d.USBD_MSC_BlockSize :=
    u32_of_lt haddr
  obtain ⟨w, hw, hnone⟩ := read_walk_beyond d.fs (block * d.USBD_MSC_BlockSize) k e0 hk hsent
    hzero haddr hbeyond k 0 fuel (by omega) hfuel
  have h0 : table_span d.fs 0 = 0 := by simp [table_span]
  rw [h0] at hw
  unfold usbd_msc_read_sect
  simp only [hready, hreq, Bool.true_eq_false, if_false, read_walk_init, hw, hnone]

/-- Witness of C9 as amended: the table of `ex_read_device` occupies 8 bytes and has its
sentinel at index 1; with block size 4, block 2 reads as four zero bytes. -/
theorem read_beyond_table_is_zero_witness :
    usbd_msc_read_sect 2 ex_read_device 2 [1, 2, 3, 4] 1
      = .ok (store_bytes [1, 2, 3, 4]
              (List.replicate (u32 (1 * ex_read_device.USBD_MSC_BlockSize)) 0)
              (u32 (1 * ex_read_device.USBD_MSC_BlockSize)),
            Event.main_blink_msd_led 0 ::
              (if 2 = 17 then [Event.update_html_file] else [])) :=
  read_beyond_table_is_zero 2 ex_read_device 2 [1, 2, 3, 4] 1 1 { sect := none, length := 0 }
    (by decide) (by decide) (by decide) (by decide) (by decide) (by decide) (by decide)

/-- Counterexample to C9 as stated: block size 1 and a table of 257 one-byte entries
followed by the sentinel (combined length 257, sentinel at index 257).  Block 257 is
beyond all entries, but the 8-bit entry index wraps around after entry 255, the
running end-offset keeps growing, and entry 1 is selected on the second pass: the read
returns the content byte 7 instead of zero. -/
theorem read_beyond_table_counterexample :
    table_span ex_long_table 257 = 257
    ∧ ex_long_table[257]? = some { sect := none, length := 0 }
    ∧ usbd_msc_read_sect 300 ex_long_device 257 [0] 1
        = .ok ([7], [Event.main_blink_msd_led 0]) :=
  ⟨by decide, by decide, by rfl⟩

/-! ## Reads inside an entry -/

/-- C10 (read fidelity) fails on the code for every offset of 4 or more into an entry: the
test `req_sector_offset >= sizeof(fs[i].sect)` compares the offset with the size of a
pointer, not with the size of the content.  With block size 4 and one entry of the 8
content bytes 11..18, block 0 (offset 0) is served from the content, but block 1 (offset 4,
entirely inside the content) reads as zeros instead of 15, 16, 17, 18; with block size 512
and an entry of 1024 bytes `0xAA`, block 1 reads as 512 zero bytes. -/
theorem read_inside_entry_zero_filled :
    usbd_msc_read_sect 2 ex_read_device 0 [1, 2, 3, 4] 1
        = .ok ([11, 12, 13, 14], [Event.main_blink_msd_led 0])
    ∧ usbd_msc_read_sect 2 ex_read_device 1 [1, 2, 3, 4] 1
        = .ok ([0, 0, 0, 0], [Event.main_blink_msd_led 0])
    ∧ usbd_msc_read_sect 2 ex_read_device_512 1 [] 1
        = .ok (List.replicate 512 0, [Event.main_blink_msd_led 0]) :=
  ⟨by rfl, by rfl, by rfl⟩

/-! ## Reads across the end of an entry -/

/-- C11 (read across the end of an entry) fails on the code: the `memcpy` copies
`num_of_blocks * BlockSize` bytes from the selected offset whatever the length of the
entry.  With block size 4: a one-block read of block 0 of a two-byte entry, a two-block
read of block 0 of a one-block entry, and (block size 512) a three-block read of block 0 of
a two-block entry all read past the end of the object `sect` points to; and where the
object is longer than the entry declares, the bytes past the end of the entry (15..18) are
copied to the buffer instead of zeros. -/
theorem read_across_entry_end_overruns :
    usbd_msc_read_sect 3 (ex_read_device_of ex_table_short) 0 [0, 0, 0, 0] 1
        = .error .content_overrun
    ∧ usbd_msc_read_sect 3 (ex_read_device_of
          [{ sect := some [11, 12, 13, 14], length := 4 }, { sect := none, length := 0 }])
        0 [0, 0, 0, 0, 0, 0, 0, 0] 2
        = .error .content_overrun
    ∧ usbd_msc_read_sect 2 ex_read_device_512 0 [] 3 = .error .content_overrun
    ∧ usbd_msc_read_sect 3 (ex_read_device_of ex_table_long_object) 0
        [0, 0, 0, 0, 0, 0, 0, 0] 2
        = .ok ([11, 12, 13, 14, 15, 16, 17, 18], [Event.main_blink_msd_led 0]) :=
  ⟨by rfl, by rfl, by rfl, by rfl⟩

/-! ## Gaps -/

/-- C12 as amended (gaps read as zero): on a ready device, for every sector table with a
zero-length sentinel at an index `k ≤ 255` and lengths that sum to less than `2^32` up to
it, in which the entry `j < k` whose byte range contains `block * BlockSize` has a null
`sect` and a length below `2^32 - 4`, `usbd_msc_read_sect` returns (for every fuel above
`k`) and fills the output buffer with zero bytes, whatever the entries after `j` are. -/
theorem gap_reads_as_zero (fuel : Nat) (d : Device) (block : Nat) (buf : List Nat)
    (num_of_blocks j k : Nat) (e0 ej : fs_entry_t)
    (hready : d.USBD_MSC_MediaReady = true)
    (hk : k ≤ 255)
    (hsent : d.fs[k]? = some e0) (hzero : e0.length = 0)
    (hjk : j < k)
    (hj : d.fs[j]? = some ej) (hnull : ej.sect = none) (hlen : ej.length < 4294967292)
    (hlow : table_span d.fs j ≤ block * d.USBD_MSC_BlockSize)
    (hhi : block * d.USBD_MSC_BlockSize < table_span d.fs (j + 1))
    (htot : table_span d.fs k < 4294967296)
    (hfuel : k + 1 ≤ fuel) :
    usbd_msc_read_sect fuel d block buf num_of_blocks
      = .ok (store_bytes buf (List.replicate (u32 (num_of_blocks * d.USBD_MSC_BlockSize)) 0)
              (u32 (num_of_blocks * d.USBD_MSC_BlockSize)),
            Event.main_blink_msd_led 0 ::
              (if block = 17 then [Event.update_html_file] else [])) := by
  have hle : table_span d.fs (j + 1) ≤ table_span d.fs k := table_span_mono d.fs (by omega)
  have hreq : u32 (block * d.USBD_MSC_BlockSize) = block * d.USBD_MSC_BlockSize :=
    u32_of_lt (by omega)
  have h0 : table_span d.fs 0 = 0 := by simp [table_span]
  obtain ⟨w, hw, hres⟩ := read_walk_gap d.fs (block * d.USBD_MSC_BlockSize) j k e0 ej hk hsent
    hzero hj hnull hlen hlow hhi htot k read_walk_init fuel (by simp [read_walk_init]) hfuel
    (Or.inr ⟨rfl, by simp [read_walk_init, h0],
      Or.inl ⟨by simp [read_walk_init, h0], by simp [read_walk_init]⟩⟩)
  unfold usbd_msc_read_sect
  simp only [hready, hreq, Bool.true_eq_false, if_false, hw]
  cases hs : w.fs_read_sect with
  | none => rfl
  | some sect =>
    have hr : w.real_data_present = 0 := by
      rcases hres with h | h
      · rw [hs] at h; exact Option.noConfusion h
      · exact h
    simp [hr]

/-- Witness of C12 as amended: block size 4 and the table of a four-byte entry, a four-byte
gap, a second four-byte entry and the sentinel; block 1 falls into the gap and reads as
zeros although an entry with content follows. -/
theorem gap_reads_as_zero_witness :
    usbd_msc_read_sect 4 (ex_read_device_of ex_table_gap_small) 1 [9, 9, 9, 9] 1
      = .ok (store_bytes [9, 9, 9, 9]
              (List.replicate
                (u32 (1 * (ex_read_device_of ex_table_gap_small).USBD_MSC_BlockSize)) 0)
              (u32 (1 * (ex_read_device_of ex_table_gap_small).USBD_MSC_BlockSize)),
            Event.main_blink_msd_led 0 ::
              (if 1 = 17 then [Event.update_html_file] else [])) :=
  gap_reads_as_zero 4 (ex_read_device_of ex_table_gap_small) 1 [9, 9, 9, 9] 1 1 3
    { sect := none, length := 0 } { sect := none, length := 4 }
    (by decide) (by decide) (by decide) (by decide) (by decide) (by decide) (by decide)
    (by decide) (by decide) (by decide) (by decide) (by decide)

/-- Counterexample to C12 as stated: block size 4 and the table of an 8-byte gap, a gap of
`2^32 - 8` bytes, a four-byte entry with content 1, 2, 3, 4 and the sentinel.  Block 0
falls into the first gap (null `sect`, length 8), but the running end-offset wraps around to
0 at the second entry, the third entry is selected with offset 0, and the read returns its
content instead of zeros. -/
theorem gap_reads_as_zero_counterexample :
    ex_table_gap[0]? = some { sect := none, length := 8 }
    ∧ table_span ex_table_gap 0 ≤ 0 * (ex_read_device_of ex_table_gap).USBD_MSC_BlockSize
    ∧ 0 * (ex_read_device_of ex_table_gap).USBD_MSC_BlockSize < table_span ex_table_gap 1
    ∧ usbd_msc_read_sect 4 (ex_read_device_of ex_table_gap) 0 [0, 0, 0, 0] 1
        = .ok ([1, 2, 3, 4], [Event.main_blink_msd_led 0]) :=
  ⟨by decide, by decide, by decide, by rfl⟩

/-! ## The directory entry classifier -/

/-- C13 (first-byte rejection) fails on the code for the leading byte `0x00`: the
`do ... while` loop of `first_byte_valid` compares the byte with the terminating NUL of
the literal before it stops, so NUL, which is not one of `0-9A-Z`, is accepted, and a
record `\0IRMWAREBIN` of 512 bytes is reported as a match.  The deleted-entry marker `0xE5`
and a lower-case first letter are rejected as the claim says. -/
theorem first_byte_nul_is_accepted :
    0 ∉ valid_char
    ∧ first_byte_valid 0 = 1
    ∧ (read_dir_entry (ex_record 0 [66, 73, 78] 512) 0).filename.getD 0 0 = 0
    ∧ wanted_dir_entry (read_dir_entry (ex_record 0 [66, 73, 78] 512) 0) = .BIN
    ∧ wanted_dir_entry (read_dir_entry (ex_record 229 [66, 73, 78] 512) 0) = .UNKNOWN
    ∧ wanted_dir_entry (read_dir_entry (ex_record 102 [66, 73, 78] 512) 0) = .UNKNOWN := by
  decide

/-- C14 (case-sensitive extension whitelist): for every directory entry whose first
filename byte `first_byte_valid` accepts and whose `filesize` is not zero,
`wanted_dir_entry` returns `BIN` if and only if the filename bytes 8..10 are exactly `BIN`
or exactly `bin`, and `UNKNOWN` for every other extension. -/
theorem extension_whitelist_is_case_sensitive (e : FatDirectoryEntry_t)
    (hfirst : first_byte_valid (e.filename.getD 0 0) = 1) (hsize : e.filesize ≠ 0) :
    (wanted_dir_entry e = .BIN ↔
      dir_entry_extension e = [66, 73, 78] ∨ dir_entry_extension e = [98, 105, 110])
    ∧ (wanted_dir_entry e = .UNKNOWN ↔
      ¬ (dir_entry_extension e = [66, 73, 78] ∨ dir_entry_extension e = [98, 105, 110])) := by
  have hmem : dir_entry_extension e ∈ known_extensions ↔
      dir_entry_extension e = [66, 73, 78] ∨ dir_entry_extension e = [98, 105, 110] := by
    simp [known_extensions]
  have hbin : wanted_dir_entry e = .BIN ↔
      dir_entry_extension e = [66, 73, 78] ∨ dir_entry_extension e = [98, 105, 110] := by
    rw [wanted_dir_entry_eq_BIN, hmem]
    exact ⟨fun h => h.2.1, fun h => ⟨hfirst, h, hsize⟩⟩
  refine ⟨hbin, ?_⟩
  rw [← hbin]
  cases wanted_dir_entry e <;> simp

/-- Witness of C14: the record `FIRMWAREBin` of 512 bytes has the mixed-case extension
`Bin` and is no match. -/
theorem extension_whitelist_is_case_sensitive_witness :
    (wanted_dir_entry (read_dir_entry (ex_record 70 [66, 105, 110] 512) 0) = .BIN ↔
      dir_entry_extension (read_dir_entry (ex_record 70 [66, 105, 110] 512) 0) = [66, 73, 78]
        ∨ dir_entry_extension (read_dir_entry (ex_record 70 [66, 105, 110] 512) 0)
            = [98, 105, 110])
    ∧ (wanted_dir_entry (read_dir_entry (ex_record 70 [66, 105, 110] 512) 0) = .UNKNOWN ↔
      ¬ (dir_entry_extension (read_dir_entry (ex_record 70 [66, 105, 110] 512) 0)
            = [66, 73, 78]
        ∨ dir_entry_extension (read_dir_entry (ex_record 70 [66, 105, 110] 512) 0)
            = [98, 105, 110])) :=
  extension_whitelist_is_case_sensitive (read_dir_entry (ex_record 70 [66, 105, 110] 512) 0)
    (by decide) (by decide)

/-- C15 (zero-size match is a non-match): for every directory entry whose `filesize` field
is 0, `wanted_dir_entry` returns `UNKNOWN`, whatever its filename and extension. -/
theorem zero_size_entry_is_no_match (e : FatDirectoryEntry_t) (hsize : e.filesize = 0) :
    wanted_dir_entry e = .UNKNOWN := by
  cases hw : wanted_dir_entry e with
  | UNKNOWN => rfl
  | BIN => exact absurd hsize ((wanted_dir_entry_eq_BIN e).1 hw).2.2

/-- Witness of C15: the record `FIRMWAREBIN` with file size 0. -/
theorem zero_size_entry_is_no_match_witness :
    wanted_dir_entry (read_dir_entry (ex_dir 0) 0) = .UNKNOWN :=
  zero_size_entry_is_no_match (read_dir_entry (ex_dir 0) 0) (by decide)

/-! ## Several qualifying records in one sector -/

/-- C16 as amended (last match wins): on a ready device, a root-directory-sector write that
does not itself arm a transfer sets `amt_to_write` to the size declared by the last
qualifying record among the `BlockSize / 32` records of the sector: the scan has no early
exit, every record is looked at, and each qualifying record overwrites the size taken from
the records before it. -/
theorem last_qualifying_entry_sets_size (validate_bin_nvic : List Nat → Nat)
    (fl : FlashReturns) (d : Device) (block : Nat) (buf : List Nat) (num_of_blocks i : Nat)
    (hready : d.USBD_MSC_MediaReady = true)
    (hroot : is_root_dir_sector d.mbr block)
    (hnoarm : ¬ (validate_bin_nvic buf = 1 ∧ d.file_transfer_state.transfer_started = 0))
    (hi : i < d.USBD_MSC_BlockSize / sizeof_FatDirectoryEntry_t)
    (hq : qualifying (read_dir_entry buf i))
    (hlast : ∀ j, j < d.USBD_MSC_BlockSize / sizeof_FatDirectoryEntry_t → i < j →
      ¬ qualifying (read_dir_entry buf j)) :
    (usbd_msc_write_sect validate_bin_nvic fl d block buf num_of_blocks).1.file_transfer_state.amt_to_write
      = (read_dir_entry buf i).filesize := by
  rw [write_sect_no_arm validate_bin_nvic fl d block buf num_of_blocks hready hnoarm]
  show (write_complete (write_data fl d.USBD_MSC_BlockSize block buf
    (write_root_dir d.mbr d.USBD_MSC_BlockSize block buf d.file_transfer_state)).1).1.amt_to_write
    = _
  rw [(write_complete_fields _).2.1, (write_data_fields _ _ _ _ _).2.1,
    write_root_dir_of_root _ _ _ _ _ hroot]
  exact root_dir_scan_of_last _ _ _ i hi hq hlast

/-- Witness of C16 as amended: in the sector `ex_dir_two` the last qualifying record is
record 1, of 2048 bytes. -/
theorem last_qualifying_entry_sets_size_witness :
    (usbd_msc_write_sect ex_validate ex_flash_ok ex_active 7 ex_dir_two 1).1.file_transfer_state.amt_to_write
      = (read_dir_entry ex_dir_two 1).filesize :=
  last_qualifying_entry_sets_size ex_validate ex_flash_ok ex_active 7 ex_dir_two 1 1
    (by decide) (by decide) (by decide) (by decide) (by decide) (by decide)

/-- Counterexample to C16 as stated: block size 512, a transfer in progress, and the
root-directory sector 7 written with two qualifying records, the first declaring 1024
bytes and the second 2048 bytes.  After the call `amt_to_write` is 2048, the size of the
second record, not 1024.  On the unready device the same write changes nothing. -/
theorem first_match_wins_counterexample :
    qualifying (read_dir_entry ex_dir_two 0)
    ∧ (read_dir_entry ex_dir_two 0).filesize = 1024
    ∧ qualifying (read_dir_entry ex_dir_two 1)
    ∧ (read_dir_entry ex_dir_two 1).filesize = 2048
    ∧ (usbd_msc_write_sect ex_validate ex_flash_ok ex_active 7 ex_dir_two
        1).1.file_transfer_state.amt_to_write = 2048
    ∧ (usbd_msc_write_sect ex_validate ex_flash_ok ex_unready 7 ex_dir_two
        1).1.file_transfer_state.amt_to_write = 4294967295 := by
  decide

/-! ## Unready device -/

/-- C17 (unready device): while `USBD_MSC_MediaReady` is false, `usbd_msc_write_sect`
returns the device as it was (every transfer-state field unchanged) and makes no call at
all (no flash call, no disconnect), and `usbd_msc_read_sect` returns the buffer as it was
and makes no call at all (no content regeneration, also for block 17), for every block,
buffer and block count. -/
theorem unready_device_ignores_calls (validate_bin_nvic : List Nat → Nat) (fl : FlashReturns)
    (fuel : Nat) (d : Device) (block : Nat) (buf : List Nat) (num_of_blocks : Nat)
    (hunready : d.USBD_MSC_MediaReady = false) :
    usbd_msc_write_sect validate_bin_nvic fl d block buf num_of_blocks = (d, [])
    ∧ usbd_msc_read_sect fuel d block buf num_of_blocks = .ok (buf, []) := by
  constructor
  · exact write_sect_not_ready validate_bin_nvic fl d block buf num_of_blocks hunready
  · simp [usbd_msc_read_sect, hunready]

/-- Witness of C17: the unready device with a transfer in progress ignores the write of the
write and the read of block 17. -/
theorem unready_device_ignores_calls_witness :
    usbd_msc_write_sect ex_validate ex_flash_ok ex_unready 17 ex_data 1 = (ex_unready, [])
    ∧ usbd_msc_read_sect 0 ex_unready 17 ex_data 1 = .ok (ex_data, []) :=
  unready_device_ignores_calls ex_validate ex_flash_ok 0 ex_unready 17 ex_data 1 (by decide)

/-! ## Contiguous blocks -/

/-- C18 as amended (contiguous write): on a ready device with a transfer in progress, a
write of `block = last_block_written + 1` (the 32-bit sum) with `block ≥ start_block` makes
exactly one flash call, `target_flash_program_page` with the offset
`(block - start_block) * BlockSize` taken modulo `2^32`, the buffer and the length
`BlockSize`; afterwards `amt_written` is the old value plus `BlockSize` taken modulo `2^32`
(the old value plus `BlockSize` when that is below `2^32`) and `last_block_written` equals
`block`. -/
theorem contiguous_block_is_programmed (validate_bin_nvic : List Nat → Nat) (fl : FlashReturns)
    (d : Device) (block : Nat) (buf : List Nat) (num_of_blocks : Nat)
    (hready : d.USBD_MSC_MediaReady = true)
    (hstarted : d.file_transfer_state.transfer_started = 1)
    (hnext : block = u32 (d.file_transfer_state.last_block_written + 1))
    (hge : block ≥ d.file_transfer_state.start_block) :
    flash_calls (usbd_msc_write_sect validate_bin_nvic fl d block buf num_of_blocks).2
        = [Event.target_flash_program_page
            (u32 (u32_sub block d.file_transfer_state.start_block * d.USBD_MSC_BlockSize))
            buf d.USBD_MSC_BlockSize]
    ∧ (usbd_msc_write_sect validate_bin_nvic fl d block buf num_of_blocks).1.file_transfer_state.amt_written
        = u32 (d.file_transfer_state.amt_written + d.USBD_MSC_BlockSize)
    ∧ (d.file_transfer_state.amt_written + d.USBD_MSC_BlockSize < 4294967296 →
        (usbd_msc_write_sect validate_bin_nvic fl d block buf num_of_blocks).1.file_transfer_state.amt_written
          = d.file_transfer_state.amt_written + d.USBD_MSC_BlockSize)
    ∧ (usbd_msc_write_sect validate_bin_nvic fl d block buf num_of_blocks).1.file_transfer_state.last_block_written
        = block := by
  have hstep := contiguous_call validate_bin_nvic fl d block buf num_of_blocks hready hstarted
    hge hnext
  generalize hA : (write_root_dir d.mbr d.USBD_MSC_BlockSize block buf
    d.file_transfer_state).amt_to_write = A at hstep
  generalize hs : file_transfer_state_t.mk d.file_transfer_state.start_block A
    (u32 (d.file_transfer_state.amt_written + d.USBD_MSC_BlockSize)) block 1
    d.file_transfer_state.file_type = s at hstep
  have hc := write_complete_fields s
  have hamt : (usbd_msc_write_sect validate_bin_nvic fl d block buf
      num_of_blocks).1.file_transfer_state.amt_written
      = u32 (d.file_transfer_state.amt_written + d.USBD_MSC_BlockSize) := by
    rw [hstep]
    show (write_complete s).1.amt_written = _
    rw [hc.2.2.1, ← hs]
  refine ⟨?_, hamt, fun hlt => by rw [hamt, u32_of_lt hlt], ?_⟩
  · rw [hstep]
    show flash_calls (Event.main_blink_msd_led 0 :: (_ ++ _)) = _
    rw [show ∀ l : List Event, Event.main_blink_msd_led 0 :: l
          = [Event.main_blink_msd_led 0] ++ l from fun l => rfl,
      flash_calls_append, flash_calls_append, flash_calls_append, flash_calls_write_complete,
      flash_calls_failure]
    simp [flash_calls]
  · rw [hstep]
    show (write_complete s).1.last_block_written = _
    rw [hc.2.2.2.1, ← hs]

/-- Witness of C18 as amended: blocks 10 and 11 are programmed; the write of block 12 is
programmed at offset 1024. -/
theorem contiguous_block_is_programmed_witness :
    flash_calls (usbd_msc_write_sect ex_validate ex_flash_ok ex_active 12 ex_data 1).2
        = [Event.target_flash_program_page
            (u32 (u32_sub 12 ex_active.file_transfer_state.start_block
              * ex_active.USBD_MSC_BlockSize))
            ex_data ex_active.USBD_MSC_BlockSize]
    ∧ (usbd_msc_write_sect ex_validate ex_flash_ok ex_active 12 ex_data 1).1.file_transfer_state.amt_written
        = u32 (ex_active.file_transfer_state.amt_written + ex_active.USBD_MSC_BlockSize)
    ∧ (ex_active.file_transfer_state.amt_written + ex_active.USBD_MSC_BlockSize < 4294967296 →
        (usbd_msc_write_sect ex_validate ex_flash_ok ex_active 12 ex_data 1).1.file_transfer_state.amt_written
          = ex_active.file_transfer_state.amt_written + ex_active.USBD_MSC_BlockSize)
    ∧ (usbd_msc_write_sect ex_validate ex_flash_ok ex_active 12 ex_data 1).1.file_transfer_state.last_block_written
        = 12 :=
  contiguous_block_is_programmed ex_validate ex_flash_ok ex_active 12 ex_data 1
    (by decide) (by decide) (by decide) (by decide)

/-- Counterexample to C18 as stated (block size 512).  First, the unready device with a
transfer in progress (start block 10, last block 11): the write of block 12 makes no call
and changes nothing.  Second, from the idle device, arming at block 9 and the contiguous
writes of blocks 10 to 8388615 leave `amt_written = 0xFFFFFE00`; the write of the next
block 8388616 then leaves `amt_written = 0`: the 32-bit count has wrapped around instead
of growing by `BlockSize`. -/
theorem contiguous_write_counterexample :
    (ex_unready.file_transfer_state.transfer_started = 1
      ∧ 12 = u32 (ex_unready.file_transfer_state.last_block_written + 1)
      ∧ 12 ≥ ex_unready.file_transfer_state.start_block
      ∧ usbd_msc_write_sect ex_validate ex_flash_ok ex_unready 12 ex_data 1 = (ex_unready, []))
    ∧ (write_calls ex_validate ex_idle
        ([⟨9, ex_firmware, 1, ex_flash_ok⟩]
          ++ contiguous_calls 9 (fun _ => ex_data) (fun _ => 1) (fun _ => ex_flash_ok)
              8388606)).1
      = ex_device ⟨9, 4294967295, 4294966784, 8388615, 1, .BIN⟩
    ∧ (usbd_msc_write_sect ex_validate ex_flash_ok
        (ex_device ⟨9, 4294967295, 4294966784, 8388615, 1, .BIN⟩) 8388616 ex_data
        1).1.file_transfer_state.amt_written = 0 := by
  refine ⟨by decide, ?_, by decide⟩
  have hroot : ∀ j : Nat, j < 8388606 → ¬ is_root_dir_sector ex_idle.mbr (9 + 1 + j) := by
    intro j _ h
    have h1 : root_dir_sector_1 ex_idle.mbr = 7 := by decide
    have h2 : root_dir_sector_2 ex_idle.mbr = 8 := by decide
    unfold is_root_dir_sector at h
    omega
  have harm := arming_call ex_validate ex_flash_ok ex_idle 9 ex_firmware 1 (by decide)
    (by decide) (by decide)
  have hrun := contiguous_run ex_validate
    (ex_device ⟨9, 4294967295, 512, 9, 1, .BIN⟩) 9 4294967295 512 9 .BIN
    (fun _ => ex_data) (fun _ => 1) (fun _ => ex_flash_ok) 8388606 rfl rfl (by norm_num)
    (by norm_num) (by show 512 + 8388606 * 512 < 4294967295; norm_num)
    (by show 512 + 8388606 * 512 < 4294967296; norm_num) hroot
    (fun _ _ => (by decide : ex_flash_ok.target_flash_program_page ≠ 0))
  have hd0 : ({ ex_idle with file_transfer_state :=
      { start_block := 9, amt_to_write := 4294967295,
        amt_written := ex_idle.USBD_MSC_BlockSize, last_block_written := 9,
        transfer_started := 1, file_type := .BIN } } : Device)
      = ex_device ⟨9, 4294967295, 512, 9, 1, .BIN⟩ := rfl
  rw [write_calls_append, write_calls_single, harm.1, hd0]
  rw [show ∀ (a : Device) (b : List Event), (a, b).1 = a from fun _ _ => rfl, hrun.1]
  have e1 : (512 : Nat) + 8388606 * 512 = 4294966784 := by norm_num
  have e2 : (9 : Nat) + 8388606 = 8388615 := by norm_num
  show ex_device ⟨9, 4294967295, 512 + 8388606 * 512, 9 + 8388606, 1, .BIN⟩ = _
  rw [e1, e2]

/-! ## Flash failures -/

/-- C19 (flash failure forces a disconnect): in every call of `usbd_msc_write_sect`, if
`target_flash_init` is called and returns 0, or `target_flash_program_page` is called and
returns 0, then `main_usb_disconnect_event` is signalled at least once in that call; and if
every flash call made in the call succeeds and the call does not retire the transfer
(`transfer_started` does not go from 1 to 0), the call signals no disconnect. -/
theorem flash_failure_signals_disconnect (validate_bin_nvic : List Nat → Nat)
    (fl : FlashReturns) (d : Device) (block : Nat) (buf : List Nat) (num_of_blocks : Nat) :
    (((Event.target_flash_init
          ∈ (usbd_msc_write_sect validate_bin_nvic fl d block buf num_of_blocks).2
        ∧ fl.target_flash_init = 0)
      ∨ ((∃ adr b n, Event.target_flash_program_page adr b n
            ∈ (usbd_msc_write_sect validate_bin_nvic fl d block buf num_of_blocks).2)
        ∧ fl.target_flash_program_page = 0)) →
      1 ≤ disconnect_count (usbd_msc_write_sect validate_bin_nvic fl d block buf num_of_blocks).2)
    ∧ ((Event.target_flash_init
          ∈ (usbd_msc_write_sect validate_bin_nvic fl d block buf num_of_blocks).2 →
        fl.target_flash_init ≠ 0) →
      ((∃ adr b n, Event.target_flash_program_page adr b n
          ∈ (usbd_msc_write_sect validate_bin_nvic fl d block buf num_of_blocks).2) →
        fl.target_flash_program_page ≠ 0) →
      ¬ (d.file_transfer_state.transfer_started = 1
        ∧ (usbd_msc_write_sect validate_bin_nvic fl d block buf num_of_blocks).1.file_transfer_state.transfer_started
            = 0) →
      disconnect_count (usbd_msc_write_sect validate_bin_nvic fl d block buf num_of_blocks).2
        = 0) := by
  by_cases hready : d.USBD_MSC_MediaReady = true
  · by_cases harm : validate_bin_nvic buf = 1 ∧ d.file_transfer_state.transfer_started = 0
    · obtain ⟨_, he⟩ := arming_call validate_bin_nvic fl d block buf num_of_blocks hready
        harm.2 harm.1
      rw [he]
      constructor
      · rintro (⟨_, h0⟩ | ⟨_, h0⟩) <;> simp [disconnect_count, h0]
      · intro hi hp _
        have hi' : fl.target_flash_init ≠ 0 := hi (by simp)
        have hp' : fl.target_flash_program_page ≠ 0 := hp ⟨0, buf, d.USBD_MSC_BlockSize, by simp⟩
        simp [disconnect_count, hi', hp']
    · rw [write_sect_no_arm validate_bin_nvic fl d block buf num_of_blocks hready harm]
      have hr := write_root_dir_fields d.mbr d.USBD_MSC_BlockSize block buf
        d.file_transfer_state
      generalize write_root_dir d.mbr d.USBD_MSC_BlockSize block buf d.file_transfer_state
        = s1 at hr
      obtain ⟨_, _, _, hst, _⟩ := hr
      unfold write_data write_complete
      constructor
      · rintro (⟨hm, _⟩ | ⟨_, h0⟩)
        · exfalso
          revert hm
          split_ifs <;> simp
        · split_ifs at * <;> simp_all [disconnect_count]
      · intro _ hp hnc
        split_ifs at * <;> simp_all [disconnect_count]
  · have hnr : d.USBD_MSC_MediaReady = false := by simpa using hready
    rw [write_sect_not_ready validate_bin_nvic fl d block buf num_of_blocks hnr]
    simp [disconnect_count]

/-- Witness of C19: the arming write of block 10 in which `target_flash_init` returns 0
signals a disconnect; the write of the next block 12 with every flash call succeeding and
the size still unknown signals none. -/
theorem flash_failure_signals_disconnect_witness :
    1 ≤ disconnect_count
        (usbd_msc_write_sect ex_validate ex_flash_init_fails ex_idle 10 ex_firmware 1).2
    ∧ disconnect_count (usbd_msc_write_sect ex_validate ex_flash_ok ex_active 12 ex_data 1).2
        = 0 :=
  ⟨(flash_failure_signals_disconnect ex_validate ex_flash_init_fails ex_idle 10 ex_firmware
      1).1 (Or.inl ⟨by decide, by decide⟩),
    (flash_failure_signals_disconnect ex_validate ex_flash_ok ex_active 12 ex_data 1).2
      (fun _ => by decide) (fun _ => by decide) (by decide)⟩

/-! ## The unknown size -/

/-- C20 (UNKNOWN compares as not yet reached): on a ready idle device whose block size is a
power of two `2^p` with `1 ≤ p ≤ 31`, after the arming write of block `S`, every sequence
of write calls none of which writes a qualifying directory record (of any length, for any
blocks and any flash results) leaves `amt_to_write = 0xffffffff` and the transfer in
progress (`transfer_started = 1`), with `amt_written` a multiple of the block size; and
when no flash call fails, no `main_usb_disconnect_event` is signalled in the whole
sequence. -/
theorem unknown_size_is_never_reached (validate_bin_nvic : List Nat → Nat) (d : Device)
    (p S : Nat) (b0 : List Nat) (n0 : Nat) (fl0 : FlashReturns) (calls : List WriteCall)
    (hready : d.USBD_MSC_MediaReady = true)
    (hidle : d.file_transfer_state.transfer_started = 0)
    (hp1 : 1 ≤ p) (hp : p ≤ 31) (hbs : d.USBD_MSC_BlockSize = 2 ^ p)
    (hv0 : validate_bin_nvic b0 = 1)
    (hnq : ∀ c ∈ calls, no_qualifying_write d.mbr d.USBD_MSC_BlockSize c) :
    (write_calls validate_bin_nvic d (⟨S, b0, n0, fl0⟩ :: calls)).1.file_transfer_state.transfer_started
        = 1
    ∧ (write_calls validate_bin_nvic d (⟨S, b0, n0, fl0⟩ :: calls)).1.file_transfer_state.amt_to_write
        = 4294967295
    ∧ (write_calls validate_bin_nvic d (⟨S, b0, n0, fl0⟩ :: calls)).1.file_transfer_state.amt_written
        % d.USBD_MSC_BlockSize = 0
    ∧ (fl0.target_flash_init ≠ 0 → fl0.target_flash_program_page ≠ 0 →
        (∀ c ∈ calls, c.fl.target_flash_program_page ≠ 0) →
        disconnect_count (write_calls validate_bin_nvic d (⟨S, b0, n0, fl0⟩ :: calls)).2 = 0) := by
  obtain ⟨hd0, he0⟩ := arming_call validate_bin_nvic fl0 d S b0 n0 hready hidle hv0
  have hlt : (2 : Nat) ^ p < 4294967296 := by
    have h : (4294967296 : Nat) = 2 ^ 32 := by norm_num
    rw [h]
    exact Nat.pow_lt_pow_right (by norm_num) (by omega)
  have hinv : size_unknown p (usbd_msc_write_sect validate_bin_nvic fl0 d S b0 n0).1 := by
    rw [hd0]
    exact ⟨hready, hp1, hp, hbs, rfl, rfl, Nat.mod_self _, by show d.USBD_MSC_BlockSize < _; omega⟩
  obtain ⟨⟨_, _, _, hbs', hst, hto, hmul, _⟩, hdis⟩ := size_unknown_run validate_bin_nvic p d.mbr
    d.USBD_MSC_BlockSize calls (usbd_msc_write_sect validate_bin_nvic fl0 d S b0 n0).1 hinv
    (by rw [hd0]) (by rw [hd0]) hnq
  have hbs'' : (write_calls validate_bin_nvic
      (usbd_msc_write_sect validate_bin_nvic fl0 d S b0 n0).1 calls).1.USBD_MSC_BlockSize
      = d.USBD_MSC_BlockSize := by rw [hbs', hbs]
  refine ⟨hst, hto, by rw [← hbs'']; exact hmul, ?_⟩
  intro hi hpg hfl
  show disconnect_count (_ ++ _) = 0
  rw [disconnect_count_append, hdis hfl, he0]
  simp [disconnect_count, hi, hpg]

/-- Witness of C20: block size 512; after arming at block 10, the writes of blocks 11, 12,
40 and of the root-directory sector 7 with a zero-size record leave the transfer in
progress and signal no disconnect. -/
theorem unknown_size_is_never_reached_witness :
    (write_calls ex_validate ex_idle
        (⟨10, ex_firmware, 1, ex_flash_ok⟩ ::
          [⟨11, ex_data, 1, ex_flash_ok⟩, ⟨12, ex_data, 1, ex_flash_ok⟩,
            ⟨40, ex_data, 1, ex_flash_ok⟩,
            ⟨7, ex_dir 0, 1, ex_flash_ok⟩])).1.file_transfer_state.transfer_started = 1
    ∧ (write_calls ex_validate ex_idle
        (⟨10, ex_firmware, 1, ex_flash_ok⟩ ::
          [⟨11, ex_data, 1, ex_flash_ok⟩, ⟨12, ex_data, 1, ex_flash_ok⟩,
            ⟨40, ex_data, 1, ex_flash_ok⟩,
            ⟨7, ex_dir 0, 1, ex_flash_ok⟩])).1.file_transfer_state.amt_to_write = 4294967295
    ∧ (write_calls ex_validate ex_idle
        (⟨10, ex_firmware, 1, ex_flash_ok⟩ ::
          [⟨11, ex_data, 1, ex_flash_ok⟩, ⟨12, ex_data, 1, ex_flash_ok⟩,
            ⟨40, ex_data, 1, ex_flash_ok⟩,
            ⟨7, ex_dir 0, 1, ex_flash_ok⟩])).1.file_transfer_state.amt_written
        % ex_idle.USBD_MSC_BlockSize = 0
    ∧ (ex_flash_ok.target_flash_init ≠ 0 → ex_flash_ok.target_flash_program_page ≠ 0 →
        (∀ c ∈ [(⟨11, ex_data, 1, ex_flash_ok⟩ : WriteCall), ⟨12, ex_data, 1, ex_flash_ok⟩,
            ⟨40, ex_data, 1, ex_flash_ok⟩, ⟨7, ex_dir 0, 1, ex_flash_ok⟩],
          c.fl.target_flash_program_page ≠ 0) →
        disconnect_count (write_calls ex_validate ex_idle
          (⟨10, ex_firmware, 1, ex_flash_ok⟩ ::
            [⟨11, ex_data, 1, ex_flash_ok⟩, ⟨12, ex_data, 1, ex_flash_ok⟩,
              ⟨40, ex_data, 1, ex_flash_ok⟩, ⟨7, ex_dir 0, 1, ex_flash_ok⟩])).2 = 0) :=
  unknown_size_is_never_reached ex_validate ex_idle 9 10 ex_firmware 1 ex_flash_ok
    [⟨11, ex_data, 1, ex_flash_ok⟩, ⟨12, ex_data, 1, ex_flash_ok⟩,
      ⟨40, ex_data, 1, ex_flash_ok⟩, ⟨7, ex_dir 0, 1, ex_flash_ok⟩]
    (by decide) (by decide) (by decide) (by decide) (by decide) (by decide)
    (by
      intro c hc
      simp only [List.mem_cons, List.mem_singleton, List.not_mem_nil, or_false] at hc
      rcases hc with rfl | rfl | rfl | rfl
      · exact Or.inl (by decide)
      · exact Or.inl (by decide)
      · exact Or.inl (by decide)
      · exact Or.inr (by decide))

/-! ## Invariants of the transfer state -/

/-- C21 (the start block is never reprocessed): in every state reached from the initial
transfer state by calls of `usbd_msc_write_sect` in which a transfer is in progress,
`start_block ≤ last_block_written`; so, while `last_block_written < 0xffffffff`, a further
write of a block equal to `start_block` or below it makes no flash call and leaves
`amt_written` and `last_block_written` as they are. -/
theorem start_block_never_reprocessed (validate_bin_nvic : List Nat → Nat) (d0 : Device)
    (calls : List WriteCall) (fl : FlashReturns) (block : Nat) (buf : List Nat)
    (num_of_blocks : Nat)
    (hinit : d0.file_transfer_state = file_transfer_state_init)
    (hstarted : (write_calls validate_bin_nvic d0 calls).1.file_transfer_state.transfer_started
      = 1)
    (hlast : (write_calls validate_bin_nvic d0 calls).1.file_transfer_state.last_block_written
      < 4294967295)
    (hblock : block
      ≤ (write_calls validate_bin_nvic d0 calls).1.file_transfer_state.start_block) :
    (write_calls validate_bin_nvic d0 calls).1.file_transfer_state.start_block
        ≤ (write_calls validate_bin_nvic d0 calls).1.file_transfer_state.last_block_written
    ∧ flash_calls (usbd_msc_write_sect validate_bin_nvic fl
        (write_calls validate_bin_nvic d0 calls).1 block buf num_of_blocks).2 = []
    ∧ (usbd_msc_write_sect validate_bin_nvic fl (write_calls validate_bin_nvic d0 calls).1
        block buf num_of_blocks).1.file_transfer_state.amt_written
      = (write_calls validate_bin_nvic d0 calls).1.file_transfer_state.amt_written
    ∧ (usbd_msc_write_sect validate_bin_nvic fl (write_calls validate_bin_nvic d0 calls).1
        block buf num_of_blocks).1.file_transfer_state.last_block_written
      = (write_calls validate_bin_nvic d0 calls).1.file_transfer_state.last_block_written := by
  have hle := start_le_last_of_init validate_bin_nvic d0 calls hinit hstarted
  have hne : block ≠ u32
      ((write_calls validate_bin_nvic d0 calls).1.file_transfer_state.last_block_written + 1) := by
    rw [u32_of_lt (by omega)]
    omega
  have h := out_of_order_call validate_bin_nvic fl (write_calls validate_bin_nvic d0 calls).1
    block buf num_of_blocks hstarted hne
  exact ⟨hle, h.1, h.2.1, h.2.2.1⟩

/-- Witness of C21: from the idle example device, the transfer armed at block 10 and
continued with block 11; the start block 10 is written again. -/
theorem start_block_never_reprocessed_witness :
    (write_calls ex_validate ex_idle
        [⟨10, ex_firmware, 1, ex_flash_ok⟩, ⟨11, ex_data, 1, ex_flash_ok⟩]).1.file_transfer_state.start_block
        ≤ (write_calls ex_validate ex_idle
        [⟨10, ex_firmware, 1, ex_flash_ok⟩, ⟨11, ex_data, 1, ex_flash_ok⟩]).1.file_transfer_state.last_block_written
    ∧ flash_calls (usbd_msc_write_sect ex_validate ex_flash_ok
        (write_calls ex_validate ex_idle
          [⟨10, ex_firmware, 1, ex_flash_ok⟩, ⟨11, ex_data, 1, ex_flash_ok⟩]).1 10 ex_data 1).2 = []
    ∧ (usbd_msc_write_sect ex_validate ex_flash_ok (write_calls ex_validate ex_idle
          [⟨10, ex_firmware, 1, ex_flash_ok⟩, ⟨11, ex_data, 1, ex_flash_ok⟩]).1
        10 ex_data 1).1.file_transfer_state.amt_written
      = (write_calls ex_validate ex_idle
          [⟨10, ex_firmware, 1, ex_flash_ok⟩, ⟨11, ex_data, 1, ex_flash_ok⟩]).1.file_transfer_state.amt_written
    ∧ (usbd_msc_write_sect ex_validate ex_flash_ok (write_calls ex_validate ex_idle
          [⟨10, ex_firmware, 1, ex_flash_ok⟩, ⟨11, ex_data, 1, ex_flash_ok⟩]).1
        10 ex_data 1).1.file_transfer_state.last_block_written
      = (write_calls ex_validate ex_idle
          [⟨10, ex_firmware, 1, ex_flash_ok⟩, ⟨11, ex_data, 1, ex_flash_ok⟩]).1.file_transfer_state.last_block_written :=
  start_block_never_reprocessed ex_validate ex_idle
    [⟨10, ex_firmware, 1, ex_flash_ok⟩, ⟨11, ex_data, 1, ex_flash_ok⟩] ex_flash_ok 10 ex_data 1
    (by decide) (by decide) (by decide) (by decide)

/-! ## Initialisation -/

/-- C22 (geometry after initialisation): for every geometry `m` left by `virtual_fs_init`
with `bytes_per_sector > 0` (a value of at most 32 bits) whose product
`bytes_per_sector * total_logical_sectors` fits in 32 bits, `usbd_msc_init` leaves
`BlockSize = bytes_per_sector`, `BlockCount = total_logical_sectors`,
`MemorySize = BlockSize * BlockCount` and `BlockGroup = 1`, and marks the device ready. -/
theorem geometry_after_init
    (virtual_fs_init : mbr_t × List fs_entry_t → mbr_t × List fs_entry_t) (d : Device)
    (hpos : 0 < (virtual_fs_init (d.mbr, d.fs)).1.bytes_per_sector)
    (htyped : (virtual_fs_init (d.mbr, d.fs)).1.bytes_per_sector < 4294967296)
    (hfit : (virtual_fs_init (d.mbr, d.fs)).1.bytes_per_sector
      * (virtual_fs_init (d.mbr, d.fs)).1.total_logical_sectors < 4294967296) :
    (usbd_msc_init virtual_fs_init d).USBD_MSC_BlockSize
        = (virtual_fs_init (d.mbr, d.fs)).1.bytes_per_sector
    ∧ (usbd_msc_init virtual_fs_init d).USBD_MSC_BlockCount
        = (virtual_fs_init (d.mbr, d.fs)).1.total_logical_sectors
    ∧ (usbd_msc_init virtual_fs_init d).USBD_MSC_MemorySize
        = (usbd_msc_init virtual_fs_init d).USBD_MSC_BlockSize
          * (usbd_msc_init virtual_fs_init d).USBD_MSC_BlockCount
    ∧ (usbd_msc_init virtual_fs_init d).USBD_MSC_BlockGroup = 1
    ∧ (usbd_msc_init virtual_fs_init d).USBD_MSC_MediaReady = true := by
  have hbs : (usbd_msc_init virtual_fs_init d).USBD_MSC_BlockSize
      = (virtual_fs_init (d.mbr, d.fs)).1.bytes_per_sector := by
    show u32 _ = _
    exact u32_of_lt htyped
  have hcount : (usbd_msc_init virtual_fs_init d).USBD_MSC_BlockCount
      = (virtual_fs_init (d.mbr, d.fs)).1.total_logical_sectors := by
    show u32 _ / u32 _ = _
    rw [u32_of_lt htyped, u32_of_lt hfit]
    exact Nat.mul_div_cancel_left _ hpos
  refine ⟨hbs, hcount, ?_, rfl, rfl⟩
  rw [hbs, hcount]
  show u32 _ = _
  exact u32_of_lt hfit

/-- Witness of C22: the geometry of 512-byte sectors and 4096 sectors. -/
theorem geometry_after_init_witness :
    (usbd_msc_init id ex_unready).USBD_MSC_BlockSize
        = (id (ex_unready.mbr, ex_unready.fs)).1.bytes_per_sector
    ∧ (usbd_msc_init id ex_unready).USBD_MSC_BlockCount
        = (id (ex_unready.mbr, ex_unready.fs)).1.total_logical_sectors
    ∧ (usbd_msc_init id ex_unready).USBD_MSC_MemorySize
        = (usbd_msc_init id ex_unready).USBD_MSC_BlockSize
          * (usbd_msc_init id ex_unready).USBD_MSC_BlockCount
    ∧ (usbd_msc_init id ex_unready).USBD_MSC_BlockGroup = 1
    ∧ (usbd_msc_init id ex_unready).USBD_MSC_MediaReady = true :=
  geometry_after_init id ex_unready (by decide) (by decide) (by decide)

/-! ## Reads at the start of an entry -/

/-- C23 as amended (read at the start of an entry): on a ready device, for every sector
table and every block whose byte address `block * BlockSize` equals the start offset of an
entry of index `j ≤ 255` that is not the last entry of the table, has non-null content and
a non-zero length, is preceded by entries of non-zero length only and ends below `2^32`,
`usbd_msc_read_sect` returns (for every fuel of at least `j + 2`) and copies the entry's
content from its first byte, `num_of_blocks * BlockSize` bytes (as a 32-bit value) starting
at `content[0]`, provided the content holds that many bytes. -/
theorem read_at_entry_start (fuel : Nat) (d : Device) (block : Nat) (buf : List Nat)
    (num_of_blocks j : Nat) (ej : fs_entry_t) (content : List Nat)
    (hready : d.USBD_MSC_MediaReady = true)
    (hj255 : j ≤ 255)
    (hnext : j + 1 < d.fs.length)
    (hnz : ∀ e ∈ d.fs.take j, e.length ≠ 0)
    (hj : d.fs[j]? = some ej) (hcontent : ej.sect = some content) (hlen : ej.length ≠ 0)
    (haddr : block * d.USBD_MSC_BlockSize = table_span d.fs j)
    (htot : table_span d.fs (j + 1) < 4294967296)
    (hfit : u32 (num_of_blocks * d.USBD_MSC_BlockSize) ≤ content.length)
    (hfuel : j + 2 ≤ fuel) :
    usbd_msc_read_sect fuel d block buf num_of_blocks
      = .ok (store_bytes buf (content.take (u32 (num_of_blocks * d.USBD_MSC_BlockSize)))
              (u32 (num_of_blocks * d.USBD_MSC_BlockSize)),
            Event.main_blink_msd_led 0 ::
              (if block = 17 then [Event.update_html_file] else [])) := by
  have hle : table_span d.fs j ≤ table_span d.fs (j + 1) := table_span_mono d.fs (by omega)
  have hreq : u32 (block * d.USBD_MSC_BlockSize) = table_span d.fs j := by
    rw [haddr]; exact u32_of_lt (by omega)
  have h0 : table_span d.fs 0 = 0 := by simp [table_span]
  obtain ⟨f, rfl⟩ : ∃ f, fuel = f + 2 + j := ⟨fuel - (j + 2), by omega⟩
  have hskip := read_walk_skip d.fs (table_span d.fs j) j hj255 (by omega) hnz (Nat.le_refl _)
    (by omega) j 0 (f + 2) (by omega)
  have hsel := read_walk_select d.fs j f ej content hj hcontent hlen hnext htot
  have hwalk : read_walk d.fs (table_span d.fs j) (f + 2 + j) read_walk_init
      = .ok { fs_read_sect := some content, max_known_fs_entry_addr := table_span d.fs (j + 1),
              req_sector_offset := 0, i := u8 (j + 1), real_data_present := 1 } := by
    rw [← hsel, ← hskip, h0]
    rfl
  unfold usbd_msc_read_sect
  simp only [hready, hreq, Bool.true_eq_false, if_false, hwalk, if_true, Nat.zero_add, hfit,
    List.drop_zero]

/-- Witness of C23 as amended: the table `[(A,4),(B,2)]` with block size 1, `A` holding the
bytes 11..14 and `B` the bytes 21 and 22; block 0 is the start of `A` and reads as `A[0]`,
block 4 is the start of `B` and reads as `B[0]`. -/
theorem read_at_entry_start_witness :
    usbd_msc_read_sect 3 (ex_byte_device_of ex_table_ab) 0 [0] 1
        = .ok ([11], [Event.main_blink_msd_led 0])
    ∧ usbd_msc_read_sect 3 (ex_byte_device_of ex_table_ab) 4 [0] 1
        = .ok ([21], [Event.main_blink_msd_led 0]) :=
  ⟨read_at_entry_start 3 (ex_byte_device_of ex_table_ab) 0 [0] 1 0
      { sect := some [11, 12, 13, 14], length := 4 } [11, 12, 13, 14]
      (by decide) (by decide) (by decide) (by decide) (by decide) (by decide) (by decide)
      (by decide) (by decide) (by decide) (by decide),
   read_at_entry_start 3 (ex_byte_device_of ex_table_ab) 4 [0] 1 1
      { sect := some [21, 22], length := 2 } [21, 22]
      (by decide) (by decide) (by decide) (by decide) (by decide) (by decide) (by decide)
      (by decide) (by decide) (by decide) (by decide)⟩

/-- Counterexample to C23 as stated: block size 1 and a table of 256 one-byte entries that
hold the byte 7, followed by a one-byte entry that holds the byte 9 (index 256, start offset
256) and the sentinel.  Block 256 is the start of that entry, but the 8-bit entry index
wraps around after entry 255 and entry 0 is selected on the second pass: the read returns
the byte 7, not the byte 9. -/
theorem read_at_entry_start_counterexample :
    table_span ex_wrap_table 256 = 256
    ∧ ex_wrap_table[256]? = some { sect := some [9], length := 1 }
    ∧ usbd_msc_read_sect 300 (ex_byte_device_of ex_wrap_table) 256 [0] 1
        = .ok ([7], [Event.main_blink_msd_led 0]) :=
  ⟨by decide, by decide, by rfl⟩

/-! ## The sentinel -/

/-- C24 (the sentinel terminates the table walk): for every sector table with a zero-length
entry at an index `k ≤ 255` and every block, the walk of `usbd_msc_read_sect` ends (for
every fuel above `k`) at an index that is not above `k`; and a device whose table `fs2`
agrees with the table on the entries `0..k` gives the same result of `usbd_msc_read_sect`
for the block, whatever entries follow the sentinel in either table. -/
theorem sentinel_terminates_walk (fuel : Nat) (d : Device) (fs2 : List fs_entry_t)
    (block : Nat) (buf : List Nat) (num_of_blocks k : Nat) (e0 : fs_entry_t)
    (hk : k ≤ 255) (hsent : d.fs[k]? = some e0) (hzero : e0.length = 0)
    (hagree : ∀ i, i ≤ k → fs2[i]? = d.fs[i]?)
    (hfuel : k + 1 ≤ fuel) :
    (∃ w, read_walk d.fs (u32 (block * d.USBD_MSC_BlockSize)) fuel read_walk_init = .ok w
        ∧ w.i ≤ k)
    ∧ usbd_msc_read_sect fuel { d with fs := fs2 } block buf num_of_blocks
        = usbd_msc_read_sect fuel d block buf num_of_blocks := by
  refine ⟨read_walk_terminates d.fs _ k e0 hk hsent hzero k read_walk_init fuel
    (by simp [read_walk_init]) hfuel, ?_⟩
  have hw := read_walk_agree d.fs fs2 (u32 (block * d.USBD_MSC_BlockSize)) k e0 hk hsent hzero
    hagree fuel read_walk_init (Nat.zero_le k)
  unfold usbd_msc_read_sect
  simp only [hw]

/-- Witness of C24: the table `[(A,4),(B,2)]` with its sentinel at index 2, and the same
table with a four-byte entry after the sentinel; block 6, where that entry would start,
reads alike from both. -/
theorem sentinel_terminates_walk_witness :
    (∃ w, read_walk (ex_byte_device_of ex_table_ab).fs
          (u32 (6 * (ex_byte_device_of ex_table_ab).USBD_MSC_BlockSize)) 3 read_walk_init = .ok w
        ∧ w.i ≤ 2)
    ∧ usbd_msc_read_sect 3 { ex_byte_device_of ex_table_ab with fs := ex_table_ab_more } 6 [5] 1
        = usbd_msc_read_sect 3 (ex_byte_device_of ex_table_ab) 6 [5] 1 :=
  sentinel_terminates_walk 3 (ex_byte_device_of ex_table_ab) ex_table_ab_more 6 [5] 1 2
    { sect := none, length := 0 } (by decide) (by decide) (by decide) (by decide) (by decide)

/-! ## Re-delivery of a directory sector -/

/-- C25 (directory re-delivery is idempotent): for every device and transfer state and every
root-directory-sector write whose data `validate_bin_nvic` does not accept, the same write
(same block, same data) made a second time leaves the device, and so the transfer state,
as the first write left it, whatever the flash driver returns in either call. -/
theorem directory_redelivery_is_idempotent (validate_bin_nvic : List Nat → Nat)
    (fl1 fl2 : FlashReturns) (d : Device) (block : Nat) (buf : List Nat) (n1 n2 : Nat)
    (hroot : is_root_dir_sector d.mbr block)
    (hv : validate_bin_nvic buf ≠ 1) :
    (usbd_msc_write_sect validate_bin_nvic fl2
        (usbd_msc_write_sect validate_bin_nvic fl1 d block buf n1).1 block buf n2).1
      = (usbd_msc_write_sect validate_bin_nvic fl1 d block buf n1).1 :=
  write_sect_twice validate_bin_nvic fl1 fl2 d block buf n1 n2 hv

/-- Witness of C25: with a transfer in progress, the directory sector 7 declaring 4096 bytes
delivered twice. -/
theorem directory_redelivery_is_idempotent_witness :
    (usbd_msc_write_sect ex_validate ex_flash_ok
        (usbd_msc_write_sect ex_validate ex_flash_ok ex_active 7 (ex_dir 4096) 1).1 7
        (ex_dir 4096) 1).1
      = (usbd_msc_write_sect ex_validate ex_flash_ok ex_active 7 (ex_dir 4096) 1).1 :=
  directory_redelivery_is_idempotent ex_validate ex_flash_ok ex_flash_ok ex_active 7
    (ex_dir 4096) 1 1 (by decide) (by decide)

/-! ## Completion -/

/-- C26 (completion is never left pending): in every state reached from the initial
transfer state by calls of `usbd_msc_write_sect`, on a device whose block size is below
`0xffffffff`, it is not the case that `transfer_started = 1` and
`amt_written ≥ amt_to_write`: a transfer whose byte count has reached the expected size has
been retired by the call that made it so. -/
theorem completion_never_left_pending (validate_bin_nvic : List Nat → Nat) (d0 : Device)
    (calls : List WriteCall)
    (hinit : d0.file_transfer_state = file_transfer_state_init)
    (hbs : d0.USBD_MSC_BlockSize < 4294967295) :
    ¬ ((write_calls validate_bin_nvic d0 calls).1.file_transfer_state.transfer_started = 1
      ∧ (write_calls validate_bin_nvic d0 calls).1.file_transfer_state.amt_written
        ≥ (write_calls validate_bin_nvic d0 calls).1.file_transfer_state.amt_to_write) :=
  (write_calls_induction validate_bin_nvic
    (fun x => x.USBD_MSC_BlockSize = d0.USBD_MSC_BlockSize
      ∧ ¬ (x.file_transfer_state.transfer_started = 1
        ∧ x.file_transfer_state.amt_written ≥ x.file_transfer_state.amt_to_write))
    (fun x c h =>
      ⟨(write_sect_globals validate_bin_nvic c.fl x c.block c.buf c.num_of_blocks).1.trans h.1,
        not_pending_step validate_bin_nvic c.fl x c.block c.buf c.num_of_blocks
          (by rw [h.1]; exact hbs) h.2⟩)
    calls d0 ⟨rfl, fun h => by rw [hinit] at h; exact absurd h.1 (by decide)⟩).2

/-- Witness of C26: from the idle example device, a transfer armed at block 10, the
directory sector declaring 1024 bytes, and block 11, which completes the transfer. -/
theorem completion_never_left_pending_witness :
    ¬ ((write_calls ex_validate ex_idle
          [⟨10, ex_firmware, 1, ex_flash_ok⟩, ⟨7, ex_dir 1024, 1, ex_flash_ok⟩,
           ⟨11, ex_data, 1, ex_flash_ok⟩]).1.file_transfer_state.transfer_started = 1
      ∧ (write_calls ex_validate ex_idle
          [⟨10, ex_firmware, 1, ex_flash_ok⟩, ⟨7, ex_dir 1024, 1, ex_flash_ok⟩,
           ⟨11, ex_data, 1, ex_flash_ok⟩]).1.file_transfer_state.amt_written
        ≥ (write_calls ex_validate ex_idle
          [⟨10, ex_firmware, 1, ex_flash_ok⟩, ⟨7, ex_dir 1024, 1, ex_flash_ok⟩,
           ⟨11, ex_data, 1, ex_flash_ok⟩]).1.file_transfer_state.amt_to_write) :=
  completion_never_left_pending ex_validate ex_idle
    [⟨10, ex_firmware, 1, ex_flash_ok⟩, ⟨7, ex_dir 1024, 1, ex_flash_ok⟩,
     ⟨11, ex_data, 1, ex_flash_ok⟩] (by decide) (by decide)

/-! ## The flash offsets of a transfer -/

/-- C27, amended (flash offsets are sequential modulo 2^32): for a device with a 32-bit
block size and every state `d` reached from the initial transfer state by calls of
`usbd_msc_write_sect`:
with a transfer in progress, `amt_written = (last_block_written - start_block + 1) *
BlockSize` modulo 2^32; a contiguous block written in that state is programmed at the flash
offset `amt_written` the state holds before the call; and when `d` is idle and ready, the
offsets passed to `target_flash_program_page` by an arming call `c` and the calls `cs` that
follow it while the transfer stays in progress are `0, BlockSize, 2 * BlockSize, ...`
reduced modulo 2^32, without a gap, and without a repeat as long as the block size is
non-zero and the number of programmed blocks times the block size does not exceed 2^32. -/
theorem flash_offsets_are_sequential (validate_bin_nvic : List Nat → Nat) (d0 d : Device)
    (pre : List WriteCall) (c : WriteCall) (cs : List WriteCall)
    (hinit : d0.file_transfer_state = file_transfer_state_init)
    (htyped : d0.USBD_MSC_BlockSize < 4294967296)
    (hd : d = (write_calls validate_bin_nvic d0 pre).1) :
    (d.file_transfer_state.transfer_started = 1 →
      d.file_transfer_state.amt_written
        = u32 ((d.file_transfer_state.last_block_written - d.file_transfer_state.start_block + 1)
            * d.USBD_MSC_BlockSize))
    ∧ (d.USBD_MSC_MediaReady = true → d.file_transfer_state.transfer_started = 1 →
        c.block ≥ d.file_transfer_state.start_block →
        c.block = u32 (d.file_transfer_state.last_block_written + 1) →
        flash_calls (usbd_msc_write_sect validate_bin_nvic c.fl d c.block c.buf
            c.num_of_blocks).2
          = [Event.target_flash_program_page d.file_transfer_state.amt_written c.buf
              d.USBD_MSC_BlockSize])
    ∧ (d.USBD_MSC_MediaReady = true → d.file_transfer_state.transfer_started = 0 →
        validate_bin_nvic c.buf = 1 →
        (∀ k, k ≤ cs.length →
          (write_calls validate_bin_nvic d (c :: cs.take k)).1.file_transfer_state.transfer_started
            = 1) →
        program_offsets (write_calls validate_bin_nvic d (c :: cs)).2
            = (List.range (program_offsets
                  (write_calls validate_bin_nvic d (c :: cs)).2).length).map
                (fun i => u32 (i * d.USBD_MSC_BlockSize))
          ∧ (0 < d.USBD_MSC_BlockSize →
              (program_offsets (write_calls validate_bin_nvic d (c :: cs)).2).length
                * d.USBD_MSC_BlockSize ≤ 4294967296 →
              (program_offsets (write_calls validate_bin_nvic d (c :: cs)).2).Nodup)) := by
  have hbs : d.USBD_MSC_BlockSize = d0.USBD_MSC_BlockSize := by
    rw [hd]; exact (write_calls_globals validate_bin_nvic d0 pre).1
  have hinv : d.file_transfer_state.transfer_started = 1 →
      d.file_transfer_state.start_block ≤ d.file_transfer_state.last_block_written
      ∧ d.file_transfer_state.amt_written
        = u32 ((d.file_transfer_state.last_block_written - d.file_transfer_state.start_block + 1)
            * d.USBD_MSC_BlockSize) := by
    intro hst
    rw [hbs]
    subst hd
    exact amount_of_init validate_bin_nvic d0 pre hinit htyped hst
  refine ⟨fun hst => (hinv hst).2, ?_, ?_⟩
  · intro hready hst hge hnext
    obtain ⟨hle, hw⟩ := hinv hst
    rw [flash_calls_write_sect_started validate_bin_nvic c.fl d c.block c.buf c.num_of_blocks
      hready (by simp [hst])]
    have hr := write_root_dir_fields d.mbr d.USBD_MSC_BlockSize c.block c.buf
      d.file_transfer_state
    rw [write_data_of_next c.fl d.USBD_MSC_BlockSize c.block c.buf _ (by rw [hr.2.2.2.1]; exact hst)
      (by rw [hr.1]; exact hge) (by rw [hr.2.2.1]; exact hnext), hr.1,
      contiguous_offset d c.block hle hw hge hnext]
    split_ifs <;> simp [flash_calls]
  · intro hready hidle hv hstay
    exact transfer_offsets validate_bin_nvic d c cs (by rw [hbs]; exact htyped) hready hidle hv
      hstay

/-- Witness of C27: on the example device (block size 512), the state after arming at block
10 and writing block 11, in which block 12 is written; and the transfer made of the arming
write of block 10 followed by the writes of blocks 11, 30 (out of order) and 12. -/
theorem flash_offsets_are_sequential_witness :
    ((ex_device ⟨10, 4294967295, 1024, 11, 1, .BIN⟩).file_transfer_state.amt_written
        = u32 (((ex_device ⟨10, 4294967295, 1024, 11, 1, .BIN⟩).file_transfer_state.last_block_written
            - (ex_device ⟨10, 4294967295, 1024, 11, 1, .BIN⟩).file_transfer_state.start_block + 1)
            * (ex_device ⟨10, 4294967295, 1024, 11, 1, .BIN⟩).USBD_MSC_BlockSize))
    ∧ flash_calls (usbd_msc_write_sect ex_validate ex_flash_ok
        (ex_device ⟨10, 4294967295, 1024, 11, 1, .BIN⟩) 12 ex_data 1).2
      = [Event.target_flash_program_page 1024 ex_data 512]
    ∧ program_offsets (write_calls ex_validate ex_idle
        (⟨10, ex_firmware, 1, ex_flash_ok⟩
          :: [⟨11, ex_data, 1, ex_flash_ok⟩, ⟨30, ex_data, 1, ex_flash_ok⟩,
              ⟨12, ex_data, 1, ex_flash_ok⟩])).2
      = (List.range (program_offsets (write_calls ex_validate ex_idle
          (⟨10, ex_firmware, 1, ex_flash_ok⟩
            :: [⟨11, ex_data, 1, ex_flash_ok⟩, ⟨30, ex_data, 1, ex_flash_ok⟩,
                ⟨12, ex_data, 1, ex_flash_ok⟩])).2).length).map
          (fun i => u32 (i * ex_idle.USBD_MSC_BlockSize))
    ∧ (program_offsets (write_calls ex_validate ex_idle
        (⟨10, ex_firmware, 1, ex_flash_ok⟩
          :: [⟨11, ex_data, 1, ex_flash_ok⟩, ⟨30, ex_data, 1, ex_flash_ok⟩,
              ⟨12, ex_data, 1, ex_flash_ok⟩])).2).Nodup :=
  ⟨(flash_offsets_are_sequential ex_validate ex_idle
      (ex_device ⟨10, 4294967295, 1024, 11, 1, .BIN⟩)
      [⟨10, ex_firmware, 1, ex_flash_ok⟩, ⟨11, ex_data, 1, ex_flash_ok⟩]
      ⟨12, ex_data, 1, ex_flash_ok⟩ [] (by decide) (by decide) (by decide)).1 (by decide),
   (flash_offsets_are_sequential ex_validate ex_idle
      (ex_device ⟨10, 4294967295, 1024, 11, 1, .BIN⟩)
      [⟨10, ex_firmware, 1, ex_flash_ok⟩, ⟨11, ex_data, 1, ex_flash_ok⟩]
      ⟨12, ex_data, 1, ex_flash_ok⟩ [] (by decide) (by decide) (by decide)).2.1
      (by decide) (by decide) (by decide) (by decide),
   ((flash_offsets_are_sequential ex_validate ex_idle ex_idle []
      ⟨10, ex_firmware, 1, ex_flash_ok⟩
      [⟨11, ex_data, 1, ex_flash_ok⟩, ⟨30, ex_data, 1, ex_flash_ok⟩,
       ⟨12, ex_data, 1, ex_flash_ok⟩] (by decide) (by decide) (by decide)).2.2
      (by decide) (by decide) (by decide) (by decide)).1,
   ((flash_offsets_are_sequential ex_validate ex_idle ex_idle []
      ⟨10, ex_firmware, 1, ex_flash_ok⟩
      [⟨11, ex_data, 1, ex_flash_ok⟩, ⟨30, ex_data, 1, ex_flash_ok⟩,
       ⟨12, ex_data, 1, ex_flash_ok⟩] (by decide) (by decide) (by decide)).2.2
      (by decide) (by decide) (by decide) (by decide)).2 (by decide) (by decide)⟩

/-- Counterexample to C27 as stated (the offsets of one transfer repeat).  On the example
device (block size 512, root-directory sectors 7 and 8) a transfer is armed at block 9,
programmed at offset 0.  The contiguous writes of blocks 10 to 8388615 keep it in progress
with the size unknown; block 8388616 is then programmed at offset `0xFFFFFE00`, the byte
count wraps to 0, the transfer stays in progress, and block 8388617 is programmed at offset
0 again. -/
theorem flash_offsets_repeat_counterexample :
    program_offsets (usbd_msc_write_sect ex_validate ex_flash_ok ex_idle 9 ex_firmware 1).2 = [0]
    ∧ (∀ k, k ≤ 8388606 →
        (write_calls ex_validate ex_idle
          ([⟨9, ex_firmware, 1, ex_flash_ok⟩]
            ++ contiguous_calls 9 (fun _ => ex_data) (fun _ => 1) (fun _ => ex_flash_ok) k)).1
          = ex_device ⟨9, 4294967295, 512 + k * 512, 9 + k, 1, .BIN⟩)
    ∧ (512 + 8388606 * 512 = 4294966784 ∧ 9 + 8388606 = 8388615)
    ∧ usbd_msc_write_sect ex_validate ex_flash_ok
        (ex_device ⟨9, 4294967295, 4294966784, 8388615, 1, .BIN⟩) 8388616 ex_data 1
      = (ex_device ⟨9, 4294967295, 0, 8388616, 1, .BIN⟩,
          [Event.main_blink_msd_led 0, Event.target_flash_program_page 4294966784 ex_data 512])
    ∧ usbd_msc_write_sect ex_validate ex_flash_ok
        (ex_device ⟨9, 4294967295, 0, 8388616, 1, .BIN⟩) 8388617 ex_data 1
      = (ex_device ⟨9, 4294967295, 512, 8388617, 1, .BIN⟩,
          [Event.main_blink_msd_led 0, Event.target_flash_program_page 0 ex_data 512]) := by
  refine ⟨by decide, ?_, ⟨by norm_num, by norm_num⟩, by decide, by decide⟩
  intro k hk
  have hroot : ∀ j : Nat, j < k → ¬ is_root_dir_sector ex_idle.mbr (9 + 1 + j) := by
    intro j hj h
    have h1 : root_dir_sector_1 ex_idle.mbr = 7 := by decide
    have h2 : root_dir_sector_2 ex_idle.mbr = 8 := by decide
    unfold is_root_dir_sector at h
    omega
  have harm := arming_call ex_validate ex_flash_ok ex_idle 9 ex_firmware 1 (by decide)
    (by decide) (by decide)
  have hrun := contiguous_run ex_validate
    (ex_device ⟨9, 4294967295, 512, 9, 1, .BIN⟩) 9 4294967295 512 9 .BIN
    (fun _ => ex_data) (fun _ => 1) (fun _ => ex_flash_ok) k rfl rfl (by norm_num)
    (by omega) (by show 512 + k * 512 < 4294967295; omega)
    (by show 512 + k * 512 < 4294967296; omega) hroot
    (fun _ _ => (by decide : ex_flash_ok.target_flash_program_page ≠ 0))
  have hd0 : ({ ex_idle with file_transfer_state :=
      { start_block := 9, amt_to_write := 4294967295,
        amt_written := ex_idle.USBD_MSC_BlockSize, last_block_written := 9,
        transfer_started := 1, file_type := .BIN } } : Device)
      = ex_device ⟨9, 4294967295, 512, 9, 1, .BIN⟩ := rfl
  rw [write_calls_append, write_calls_single, harm.1, hd0]
  rw [show ∀ (a : Device) (b : List Event), (a, b).1 = a from fun _ _ => rfl, hrun.1]
  rfl

/-! ## The values returned by the flash driver -/

/-- C28 (flash results do not influence the transfer state): for every device and every
write call, two runs that differ only in the values `fl1`, `fl2` returned by
`target_flash_init` and `target_flash_program_page` end in the same device, hence the same
transfer state, make the same flash calls, and make the same calls altogether once the
`main_usb_disconnect_event` signals are left out.  In particular, on a ready idle device
an arming write whose `target_flash_init` fails still calls `target_flash_program_page` at
offset 0 and leaves `transfer_started = 1`, and a contiguous write whose
`target_flash_program_page` fails still adds `BlockSize` to `amt_written` (as a 32-bit
value) and sets `last_block_written` to the block. -/
theorem flash_results_do_not_influence_state (validate_bin_nvic : List Nat → Nat)
    (fl1 fl2 : FlashReturns) (d : Device) (block : Nat) (buf : List Nat) (num_of_blocks : Nat) :
    ((usbd_msc_write_sect validate_bin_nvic fl1 d block buf num_of_blocks).1
        = (usbd_msc_write_sect validate_bin_nvic fl2 d block buf num_of_blocks).1
      ∧ flash_calls (usbd_msc_write_sect validate_bin_nvic fl1 d block buf num_of_blocks).2
          = flash_calls (usbd_msc_write_sect validate_bin_nvic fl2 d block buf num_of_blocks).2
      ∧ without_disconnects
            (usbd_msc_write_sect validate_bin_nvic fl1 d block buf num_of_blocks).2
          = without_disconnects
            (usbd_msc_write_sect validate_bin_nvic fl2 d block buf num_of_blocks).2)
    ∧ (d.USBD_MSC_MediaReady = true → d.file_transfer_state.transfer_started = 0 →
        validate_bin_nvic buf = 1 → fl1.target_flash_init = 0 →
        flash_calls (usbd_msc_write_sect validate_bin_nvic fl1 d block buf num_of_blocks).2
            = [Event.target_flash_init,
               Event.target_flash_program_page 0 buf d.USBD_MSC_BlockSize]
          ∧ (usbd_msc_write_sect validate_bin_nvic fl1 d block buf
              num_of_blocks).1.file_transfer_state.transfer_started = 1)
    ∧ (d.USBD_MSC_MediaReady = true → d.file_transfer_state.transfer_started = 1 →
        block ≥ d.file_transfer_state.start_block →
        block = u32 (d.file_transfer_state.last_block_written + 1) →
        fl1.target_flash_program_page = 0 →
        (usbd_msc_write_sect validate_bin_nvic fl1 d block buf
            num_of_blocks).1.file_transfer_state.amt_written
          = u32 (d.file_transfer_state.amt_written + d.USBD_MSC_BlockSize)
        ∧ (usbd_msc_write_sect validate_bin_nvic fl1 d block buf
            num_of_blocks).1.file_transfer_state.last_block_written = block) := by
  refine ⟨write_sect_indep validate_bin_nvic fl1 fl2 d block buf num_of_blocks, ?_, ?_⟩
  · intro hready hidle hv hfail
    have h := arming_call validate_bin_nvic fl1 d block buf num_of_blocks hready hidle hv
    rw [h.1, h.2]
    refine ⟨?_, rfl⟩
    split_ifs <;> simp [flash_calls]
  · intro hready hstarted hge hnext hfail
    rw [contiguous_call validate_bin_nvic fl1 d block buf num_of_blocks hready hstarted hge hnext]
    exact ⟨(write_complete_fields _).2.2.1, (write_complete_fields _).2.2.2.1⟩

/-- Witness of C28: on the idle example device, the arming write of block 10 with a failing
`target_flash_init`, compared with the run where the driver succeeds, and the contiguous
write of block 12 with a failing `target_flash_program_page`. -/
theorem flash_results_do_not_influence_state_witness :
    (usbd_msc_write_sect ex_validate ex_flash_init_fails ex_idle 10 ex_firmware 1).1
        = (usbd_msc_write_sect ex_validate ex_flash_ok ex_idle 10 ex_firmware 1).1
    ∧ (flash_calls
          (usbd_msc_write_sect ex_validate ex_flash_init_fails ex_idle 10 ex_firmware 1).2
        = [Event.target_flash_init,
           Event.target_flash_program_page 0 ex_firmware ex_idle.USBD_MSC_BlockSize]
      ∧ (usbd_msc_write_sect ex_validate ex_flash_init_fails ex_idle 10 ex_firmware
          1).1.file_transfer_state.transfer_started = 1)
    ∧ ((usbd_msc_write_sect ex_validate ex_flash_program_fails ex_active 12 ex_data
          1).1.file_transfer_state.amt_written
        = u32 (ex_active.file_transfer_state.amt_written + ex_active.USBD_MSC_BlockSize)
      ∧ (usbd_msc_write_sect ex_validate ex_flash_program_fails ex_active 12 ex_data
          1).1.file_transfer_state.last_block_written = 12) :=
  ⟨(flash_results_do_not_influence_state ex_validate ex_flash_init_fails ex_flash_ok ex_idle 10
      ex_firmware 1).1.1,
   (flash_results_do_not_influence_state ex_validate ex_flash_init_fails ex_flash_ok ex_idle 10
      ex_firmware 1).2.1 (by decide) (by decide) (by decide) (by decide),
   (flash_results_do_not_influence_state ex_validate ex_flash_program_fails ex_flash_ok ex_active
      12 ex_data 1).2.2 (by decide) (by decide) (by decide) (by decide) (by decide)⟩

/-! ## The accepted first bytes -/

/-- C29 (exact accepted first-byte set): `first_byte_valid c` is 1 exactly when `c` is an
ASCII digit (48..57), an upper-case ASCII letter (65..90) or the NUL byte 0, and 0 for every
other value, among them the lower-case letters (97..122) and `0xE5`. -/
theorem first_byte_valid_exact (c : Nat) :
    (first_byte_valid c = 1 ↔ (48 ≤ c ∧ c ≤ 57) ∨ (65 ≤ c ∧ c ≤ 90) ∨ c = 0)
    ∧ (¬ ((48 ≤ c ∧ c ≤ 57) ∨ (65 ≤ c ∧ c ≤ 90) ∨ c = 0) → first_byte_valid c = 0)
    ∧ ((97 ≤ c ∧ c ≤ 122) → first_byte_valid c = 0)
    ∧ first_byte_valid 229 = 0 := by
  have key : (first_byte_valid c = 1 ↔ (48 ≤ c ∧ c ≤ 57) ∨ (65 ≤ c ∧ c ≤ 90) ∨ c = 0)
      ∧ (¬ ((48 ≤ c ∧ c ≤ 57) ∨ (65 ≤ c ∧ c ≤ 90) ∨ c = 0) → first_byte_valid c = 0) := by
    by_cases hc : c ≤ 90
    · interval_cases c <;> decide
    · have hall : ∀ l : List Nat, (∀ x ∈ l, x ≠ 0 ∧ x ≤ 90) → first_byte_valid_loop c l = 0 := by
        intro l
        induction l with
        | nil => intro _; simp [first_byte_valid_loop]; omega
        | cons a t ih =>
          intro h
          have ha := h a (List.mem_cons_self a t)
          have hne : c ≠ a := by omega
          simp only [first_byte_valid_loop, hne, if_false, ha.1, ne_eq, not_false_eq_true,
            if_true]
          exact ih (fun x hx => h x (List.mem_cons_of_mem a hx))
      have h0 : first_byte_valid c = 0 := hall valid_char (by decide)
      constructor
      · rw [h0]
        constructor
        · intro h; exact absurd h (by norm_num)
        · intro h; omega
      · intro _; exact h0
  refine ⟨key.1, key.2, ?_, by decide⟩
  intro h
  exact key.2 (by omega)

/-- Witness of C29: the digit `0` and the NUL byte are accepted, the letter `f` and the
byte `0xE5` are not. -/
theorem first_byte_valid_exact_witness :
    first_byte_valid 48 = 1 ∧ first_byte_valid 0 = 1 ∧ first_byte_valid 102 = 0
      ∧ first_byte_valid 229 = 0 :=
  ⟨(first_byte_valid_exact 48).1.2 (Or.inl ⟨by decide, by decide⟩),
   (first_byte_valid_exact 0).1.2 (Or.inr (Or.inr rfl)),
   (first_byte_valid_exact 102).2.2.1 ⟨by decide, by decide⟩,
   (first_byte_valid_exact 229).2.2.2⟩

/-! ## Writes while idle -/

/-- C30 (idle writes are inert): with `transfer_started = 0`, a write whose data
`validate_bin_nvic` does not accept and whose block is neither of the two root-directory
sectors returns the device as it was (every transfer-state field unchanged), makes no flash
call and signals no disconnect. -/
theorem idle_write_is_inert (validate_bin_nvic : List Nat → Nat) (fl : FlashReturns)
    (d : Device) (block : Nat) (buf : List Nat) (num_of_blocks : Nat)
    (hidle : d.file_transfer_state.transfer_started = 0)
    (hv : validate_bin_nvic buf ≠ 1)
    (hnroot : ¬ is_root_dir_sector d.mbr block) :
    (usbd_msc_write_sect validate_bin_nvic fl d block buf num_of_blocks).1 = d
    ∧ flash_calls (usbd_msc_write_sect validate_bin_nvic fl d block buf num_of_blocks).2 = []
    ∧ disconnect_count (usbd_msc_write_sect validate_bin_nvic fl d block buf num_of_blocks).2
        = 0 := by
  by_cases hready : d.USBD_MSC_MediaReady = true
  · rw [idle_call validate_bin_nvic fl d block buf num_of_blocks hready hidle hv,
      write_root_dir_of_not_root _ _ _ _ _ hnroot]
    exact ⟨rfl, rfl, rfl⟩
  · have hnr : d.USBD_MSC_MediaReady = false := by simpa using hready
    rw [write_sect_not_ready validate_bin_nvic fl d block buf num_of_blocks hnr]
    exact ⟨rfl, rfl, rfl⟩

/-- Witness of C30: on the device left by a completed transfer, the write of block 30 with
data that is not firmware changes nothing. -/
theorem idle_write_is_inert_witness :
    (usbd_msc_write_sect ex_validate ex_flash_ok ex_completed 30 ex_data 1).1 = ex_completed
    ∧ flash_calls (usbd_msc_write_sect ex_validate ex_flash_ok ex_completed 30 ex_data 1).2 = []
    ∧ disconnect_count (usbd_msc_write_sect ex_validate ex_flash_ok ex_completed 30 ex_data
        1).2 = 0 :=
  idle_write_is_inert ex_validate ex_flash_ok ex_completed 30 ex_data 1
    (by decide) (by decide) (by decide)

/-! ## The block count of a write -/

/-- C31 (the block count is ignored on write): for every device, block and data,
`usbd_msc_write_sect` gives the same device, hence the same transfer state, and the same
calls in the same order (flash calls and signals alike) for every two values of
`num_of_blocks`; every `target_flash_program_page` call it makes passes the buffer of the
call with the length `BlockSize`; and it makes at most one such call: one block is
processed per call. -/
theorem block_count_is_ignored (validate_bin_nvic : List Nat → Nat) (fl : FlashReturns)
    (d : Device) (block : Nat) (buf : List Nat) (n1 n2 : Nat) :
    usbd_msc_write_sect validate_bin_nvic fl d block buf n1
        = usbd_msc_write_sect validate_bin_nvic fl d block buf n2
    ∧ (∀ (adr : Nat) (b : List Nat) (size : Nat),
        Event.target_flash_program_page adr b size
            ∈ (usbd_msc_write_sect validate_bin_nvic fl d block buf n1).2 →
          b = buf ∧ size = d.USBD_MSC_BlockSize)
    ∧ (program_offsets (usbd_msc_write_sect validate_bin_nvic fl d block buf n1).2).length
        ≤ 1 := by
  refine ⟨rfl, ?_, ?_⟩
  · intro adr b size hmem
    by_cases hready : d.USBD_MSC_MediaReady = true
    · by_cases harm : validate_bin_nvic buf = 1 ∧ d.file_transfer_state.transfer_started = 0
      · rw [(arming_call validate_bin_nvic fl d block buf n1 hready harm.2 harm.1).2] at hmem
        split_ifs at hmem <;> simp at hmem <;> exact ⟨hmem.2.1, hmem.2.2⟩
      · rw [write_sect_no_arm validate_bin_nvic fl d block buf n1 hready harm] at hmem
        unfold write_data write_complete at hmem
        split_ifs at hmem <;> simp at hmem <;> exact ⟨hmem.2.1, hmem.2.2⟩
    · have hnr : d.USBD_MSC_MediaReady = false := by simpa using hready
      rw [write_sect_not_ready validate_bin_nvic fl d block buf n1 hnr] at hmem
      simp at hmem
  · rcases write_sect_cases validate_bin_nvic fl d block buf n1 with hc | hc | hc
    · rw [hc.2.2.2.2]; exact Nat.zero_le 1
    · rw [hc.2.2]; exact Nat.le_refl 1
    · rw [hc.2.2.2.2.2.2]; exact Nat.le_refl 1

/-- Witness of C31: with a transfer in progress on the example device, the contiguous write
of block 12 with the block counts 1 and 8; the one flash call programs the buffer of the
call with the length 512. -/
theorem block_count_is_ignored_witness :
    usbd_msc_write_sect ex_validate ex_flash_ok ex_active 12 ex_data 1
        = usbd_msc_write_sect ex_validate ex_flash_ok ex_active 12 ex_data 8
    ∧ Event.target_flash_program_page 1024 ex_data 512
        ∈ (usbd_msc_write_sect ex_validate ex_flash_ok ex_active 12 ex_data 1).2
    ∧ (ex_data = ex_data ∧ 512 = ex_active.USBD_MSC_BlockSize)
    ∧ (program_offsets
          (usbd_msc_write_sect ex_validate ex_flash_ok ex_active 12 ex_data 1).2).length ≤ 1 :=
  ⟨(block_count_is_ignored ex_validate ex_flash_ok ex_active 12 ex_data 1 8).1,
   by decide,
   (block_count_is_ignored ex_validate ex_flash_ok ex_active 12 ex_data 1 8).2.1 1024 ex_data
      512 (by decide),
   (block_count_is_ignored ex_validate ex_flash_ok ex_active 12 ex_data 1 8).2.2⟩

end DAPLink
